import Mathlib

/-!
# FlowFieldCanvas: the flow-field core of `AFlowField` (FlowField.cpp)

A shallow embedding of `AFlowField::CalculateFlowField`, the coordinate mapping
(`WorldToGrid`, `GetCellAtLocation`), the grid construction (`CreateGrid`,
`EnvQuery`), the initialisation (`InitFlowField`) and the refresh timer
(`UpdateTimer`, `TickFlowField`), followed by theorems about them.

Conventions of the embedding

* `float`/`double` quantities are exact rationals (`ℚ`); the engine functions
  that are not rational (rotation about the Z axis, the arctangent behind the
  slope angle, vector normalisation, the arccosine of the ground normal) and
  the scene queries are fields of `Engine`.
* `uint8 cost` and `int32 dist` are natural numbers: `dist` starts at 65535 and
  is only ever overwritten by `cost + dist` with `cost ≤ 255` when that is
  smaller, so no value leaves `[0, 65535]` and nothing wraps.
* `int32` variables (`xNum`, `yNum`, `gridCoordX`, `gridCoordY`) hold integers in
  `[-2^31, 2^31)`: a rounded quotient is reduced modulo 2^32 when it is stored
  (`toInt32`). Quotients beyond the 64-bit range, where the conversion from
  floating point is itself undefined, are outside the embedding.
* Grid coordinates (`FVector2D` holding whole numbers) are pairs of integers.
* `TMap<FVector2D, FCellStruct>` is its key list together with a lookup
  function. Inside `CalculateFlowField`, `operator[]` is the lookup (the code
  only indexes keys that exist once the map was built for the current `xNum`,
  `yNum`); in `GetCellAtLocation`, which reads the published map at any time,
  `operator[]` is `FindChecked` and fails on a key the map does not hold.
-/

namespace FlowField

/-! ## Engine types -/

/-- FVector with exact rational components. -/
structure FVector where
  X : ℚ
  Y : ℚ
  Z : ℚ
deriving DecidableEq

namespace FVector

/-- FVector::ZeroVector. -/
def ZeroVector : FVector := ⟨0, 0, 0⟩

/-- Component-wise sum. -/
def add (a b : FVector) : FVector := ⟨a.X + b.X, a.Y + b.Y, a.Z + b.Z⟩

/-- Component-wise difference. -/
def sub (a b : FVector) : FVector := ⟨a.X - b.X, a.Y - b.Y, a.Z - b.Z⟩

end FVector

/-- Grid coordinate: an `FVector2D` whose components are whole numbers. -/
abbrev FVector2D := Int × Int

/-- FLT_MAX, the largest finite single-precision value. -/
def FLT_MAX : ℚ := 340282346638528859811704183484516925440

/-- FMath::Clamp: `Max(Min(X, MaxValue), MinValue)`. -/
def Clamp {α : Type} [LinearOrder α] (X MinValue MaxValue : α) : α :=
  max (min X MaxValue) MinValue

/-- The value a whole number takes when it is stored in an `int32`: the
representative of its residue modulo 2^32 in `[-2^31, 2^31)`. -/
def toInt32 (z : Int) : Int := (z + 2147483648) % 4294967296 - 2147483648

/-- FMath::RoundToInt, `FloorToInt(F + 0.5)`, as it arrives in the `int32`
variables that receive it (`xNum`, `yNum`, `gridCoordX`, `gridCoordY`). -/
def RoundToInt (F : ℚ) : Int := toInt32 ⌊F + 1 / 2⌋

/-- Modelled from the spec: `ECellType` is declared in FlowField.h, which is not
among the sources; its values are the three classifications of the spec, under
the names FlowField.cpp uses. -/
inductive ECellType where
  | Ground
  | Obstacle
  | Empty
deriving DecidableEq

/-- Modelled from the spec: `EStyle` is declared in FlowField.h, which is not
among the sources; its values are the two neighbour topologies of the spec,
under the names FlowField.cpp uses (`AdjacentFirst` expands all eight
neighbours, `DiagonalFirst` the four axis-aligned ones). -/
inductive EStyle where
  | AdjacentFirst
  | DiagonalFirst
deriving DecidableEq

/-- Modelled from the spec: `EInitMode` is declared in FlowField.h, which is not
among the sources; its values are the three modes FlowField.cpp names. -/
inductive EInitMode where
  | Construction
  | BeginPlay
  | Ticking
deriving DecidableEq

/-- Modelled from the spec: the declaration of `FCellStruct` (FlowField.h) is not
among the sources. Fields are the ones FlowField.cpp reads and writes; the
defaults follow the data model of the spec: the integration value starts at the
sentinel 65535, the direction at the zero vector, the normal at the up vector,
and an unsampled cell is impassable. -/
structure FCellStruct where
  cost : Nat := 255
  costBP : Nat := 255
  dist : Nat := 65535
  dir : FVector := FVector.ZeroVector
  normal : FVector := ⟨0, 0, 1⟩
  gridCoord : FVector2D := (0, 0)
  worldLoc : FVector := FVector.ZeroVector
  type : ECellType := ECellType.Ground
deriving DecidableEq

/-- TMap<FVector2D, FCellStruct>: the keys in insertion order and the lookup. -/
structure TMap where
  keys : List FVector2D
  val : FVector2D → FCellStruct

namespace TMap

/-- TMap::Empty. -/
def Empty : TMap := ⟨[], fun _ => {}⟩

/-- TMap::Add: insert or overwrite the value of a key. -/
def Add (m : TMap) (k : FVector2D) (v : FCellStruct) : TMap :=
  ⟨if k ∈ m.keys then m.keys else m.keys ++ [k], fun c => if c = k then v else m.val c⟩

/-- TMap::Num. -/
def Num (m : TMap) : Nat := m.keys.length

/-- TMap::operator[], which is `FindChecked`: the value stored for a key; it
fails (an assertion of the engine) when the map holds no such key. -/
def FindChecked (m : TMap) (k : FVector2D) : Option FCellStruct :=
  if k ∈ m.keys then some (m.val k) else none

end TMap

/-- The engine and scene functions the core calls but does not define. -/
structure Engine where
  /-- `FVector::RotateAngleAxis(angle, (0,0,1))`. -/
  RotateAngleAxisZ : ℚ → FVector → FVector
  /-- The test `slopeAngle > maxWalkableAngle` for the slope angle between two
  world locations (absolute height difference over horizontal distance). -/
  slopeExceeds : FVector → FVector → ℚ → Bool
  /-- `UKismetMathLibrary::GetDirectionUnitVector(From, To)`. -/
  GetDirectionUnitVector : FVector → FVector → FVector
  /-- The test `Acos(Dot(ImpactNormal, Up)) > DegreesToRadians(maxWalkableAngle)`. -/
  normalExceeds : FVector → ℚ → Bool
  /-- Line trace for ground objects between two points: impact point and normal. -/
  LineTraceGround : FVector → FVector → Option (FVector × FVector)
  /-- Sphere trace for obstacle objects between two points with a radius:
  impact point. -/
  SphereTraceObstacle : FVector → FVector → ℚ → Option FVector

/-- Modelled from the spec: the class `AFlowField` is declared in FlowField.h,
which is not among the sources. The fields are the members FlowField.cpp reads
and writes in the functions embedded here. `ActorLocation` and `ActorYaw` are
what `GetActorLocation()` and `GetActorRotation().Yaw` return; `goalActor` is
the location of the goal actor when it is valid; `actorYaw` is `actorRot.Yaw`. -/
structure AFlowField where
  cellSize : ℚ
  flowFieldSize : FVector
  initialCost : Int
  maxWalkableAngle : ℚ
  Style : EStyle
  updateInterval : ℚ
  traceGround : Bool
  traceObstacles : Bool
  goalActor : Option FVector
  ActorLocation : FVector
  ActorYaw : ℚ
  nextTickTimeLeft : ℚ
  bIsGridDirty : Bool
  goalLocation : FVector
  goalGridCoord : FVector2D
  bIsValidGoalCoord : Bool
  xNum : Int
  yNum : Int
  actorLoc : FVector
  actorYaw : ℚ
  offsetLoc : FVector
  relativeLoc : FVector
  InitialCellsMap : TMap
  CurrentCellsMap : TMap

/-! ## CalculateFlowField -/

/-- The lambda `IsValidCoord` of `CalculateFlowField`. -/
def IsValidCoord (s : AFlowField) (gridCoord : FVector2D) : Bool :=
  decide (0 ≤ gridCoord.1) && decide (gridCoord.1 < s.xNum) &&
    decide (0 ≤ gridCoord.2) && decide (gridCoord.2 < s.yNum)

/-- Overwrite one cell of a cell map. -/
def setCell (cells : FVector2D → FCellStruct) (k : FVector2D) (v : FCellStruct) :
    FVector2D → FCellStruct :=
  fun c => if c = k then v else cells c

/-- The lambda `IsValidDiagonal` of `CalculateFlowField`: neither of the two
listed neighbours is an in-bounds cell of cost 255. -/
def IsValidDiagonal (s : AFlowField) (NewCellsMap : FVector2D → FCellStruct)
    (neighborCoords : List FVector2D) (indexA indexB : Nat) : Bool :=
  let result := true
  let result :=
    if IsValidCoord s (neighborCoords.getD indexA (0, 0)) then
      if (NewCellsMap (neighborCoords.getD indexA (0, 0))).cost = 255 then false else result
    else result
  let result :=
    if IsValidCoord s (neighborCoords.getD indexB (0, 0)) then
      if (NewCellsMap (neighborCoords.getD indexB (0, 0))).cost = 255 then false else result
    else result
  result

/-- The neighbour list of the integration pass for a topology. -/
def integrationNeighborCoords (Style : EStyle) (currentCoord : FVector2D) : List FVector2D :=
  match Style with
  | EStyle.AdjacentFirst =>
    [ (currentCoord.1 + 1, currentCoord.2 + -1),
      (currentCoord.1 + 1, currentCoord.2 + 1),
      (currentCoord.1 + -1, currentCoord.2 + 1),
      (currentCoord.1 + -1, currentCoord.2 + -1),
      (currentCoord.1 + 0, currentCoord.2 + -1),
      (currentCoord.1 + 1, currentCoord.2 + 0),
      (currentCoord.1 + 0, currentCoord.2 + 1),
      (currentCoord.1 + -1, currentCoord.2 + 0) ]
  | EStyle.DiagonalFirst =>
    [ (currentCoord.1 + 0, currentCoord.2 + -1),
      (currentCoord.1 + 1, currentCoord.2 + 0),
      (currentCoord.1 + 0, currentCoord.2 + 1),
      (currentCoord.1 + -1, currentCoord.2 + 0) ]

/-- The neighbour list of the flow pass. -/
def flowNeighborCoords (currentCoord : FVector2D) : List FVector2D :=
  [ (currentCoord.1 + 0, currentCoord.2 + -1),
    (currentCoord.1 + 1, currentCoord.2 + 0),
    (currentCoord.1 + 0, currentCoord.2 + 1),
    (currentCoord.1 + -1, currentCoord.2 + 0),
    (currentCoord.1 + 1, currentCoord.2 + -1),
    (currentCoord.1 + 1, currentCoord.2 + 1),
    (currentCoord.1 + -1, currentCoord.2 + 1),
    (currentCoord.1 + -1, currentCoord.2 + -1) ]

/-- The guards of the neighbour loop of the integration pass: `true` when no
`continue` is taken for neighbour `i` of the popped cell, so that the
relaxation test is reached. -/
def integrationAccepts (E : Engine) (s : AFlowField) (NewCellsMap : FVector2D → FCellStruct)
    (currentCell : FCellStruct) (neighborCoords : List FVector2D) (i : Nat) : Bool :=
  let neighborCoord := neighborCoords.getD i (0, 0)
  if !IsValidCoord s neighborCoord then false
  else
    let neighborCell := NewCellsMap neighborCoord
    if neighborCell.cost = 255 then false
    else if s.Style = EStyle.AdjacentFirst ∧
        ((i = 0 ∧ !IsValidDiagonal s NewCellsMap neighborCoords 4 5) ∨
         (i = 1 ∧ !IsValidDiagonal s NewCellsMap neighborCoords 5 6) ∨
         (i = 2 ∧ !IsValidDiagonal s NewCellsMap neighborCoords 6 7) ∨
         (i = 3 ∧ !IsValidDiagonal s NewCellsMap neighborCoords 7 4)) then false
    else if E.slopeExceeds currentCell.worldLoc neighborCell.worldLoc s.maxWalkableAngle ∧
        currentCell.cost ≠ 255 then false
    else true

/-- The local state of the integration pass: the working map `NewCellsMap` and
the priority queue `CellsToCheck` (as the list of its entries). -/
structure IntegrationState where
  NewCellsMap : FVector2D → FCellStruct
  CellsToCheck : List FCellStruct

/-- One round of the neighbour loop of the integration pass. -/
def integrationVisit (E : Engine) (s : AFlowField) (currentCell : FCellStruct)
    (neighborCoords : List FVector2D) (st : IntegrationState) (i : Nat) : IntegrationState :=
  if integrationAccepts E s st.NewCellsMap currentCell neighborCoords i then
    let neighborCoord := neighborCoords.getD i (0, 0)
    let neighborCell := st.NewCellsMap neighborCoord
    let newDist := neighborCell.cost + currentCell.dist
    if newDist < neighborCell.dist then
      let neighborCell := { neighborCell with dist := newDist }
      { NewCellsMap := setCell st.NewCellsMap neighborCoord neighborCell,
        CellsToCheck := st.CellsToCheck ++ [neighborCell] }
    else st
  else st

/-- The body of the `while` loop after the pop: the neighbour loop for the
popped cell. -/
def integrationExpand (E : Engine) (s : AFlowField) (currentCell : FCellStruct)
    (st : IntegrationState) : IntegrationState :=
  let neighborCoords := integrationNeighborCoords s.Style currentCell.gridCoord
  (List.range neighborCoords.length).foldl (integrationVisit E s currentCell neighborCoords) st

/-- Take the entry with the least `dist` out of a non-empty queue whose first
entry is `best`: the entry and the remaining entries. -/
def extractMin (best : FCellStruct) : List FCellStruct → FCellStruct × List FCellStruct
  | [] => (best, [])
  | c :: cs =>
    if c.dist < best.dist then
      ((extractMin c cs).1, best :: (extractMin c cs).2)
    else
      ((extractMin best cs).1, c :: (extractMin best cs).2)

/-- `top()` followed by `pop()` on the priority queue ordered by `CostCompare`:
an entry of least `dist` (the first one in insertion order; which of several
least entries a `std::priority_queue` yields is not fixed by the language, and
no theorem below relies on the choice). -/
def popMin : List FCellStruct → Option (FCellStruct × List FCellStruct)
  | [] => none
  | c :: cs => some (extractMin c cs)

/-- The `while (!CellsToCheck.empty())` loop, for at most `fuel` rounds. -/
def integrationLoop (E : Engine) (s : AFlowField) : Nat → IntegrationState → IntegrationState
  | 0, st => st
  | fuel + 1, st =>
    match popMin st.CellsToCheck with
    | none => st
    | some (currentCell, rest) =>
      integrationLoop E s fuel
        (integrationExpand E s currentCell { st with CellsToCheck := rest })

/-- The working map at the start of the integration pass: the grid with the
cost of the goal cell overwritten by 0 (`CurrentCellsMap[goalGridCoord].cost = 0`). -/
def workingCells (s : AFlowField) : FVector2D → FCellStruct :=
  setCell s.InitialCellsMap.val s.goalGridCoord
    { s.InitialCellsMap.val s.goalGridCoord with cost := 0 }

/-- The state of the integration pass before the loop: the goal cell is seeded
with cost 0 and integration value 0 and pushed. -/
def integrationInit (s : AFlowField) : IntegrationState :=
  let targetCell := { workingCells s s.goalGridCoord with cost := 0, dist := 0 }
  { NewCellsMap := setCell (workingCells s) s.goalGridCoord targetCell,
    CellsToCheck := [targetCell] }

/-- A number of rounds after which the loop has stopped: every round pops one
entry, and every push lowers the integration value of one of the
`xNum * yNum` cells, each of which starts at 65535 at most. -/
def integrationFuel (s : AFlowField) : Nat :=
  2 * 65535 * (s.xNum.toNat * s.yNum.toNat) + 2

/-- The block `CreateIntegrationField`: the working map after the loop. -/
def CreateIntegrationField (E : Engine) (s : AFlowField) : IntegrationState :=
  integrationLoop E s (integrationFuel s) (integrationInit s)

/-- The guards of the neighbour loop of the flow pass: `true` when no `continue`
is taken for neighbour `i` of the current cell. -/
def flowAccepts (E : Engine) (s : AFlowField) (NewCellsMap : FVector2D → FCellStruct)
    (currentCell : FCellStruct) (neighborCoords : List FVector2D) (i : Nat) : Bool :=
  let neighborCoord := neighborCoords.getD i (0, 0)
  if !IsValidCoord s neighborCoord then false
  else
    let neighborCell := NewCellsMap neighborCoord
    if neighborCell.cost = 255 then false
    else if currentCell.cost ≠ 255 ∧
        ((i = 4 ∧ !IsValidDiagonal s NewCellsMap neighborCoords 0 1) ∨
         (i = 5 ∧ !IsValidDiagonal s NewCellsMap neighborCoords 1 2) ∨
         (i = 6 ∧ !IsValidDiagonal s NewCellsMap neighborCoords 2 3) ∨
         (i = 7 ∧ !IsValidDiagonal s NewCellsMap neighborCoords 3 0)) then false
    else if E.slopeExceeds currentCell.worldLoc neighborCell.worldLoc s.maxWalkableAngle ∧
        currentCell.cost ≠ 255 then false
    else true

/-- The locals `hasBestCell`, `bestCell`, `bestDist` of the flow pass;
`bestCell` is `none` as long as `hasBestCell` is false. -/
structure BestState where
  bestCell : Option FCellStruct
  bestDist : Nat

/-- One round of the neighbour loop of the flow pass. -/
def flowVisit (E : Engine) (s : AFlowField) (NewCellsMap : FVector2D → FCellStruct)
    (currentCell : FCellStruct) (neighborCoords : List FVector2D) (b : BestState) (i : Nat) :
    BestState :=
  if flowAccepts E s NewCellsMap currentCell neighborCoords i then
    let neighborCell := NewCellsMap (neighborCoords.getD i (0, 0))
    if neighborCell.dist < b.bestDist then
      { bestCell := some neighborCell, bestDist := neighborCell.dist }
    else b
  else b

/-- The neighbour loop of the flow pass for the cell at `currentCoord`. -/
def flowBest (E : Engine) (s : AFlowField) (NewCellsMap : FVector2D → FCellStruct)
    (currentCoord : FVector2D) : BestState :=
  let currentCell := NewCellsMap currentCoord
  let neighborCoords := flowNeighborCoords currentCoord
  (List.range 8).foldl (flowVisit E s NewCellsMap currentCell neighborCoords)
    { bestCell := none, bestDist := currentCell.dist }

/-- The direction the flow pass writes into the cell at `currentCoord`. -/
def flowDir (E : Engine) (s : AFlowField) (NewCellsMap : FVector2D → FCellStruct)
    (currentCoord : FVector2D) : FVector :=
  match (flowBest E s NewCellsMap currentCoord).bestCell with
  | some bestCell => E.GetDirectionUnitVector (NewCellsMap currentCoord).worldLoc bestCell.worldLoc
  | none => FVector.ZeroVector

/-- The body of the `ParallelFor` of the flow pass for index `j`. -/
def flowBody (E : Engine) (s : AFlowField) (NewCellsMap : FVector2D → FCellStruct) (j : Nat) :
    FVector2D → FCellStruct :=
  let currentIndex : Int := j
  let currentCoord : FVector2D := (currentIndex / s.yNum, currentIndex % s.yNum)
  setCell NewCellsMap currentCoord
    { NewCellsMap currentCoord with dir := flowDir E s NewCellsMap currentCoord }

/-- The block `CreateFlowField`: the bodies for `j = 0 .. numCells - 1`, one
after the other (a body reads `cost`, `dist` and `worldLoc` and writes only the
`dir` of its own cell, so the order does not matter). -/
def CreateFlowField (E : Engine) (s : AFlowField) (numCells : Nat)
    (NewCellsMap : FVector2D → FCellStruct) : FVector2D → FCellStruct :=
  (List.range numCells).foldl (flowBody E s) NewCellsMap

/-- AFlowField::CalculateFlowField. -/
def CalculateFlowField (E : Engine) (s : AFlowField) : AFlowField :=
  if s.nextTickTimeLeft ≠ s.updateInterval then s
  else
    let numCells := s.InitialCellsMap.Num
    let NewCellsMap := (CreateIntegrationField E s).NewCellsMap
    let NewCellsMap := CreateFlowField E s numCells NewCellsMap
    { s with CurrentCellsMap := ⟨s.InitialCellsMap.keys, NewCellsMap⟩ }

/-! ## Coordinate mapping -/

/-- The grid-local position of a world location: the offset of the actor and its
yaw removed, measured from the corner of the grid. -/
def relativeLocation (E : Engine) (s : AFlowField) (Location : FVector) : FVector :=
  FVector.add (E.RotateAngleAxisZ (-s.actorYaw) (FVector.sub Location s.actorLoc)) s.offsetLoc

/-- AFlowField::WorldToGrid: the validity flag and the clamped grid coordinate. -/
def WorldToGrid (E : Engine) (s : AFlowField) (Location : FVector) : Bool × FVector2D :=
  let relativeLocation := relativeLocation E s Location
  let cellRadius := s.cellSize / 2
  let gridCoordX := RoundToInt ((relativeLocation.X - cellRadius) / s.cellSize)
  let gridCoordY := RoundToInt ((relativeLocation.Y - cellRadius) / s.cellSize)
  let bIsValid : Bool :=
    if (gridCoordX ≥ 0 ∧ gridCoordX < s.xNum) ∧ (gridCoordY ≥ 0 ∧ gridCoordY < s.yNum) then true
    else false
  (bIsValid, (Clamp gridCoordX 0 (s.xNum - 1), Clamp gridCoordY 0 (s.yNum - 1)))

/-- AFlowField::GetCellAtLocation: the validity flag and the published cell;
no result when the published map holds no cell at the coordinate. -/
def GetCellAtLocation (E : Engine) (s : AFlowField) (Location : FVector) :
    Option (Bool × FCellStruct) :=
  let relativeLocation := relativeLocation E s Location
  let cellRadius := s.cellSize / 2
  let gridCoordX := RoundToInt ((relativeLocation.X - cellRadius) / s.cellSize)
  let gridCoordY := RoundToInt ((relativeLocation.Y - cellRadius) / s.cellSize)
  let bIsValid : Bool :=
    if (gridCoordX ≥ 0 ∧ gridCoordX < s.xNum) ∧ (gridCoordY ≥ 0 ∧ gridCoordY < s.yNum) then true
    else false
  let gridCoord : FVector2D := (Clamp gridCoordX 0 (s.xNum - 1), Clamp gridCoordY 0 (s.yNum - 1))
  match s.CurrentCellsMap.FindChecked gridCoord with
  | some CurrentCell => some (bIsValid, CurrentCell)
  | none => none

/-- AFlowField::UpdateGoalLocation. -/
def UpdateGoalLocation (E : Engine) (s : AFlowField) : AFlowField :=
  if s.nextTickTimeLeft ≠ s.updateInterval then s
  else
    match s.goalActor with
    | some actorLocation =>
      { s with goalLocation := actorLocation,
               bIsValidGoalCoord := (WorldToGrid E s actorLocation).1,
               goalGridCoord := (WorldToGrid E s actorLocation).2 }
    | none =>
      { s with bIsValidGoalCoord := (WorldToGrid E s s.goalLocation).1,
               goalGridCoord := (WorldToGrid E s s.goalLocation).2 }

/-! ## Initialisation and grid construction -/

/-- The part of the initialisation shared by `InitFlowField` and
`InitFlowFieldMinimal` after the mode-dependent block: clamping of the sizes,
the cell counts, the cached actor transform and offsets, the initial cost. -/
def initCommon (s : AFlowField) : AFlowField :=
  let cellSize := Clamp s.cellSize (1 / 10) FLT_MAX
  let flowFieldSize : FVector :=
    ⟨Clamp s.flowFieldSize.X cellSize FLT_MAX, Clamp s.flowFieldSize.Y cellSize FLT_MAX,
      s.flowFieldSize.Z⟩
  let xNum := RoundToInt (flowFieldSize.X / cellSize)
  let yNum := RoundToInt (flowFieldSize.Y / cellSize)
  let actorLoc := s.ActorLocation
  let actorYaw := s.ActorYaw
  let offsetLoc : FVector := ⟨xNum * cellSize / 2, yNum * cellSize / 2, 0⟩
  let relativeLoc := FVector.sub actorLoc offsetLoc
  { s with cellSize := cellSize, flowFieldSize := flowFieldSize, xNum := xNum, yNum := yNum,
           actorLoc := actorLoc, actorYaw := actorYaw, offsetLoc := offsetLoc,
           relativeLoc := relativeLoc, initialCost := Clamp s.initialCost 0 255 }

/-- AFlowField::InitFlowField (the material and decal updates are rendering and
write no member modelled here). -/
def InitFlowField (InitMode : EInitMode) (s : AFlowField) : AFlowField :=
  let s :=
    if InitMode = EInitMode.Construction ∨ InitMode = EInitMode.BeginPlay then
      { s with nextTickTimeLeft := Clamp s.updateInterval 0 FLT_MAX,
               bIsGridDirty := true,
               goalLocation := if s.goalActor.isSome then s.goalLocation else s.ActorLocation }
    else s
  initCommon s

/-- AFlowField::InitFlowFieldMinimal. -/
def InitFlowFieldMinimal (InitMode : EInitMode) (s : AFlowField) : AFlowField :=
  let s :=
    if InitMode = EInitMode.Construction ∨ InitMode = EInitMode.BeginPlay then
      { s with nextTickTimeLeft := Clamp s.updateInterval 0 FLT_MAX, bIsGridDirty := true }
    else s
  initCommon s

/-- The cost a cell gets where nothing blocks it: `initialCost` stored into the
`uint8` fields, and the classification `Obstacle` when it is 255. -/
def withInitialCost (s : AFlowField) (newCell : FCellStruct) : FCellStruct :=
  let newCell :=
    { newCell with cost := (s.initialCost % 256).toNat, costBP := (s.initialCost % 256).toNat }
  if s.initialCost = 255 then { newCell with type := ECellType.Obstacle } else newCell

/-- The cost and classification of a blocked cell. -/
def withObstacle (newCell : FCellStruct) : FCellStruct :=
  { newCell with cost := 255, costBP := 255, type := ECellType.Obstacle }

/-- AFlowField::EnvQuery: sample the world at a grid coordinate. -/
def EnvQuery (E : Engine) (s : AFlowField) (gridCoord : FVector2D) : FCellStruct :=
  let newCell : FCellStruct := {}
  let newCell := { newCell with gridCoord := gridCoord }
  let worldLoc : FVector :=
    ⟨gridCoord.1 * s.cellSize + s.relativeLoc.X + s.cellSize / 2,
     gridCoord.2 * s.cellSize + s.relativeLoc.Y + s.cellSize / 2, s.actorLoc.Z⟩
  let worldLoc := FVector.add (E.RotateAngleAxisZ s.actorYaw (FVector.sub worldLoc s.actorLoc)) s.actorLoc
  let traceStart : FVector := ⟨worldLoc.X, worldLoc.Y, s.actorLoc.Z + s.flowFieldSize.Z⟩
  let traceEnd : FVector := ⟨worldLoc.X, worldLoc.Y, s.actorLoc.Z⟩
  if s.traceGround then
    match E.LineTraceGround traceStart traceEnd with
    | some (ImpactPoint, ImpactNormal) =>
      let worldLoc := { worldLoc with Z := ImpactPoint.Z }
      let newCell := { newCell with normal := ImpactNormal, type := ECellType.Ground }
      let newCell :=
        if E.normalExceeds ImpactNormal s.maxWalkableAngle then withObstacle newCell
        else if s.traceObstacles then
          match E.SphereTraceObstacle traceStart traceEnd (s.cellSize / 2) with
          | some ObstaclePoint =>
            if ObstaclePoint.Z > ImpactPoint.Z then withObstacle newCell
            else withInitialCost s newCell
          | none => withInitialCost s newCell
        else withInitialCost s newCell
      { newCell with worldLoc := worldLoc }
    | none =>
      let worldLoc := { worldLoc with Z := -FLT_MAX }
      let newCell := { newCell with normal := ⟨0, 0, 1⟩, type := ECellType.Empty }
      { newCell with worldLoc := worldLoc }
  else
    let worldLoc := { worldLoc with Z := worldLoc.Z + s.flowFieldSize.Z / 2 }
    let newCell := { newCell with normal := ⟨0, 0, 1⟩, type := ECellType.Ground }
    let newCell :=
      if s.traceObstacles then
        match E.SphereTraceObstacle traceStart traceEnd (s.cellSize / 2) with
        | some ObstaclePoint =>
          if ObstaclePoint.Z > worldLoc.Z then withObstacle newCell
          else withInitialCost s newCell
        | none => withInitialCost s newCell
      else withInitialCost s newCell
    { newCell with worldLoc := worldLoc }

/-- The values `0, 1, .., n - 1` of a loop `for (int x = 0; x < n; ++x)`. -/
def loopRange (n : Int) : List Int :=
  List.map (fun k : Nat => Int.ofNat k) (List.range n.toNat)

/-- The double loop of `CreateGrid`: one `EnvQuery` and one `Add` per coordinate. -/
def fillGrid (E : Engine) (s : AFlowField) (m : TMap) : TMap :=
  (loopRange s.xNum).foldl
    (fun m x => (loopRange s.yNum).foldl (fun m y => m.Add (x, y) (EnvQuery E s (x, y))) m) m

/-- AFlowField::CreateGrid. -/
def CreateGrid (E : Engine) (s : AFlowField) : AFlowField :=
  if !s.bIsGridDirty then s
  else
    { s with InitialCellsMap := fillGrid E s TMap.Empty,
             CurrentCellsMap := TMap.Empty,
             bIsGridDirty := false }

/-! ## Refresh timer -/

/-- AFlowField::UpdateTimer, with the frame time `GetWorld()->GetDeltaSeconds()`. -/
def UpdateTimer (DeltaSeconds : ℚ) (s : AFlowField) : AFlowField :=
  if s.nextTickTimeLeft ≤ 0 then
    { s with nextTickTimeLeft := Clamp s.updateInterval 0 FLT_MAX }
  else
    { s with nextTickTimeLeft := s.nextTickTimeLeft - DeltaSeconds }

/-- AFlowField::TickFlowField (`DrawCells` and `DrawArrows` are rendering and
write no member modelled here). -/
def TickFlowField (E : Engine) (DeltaSeconds : ℚ) (s : AFlowField) : AFlowField :=
  let s := InitFlowField EInitMode.Ticking s
  let s := UpdateGoalLocation E s
  let s := CreateGrid E s
  let s := CalculateFlowField E s
  UpdateTimer DeltaSeconds s

/-- A run of ticks with the given frame times. -/
def runTicks (E : Engine) (deltas : List ℚ) (s : AFlowField) : AFlowField :=
  deltas.foldl (fun s DeltaSeconds => TickFlowField E DeltaSeconds s) s

/-! ## Notions used in the statements -/

/-- An edge the integration pass accepts: `v` is neighbour number `i` of `u` in
the list of the topology, and none of the guards of the neighbour loop skips it. -/
def IntegrationEdge (E : Engine) (s : AFlowField) (cells : FVector2D → FCellStruct)
    (u v : FVector2D) : Prop :=
  ∃ i, i < (integrationNeighborCoords s.Style u).length ∧
    (integrationNeighborCoords s.Style u).getD i (0, 0) = v ∧
    integrationAccepts E s cells (cells u) (integrationNeighborCoords s.Style u) i = true

/-- The cell `c` can be reached from the goal through accepted edges, and the
costs of the cells entered on the way add up to `d`. -/
inductive PathCost (E : Engine) (s : AFlowField) (cells : FVector2D → FCellStruct) :
    FVector2D → Nat → Prop
  | goal : PathCost E s cells s.goalGridCoord 0
  | step {u v : FVector2D} {d : Nat} : PathCost E s cells u d → IntegrationEdge E s cells u v →
      PathCost E s cells v (d + (cells v).cost)

/-- The grid is the one `CreateGrid` builds for the current cell counts, and the
goal coordinate is in bounds: every in-bounds cell carries its own coordinate
and the initial integration value 65535, and the map has `xNum * yNum` cells. -/
structure GridReady (s : AFlowField) : Prop where
  goal : IsValidCoord s s.goalGridCoord = true
  cells : ∀ c, IsValidCoord s c = true →
    (s.InitialCellsMap.val c).gridCoord = c ∧ (s.InitialCellsMap.val c).dist = 65535
  num : s.InitialCellsMap.Num = s.xNum.toNat * s.yNum.toNat

/-- A cell with its integration value blanked: what the integration pass never
changes. -/
def eraseDist (c : FCellStruct) : FCellStruct := { c with dist := 0 }

/-- Invariant of the integration loop, relative to the seeded map `W`: cells
differ from `W` in their integration value only, which never rises and is the
cost of a path once it was lowered; queue entries are copies of cells with the
cost of a path as their value; and every cell that was ever pushed either still
has an entry carrying its present value or has all its accepted edges relaxed. -/
structure IntegrationInv (E : Engine) (s : AFlowField) (W cells : FVector2D → FCellStruct)
    (Q : List FCellStruct) : Prop where
  same : ∀ c, eraseDist (cells c) = eraseDist (W c)
  le : ∀ c, (cells c).dist ≤ (W c).dist
  reach : ∀ c, (cells c).dist ≠ (W c).dist → PathCost E s W c (cells c).dist
  entry : ∀ e ∈ Q, eraseDist e = eraseDist (W e.gridCoord) ∧ PathCost E s W e.gridCoord e.dist
  done : ∀ u, (u = s.goalGridCoord ∨ (cells u).dist ≠ (W u).dist) →
      (∃ e ∈ Q, e.gridCoord = u ∧ e.dist = (cells u).dist) ∨
      ∀ v, IntegrationEdge E s W u v → (cells v).dist ≤ (cells u).dist + (W v).cost

/-- A cell with its integration value overwritten. -/
def withDist (c : FCellStruct) (d : Nat) : FCellStruct := { c with dist := d }

/-- The in-bounds coordinates. -/
def validCoords (s : AFlowField) : Finset FVector2D :=
  Finset.Ico 0 s.xNum ×ˢ Finset.Ico 0 s.yNum

/-- The sum of the integration values of the in-bounds cells. -/
def distSum (s : AFlowField) (cells : FVector2D → FCellStruct) : Nat :=
  ∑ c ∈ validCoords s, (cells c).dist

/-- The quantity every round of the `while` loop lowers. -/
def loopMeasure (s : AFlowField) (st : IntegrationState) : Nat :=
  2 * distSum s st.NewCellsMap + st.CellsToCheck.length

/-- The working map with the goal cell seeded (cost 0, integration value 0):
`NewCellsMap` when the `while` loop starts. -/
def seededCells (s : AFlowField) : FVector2D → FCellStruct :=
  (integrationInit s).NewCellsMap

/-- The integration values after the integration pass. -/
def integrationValue (E : Engine) (s : AFlowField) (c : FVector2D) : Nat :=
  ((CreateIntegrationField E s).NewCellsMap c).dist

/-- A cell with its direction blanked: what the flow pass never changes. -/
def eraseDir (c : FCellStruct) : FCellStruct := { c with dir := FVector.ZeroVector }

/-- A cell with its direction overwritten. -/
def withDir (c : FCellStruct) (d : FVector) : FCellStruct := { c with dir := d }

/-- The coordinate the flow pass derives from the index `j`. -/
def indexCoord (s : AFlowField) (j : Nat) : FVector2D :=
  ((j : Int) / s.yNum, (j : Int) % s.yNum)

/-- The cell `c` can be reached from the goal through accepted edges. -/
def Reachable (E : Engine) (s : AFlowField) (c : FVector2D) : Prop :=
  ∃ d, PathCost E s (seededCells s) c d

/-- The number `d` is the least cost of a path from the goal to `c`. -/
def IsMinPathCost (E : Engine) (s : AFlowField) (c : FVector2D) (d : Nat) : Prop :=
  PathCost E s (seededCells s) c d ∧ ∀ d', PathCost E s (seededCells s) c d' → d ≤ d'

/-- The map after the integration pass, as the flow pass reads it. -/
def integrationField (E : Engine) (s : AFlowField) : FVector2D → FCellStruct :=
  (CreateIntegrationField E s).NewCellsMap

/-- The offsets of the eight neighbours in the enumeration order of the flow pass. -/
def flowOffsets : List FVector2D :=
  [(0, -1), (1, 0), (0, 1), (-1, 0), (1, -1), (1, 1), (-1, 1), (-1, -1)]

/-- Neighbour number `i` of `c` is a candidate of the flow pass: the guards of
the neighbour loop accept it and its integration value is strictly less than
the value of `c`. -/
def FlowCandidate (E : Engine) (s : AFlowField) (cells : FVector2D → FCellStruct)
    (c : FVector2D) (i : Nat) : Prop :=
  i < 8 ∧ flowAccepts E s cells (cells c) (flowNeighborCoords c) i = true ∧
    (cells ((flowNeighborCoords c).getD i (0, 0))).dist < (cells c).dist

/-- The direction of the cell `c` in the map published by `CalculateFlowField`. -/
def publishedDir (E : Engine) (s : AFlowField) (c : FVector2D) : FVector :=
  ((CalculateFlowField E s).CurrentCellsMap.val c).dir

/-- The coordinate of the cell that contains a grid-local position: cell `k`
spans `[k * cellSize, (k + 1) * cellSize)` along each axis. -/
def containingCell (s : AFlowField) (p : FVector) : FVector2D :=
  (⌊p.X / s.cellSize⌋, ⌊p.Y / s.cellSize⌋)

/-- The world position of a grid-local position: measured from the corner of the
grid, turned by the yaw of the actor and moved to the actor location (the
transformation `EnvQuery` applies to the centres of the cells). -/
def localToWorld (E : Engine) (s : AFlowField) (p : FVector) : FVector :=
  FVector.add (E.RotateAngleAxisZ s.actorYaw (FVector.sub p s.offsetLoc)) s.actorLoc

/-- Turning about the Z axis by an angle and by its negative undo one another. -/
def YawInvertible (E : Engine) (yaw : ℚ) : Prop :=
  (∀ v, E.RotateAngleAxisZ (-yaw) (E.RotateAngleAxisZ yaw v) = v) ∧
  (∀ v, E.RotateAngleAxisZ yaw (E.RotateAngleAxisZ (-yaw) v) = v)

/-- Both components of a coordinate are `int32` values. -/
def FitsInt32 (c : FVector2D) : Prop :=
  (-2147483648 ≤ c.1 ∧ c.1 < 2147483648) ∧ (-2147483648 ≤ c.2 ∧ c.2 < 2147483648)

/-- The extent holds fewer than 2^31 cells along each axis, so that the rounded
quotients of extent and cell size are `int32` values. -/
def CellCountFits (s : AFlowField) : Prop :=
  s.flowFieldSize.X / s.cellSize < 2147483647 + 1 / 2 ∧
  s.flowFieldSize.Y / s.cellSize < 2147483647 + 1 / 2

/-- The state on which `TickFlowField` calls `CalculateFlowField`. -/
def beforeCalculate (E : Engine) (s : AFlowField) : AFlowField :=
  CreateGrid E (UpdateGoalLocation E (InitFlowField EInitMode.Ticking s))

/-! ## Example worlds -/

/-- The sign of `b - a`. -/
def axisSign (a b : ℚ) : ℚ := if a < b then 1 else if b < a then -1 else 0

/-- A flat, unrotated, empty world: rotation by yaw 0, no slope anywhere, no trace
hits; the unit direction is taken per axis, which is the exact unit vector for
two locations that differ in one coordinate only. -/
def flatEngine : Engine where
  RotateAngleAxisZ := fun _ v => v
  slopeExceeds := fun _ _ _ => false
  GetDirectionUnitVector := fun a b => ⟨axisSign a.X b.X, axisSign a.Y b.Y, axisSign a.Z b.Z⟩
  normalExceeds := fun _ _ => false
  LineTraceGround := fun _ _ => none
  SphereTraceObstacle := fun _ _ _ => none

/-- A freshly sampled cell of the example grids: cell size 1, the cell `(x, y)`
located at `(x, y, 0)`. -/
def mkCell (cost : FVector2D → Nat) (c : FVector2D) : FCellStruct :=
  { cost := cost c, costBP := cost c, gridCoord := c, worldLoc := ⟨c.1, c.2, 0⟩ }

/-- The keys of an `xNum` by `yNum` grid in the order `CreateGrid` adds them. -/
def gridKeys (xNum yNum : Nat) : List FVector2D :=
  (List.range (xNum * yNum)).map fun j => ((j / yNum : Nat), (j % yNum : Nat))

/-- An `xNum` by `yNum` example grid of unit cells with the given costs, goal and
topology, due for a refresh (`nextTickTimeLeft = updateInterval`); the actor
sits in the middle of the grid, so that the cell `(x, y)` is centred at
`(x, y, 0)`. -/
def mkField (xNum yNum : Nat) (Style : EStyle) (goal : FVector2D) (cost : FVector2D → Nat) :
    AFlowField where
  cellSize := 1
  flowFieldSize := ⟨xNum, yNum, 0⟩
  initialCost := 1
  maxWalkableAngle := 45
  Style := Style
  updateInterval := 0
  traceGround := false
  traceObstacles := false
  goalActor := none
  ActorLocation := ⟨((xNum : ℚ) - 1) / 2, ((yNum : ℚ) - 1) / 2, 0⟩
  ActorYaw := 0
  nextTickTimeLeft := 0
  bIsGridDirty := false
  goalLocation := ⟨goal.1, goal.2, 0⟩
  goalGridCoord := goal
  bIsValidGoalCoord := true
  xNum := xNum
  yNum := yNum
  actorLoc := ⟨((xNum : ℚ) - 1) / 2, ((yNum : ℚ) - 1) / 2, 0⟩
  actorYaw := 0
  offsetLoc := ⟨(xNum : ℚ) / 2, (yNum : ℚ) / 2, 0⟩
  relativeLoc := ⟨-1 / 2, -1 / 2, 0⟩
  InitialCellsMap := ⟨gridKeys xNum yNum, mkCell cost⟩
  CurrentCellsMap := TMap.Empty

/-- The 3×3 scenario: all costs 1, goal in the centre, eight neighbours. -/
def unitGrid3 : AFlowField :=
  mkField 3 3 EStyle.AdjacentFirst (1, 1) (fun _ => 1)

/-- The 3×3 scenario with the cells (0,1) and (1,0) impassable. -/
def cornerGrid3 : AFlowField :=
  mkField 3 3 EStyle.AdjacentFirst (1, 1) (fun c => if c = (0, 1) ∨ c = (1, 0) then 255 else 1)

/-- A corridor of 260 cells of cost 254 with the goal at one end. -/
def corridor : AFlowField :=
  mkField 1 260 EStyle.DiagonalFirst (0, 0) (fun _ => 254)

/-- A wall cell next to the goal: 1×2 cells, goal (0,0), cell (0,1) of cost 255. -/
def wallGrid : AFlowField :=
  mkField 1 2 EStyle.AdjacentFirst (0, 0) (fun c => if c = (0, 1) then 255 else 1)

/-- A goal enclosed by walls: 2×2 cells, goal (1,1), the other three of cost 255. -/
def enclosedGrid : AFlowField :=
  mkField 2 2 EStyle.AdjacentFirst (1, 1) (fun _ => 255)

/-- A goal placed on a wall cell: 1×2 cells, goal (0,0) sampled with cost 255,
cell (0,1) of cost 1. -/
def goalOnWallGrid : AFlowField :=
  mkField 1 2 EStyle.AdjacentFirst (0, 0) (fun c => if c = (0, 0) then 255 else 1)

/-- A 1×2 grid whose goal location lies far outside the grid, after
`UpdateGoalLocation`: the goal state is invalid and the goal coordinate is the
clamped one. -/
def outsideGoalGrid : AFlowField :=
  UpdateGoalLocation flatEngine
    { mkField 1 2 EStyle.AdjacentFirst (0, 0) (fun _ => 1) with goalLocation := ⟨10, 10, 0⟩ }

/-- A field configured with the refresh interval -1. -/
def negativeIntervalField : AFlowField :=
  { mkField 1 2 EStyle.AdjacentFirst (0, 0) (fun _ => 1) with updateInterval := -1 }

/-- A 2×2 grid of unit cells built at `BeginPlay`, whose cell size is then set to
one half. -/
def resizedField : AFlowField :=
  { CreateGrid flatEngine
      (InitFlowField EInitMode.BeginPlay (mkField 2 2 EStyle.AdjacentFirst (0, 0) (fun _ => 1))) with
    cellSize := 1 / 2 }

/-- A field whose extent along X is 10^12 at cell size 1. -/
def hugeExtentField : AFlowField :=
  { mkField 1 1 EStyle.AdjacentFirst (0, 0) (fun _ => 1) with
    flowFieldSize := ⟨1000000000000, 1, 0⟩ }

/-- The sizes an initialisation leaves behind, given the state it started from:
cell size at least 0.1, extent at least one cell along X and Y, initial cost
within `[0, 255]`, height of the extent untouched. -/
def SizesClamped (before after : AFlowField) : Prop :=
  1 / 10 ≤ after.cellSize ∧
  after.cellSize ≤ after.flowFieldSize.X ∧ after.cellSize ≤ after.flowFieldSize.Y ∧
  0 ≤ after.initialCost ∧ after.initialCost ≤ 255 ∧
  after.flowFieldSize.Z = before.flowFieldSize.Z

/-- Two states give a refresh the same inputs: the same grid and cell counts,
goal coordinate, topology and maximum walkable angle. -/
def SameRefreshInputs (s s' : AFlowField) : Prop :=
  s.InitialCellsMap = s'.InitialCellsMap ∧ s.xNum = s'.xNum ∧ s.yNum = s'.yNum ∧
  s.goalGridCoord = s'.goalGridCoord ∧ s.Style = s'.Style ∧
  s.maxWalkableAngle = s'.maxWalkableAngle

/-- The states of one run of `CalculateFlowField`, statement by statement: the
state on entry, and the state after each statement that assigns to a member.
The only member assigned is `CurrentCellsMap`: by `CurrentCellsMap =
InitialCellsMap`, by `CurrentCellsMap[goalGridCoord].cost = 0`, and by the
commit `CurrentCellsMap = NewCellsMap`; the two passes in between work on the
local copy `NewCellsMap` of `CurrentCellsMap`. When the guard returns, the run
consists of the state on entry alone. -/
def CalculateFlowFieldTrace (E : Engine) (s : AFlowField) : List AFlowField :=
  if s.nextTickTimeLeft ≠ s.updateInterval then [s]
  else
    let s1 := { s with CurrentCellsMap := s.InitialCellsMap }
    let s2 := { s1 with CurrentCellsMap :=
      ⟨s1.CurrentCellsMap.keys,
        setCell s1.CurrentCellsMap.val s1.goalGridCoord
          { s1.CurrentCellsMap.val s1.goalGridCoord with cost := 0 }⟩ }
    let NewCellsMap := s2.CurrentCellsMap
    let numCells := NewCellsMap.Num
    let targetCell := { NewCellsMap.val s2.goalGridCoord with cost := 0, dist := 0 }
    let afterIntegration := integrationLoop E s2 (integrationFuel s2)
      { NewCellsMap := setCell NewCellsMap.val s2.goalGridCoord targetCell,
        CellsToCheck := [targetCell] }
    let afterFlow := CreateFlowField E s2 numCells afterIntegration.NewCellsMap
    let s3 := { s2 with CurrentCellsMap := ⟨NewCellsMap.keys, afterFlow⟩ }
    [s, s1, s2, s3]

/-- The coordinate of the best neighbour the flow pass selects for the cell `c`,
if it selects one. -/
def bestNeighbor (E : Engine) (s : AFlowField) (c : FVector2D) : Option FVector2D :=
  (flowBest E s (integrationField E s) c).bestCell.map fun bestCell => bestCell.gridCoord

/-- One step along the flow field: to the best neighbour, or nowhere when there
is none. -/
def flowStep (E : Engine) (s : AFlowField) (c : FVector2D) : FVector2D :=
  (bestNeighbor E s c).getD c

/-- The cell reached from `c` after `n` steps along the flow field. -/
def followFlow (E : Engine) (s : AFlowField) : Nat → FVector2D → FVector2D
  | 0, c => c
  | n + 1, c => flowStep E s (followFlow E s n c)

/-- Every passable cell other than the goal has a cost between 1 and 254. -/
def PassableCostsPositive (s : AFlowField) : Prop :=
  ∀ c, IsValidCoord s c = true → c ≠ s.goalGridCoord → (s.InitialCellsMap.val c).cost ≠ 255 →
    1 ≤ (s.InitialCellsMap.val c).cost ∧ (s.InitialCellsMap.val c).cost ≤ 254

/-- The slope test does not depend on the order of the two locations (it is
computed from the absolute height difference and the horizontal distance). -/
def SlopeSymmetric (E : Engine) : Prop :=
  ∀ a b angle, E.slopeExceeds a b angle = E.slopeExceeds b a angle

/-! ## Theorems -/

/-! ## The priority queue and the guards of the integration pass -/

theorem extractMin_perm (best : FCellStruct) (q : List FCellStruct) :
    List.Perm ((extractMin best q).1 :: (extractMin best q).2) (best :: q) := by
  induction q generalizing best with
  | nil => simp [extractMin]
  | cons c cs ih =>
    unfold extractMin
    split
    · exact (List.Perm.swap _ _ _).trans ((ih c).cons best)
    · exact (List.Perm.swap _ _ _).trans (((ih best).cons c).trans (List.Perm.swap _ _ _))

theorem popMin_perm {q : List FCellStruct} {e : FCellStruct} {rest : List FCellStruct}
    (h : popMin q = some (e, rest)) : List.Perm (e :: rest) q := by
  cases q with
  | nil => simp [popMin] at h
  | cons c cs =>
    simp only [popMin, Option.some.injEq] at h
    have := extractMin_perm c cs
    rw [h] at this
    exact this

theorem popMin_eq_none {q : List FCellStruct} (h : popMin q = none) : q = [] := by
  cases q with
  | nil => rfl
  | cons c cs => simp [popMin] at h

theorem integrationAccepts_congr (E : Engine) (s : AFlowField)
    {cells cells' : FVector2D → FCellStruct} {cur cur' : FCellStruct}
    (hc : ∀ c, (cells c).cost = (cells' c).cost ∧ (cells c).worldLoc = (cells' c).worldLoc)
    (hcost : cur.cost = cur'.cost) (hloc : cur.worldLoc = cur'.worldLoc)
    (nbrs : List FVector2D) (i : Nat) :
    integrationAccepts E s cells cur nbrs i = integrationAccepts E s cells' cur' nbrs i := by
  simp only [integrationAccepts, IsValidDiagonal, hc, hcost, hloc]

/-! ## The invariant of the integration loop -/

theorem eraseDist_cost {a b : FCellStruct} (h : eraseDist a = eraseDist b) : a.cost = b.cost := by
  have h1 := congrArg FCellStruct.cost h
  exact h1

theorem eraseDist_worldLoc {a b : FCellStruct} (h : eraseDist a = eraseDist b) :
    a.worldLoc = b.worldLoc := by
  have h1 := congrArg FCellStruct.worldLoc h
  exact h1

theorem eraseDist_gridCoord {a b : FCellStruct} (h : eraseDist a = eraseDist b) :
    a.gridCoord = b.gridCoord := by
  have h1 := congrArg FCellStruct.gridCoord h
  exact h1

theorem eq_of_eraseDist {a b : FCellStruct} (h : eraseDist a = eraseDist b)
    (hd : a.dist = b.dist) : a = b := by
  cases a; cases b
  simp only [eraseDist, FCellStruct.mk.injEq] at h
  simp only [FCellStruct.mk.injEq]
  simp_all

theorem integrationAccepts_valid {E : Engine} {s : AFlowField} {cells : FVector2D → FCellStruct}
    {cur : FCellStruct} {nbrs : List FVector2D} {i : Nat}
    (h : integrationAccepts E s cells cur nbrs i = true) :
    IsValidCoord s (nbrs.getD i (0, 0)) = true := by
  unfold integrationAccepts at h
  by_contra hv
  simp only [hv, Bool.not_false, if_true] at h
  exact Bool.false_ne_true h

theorem setCell_self (cells : FVector2D → FCellStruct) (k : FVector2D) (v : FCellStruct) :
    setCell cells k v k = v := by
  simp [setCell]

theorem setCell_of_ne (cells : FVector2D → FCellStruct) {k c : FVector2D} (v : FCellStruct)
    (h : c ≠ k) : setCell cells k v c = cells c := by
  simp [setCell, h]

theorem withDist_dist (c : FCellStruct) (d : Nat) : (withDist c d).dist = d := rfl

theorem withDist_gridCoord (c : FCellStruct) (d : Nat) : (withDist c d).gridCoord = c.gridCoord :=
  rfl

theorem eraseDist_withDist (c : FCellStruct) (d : Nat) : eraseDist (withDist c d) = eraseDist c :=
  rfl

/-- What one round of the neighbour loop does: nothing, or it lowers the value
of the neighbour and pushes a copy. -/
theorem integrationVisit_cases (E : Engine) (s : AFlowField) (e : FCellStruct)
    (nbrs : List FVector2D) (st : IntegrationState) (i : Nat) :
    (integrationVisit E s e nbrs st i = st ∧
      (integrationAccepts E s st.NewCellsMap e nbrs i = true →
        (st.NewCellsMap (nbrs.getD i (0, 0))).dist ≤
          (st.NewCellsMap (nbrs.getD i (0, 0))).cost + e.dist)) ∨
    (integrationAccepts E s st.NewCellsMap e nbrs i = true ∧
      (st.NewCellsMap (nbrs.getD i (0, 0))).cost + e.dist <
        (st.NewCellsMap (nbrs.getD i (0, 0))).dist ∧
      (integrationVisit E s e nbrs st i).NewCellsMap =
        setCell st.NewCellsMap (nbrs.getD i (0, 0))
          (withDist (st.NewCellsMap (nbrs.getD i (0, 0)))
            ((st.NewCellsMap (nbrs.getD i (0, 0))).cost + e.dist)) ∧
      (integrationVisit E s e nbrs st i).CellsToCheck =
        st.CellsToCheck ++
          [withDist (st.NewCellsMap (nbrs.getD i (0, 0)))
            ((st.NewCellsMap (nbrs.getD i (0, 0))).cost + e.dist)]) := by
  unfold integrationVisit
  by_cases ha : integrationAccepts E s st.NewCellsMap e nbrs i = true
  · by_cases hd : (st.NewCellsMap (nbrs.getD i (0, 0))).cost + e.dist <
        (st.NewCellsMap (nbrs.getD i (0, 0))).dist
    · right
      refine ⟨ha, hd, ?_, ?_⟩
      · rw [if_pos ha]
        exact congrArg IntegrationState.NewCellsMap (if_pos hd)
      · rw [if_pos ha]
        exact congrArg IntegrationState.CellsToCheck (if_pos hd)
    · left
      refine ⟨by rw [if_pos ha]; exact if_neg hd, fun _ => by omega⟩
  · left
    exact ⟨if_neg ha, fun h => absurd h ha⟩

/-- One round of the neighbour loop keeps the invariant (with the popped entry
and any other entries `extra` counted as still queued), never raises a value,
and leaves the edge it looked at relaxed with respect to the popped value. -/
theorem integrationVisit_inv {E : Engine} {s : AFlowField} {W : FVector2D → FCellStruct}
    (hW : ∀ c, IsValidCoord s c = true → (W c).gridCoord = c)
    {e : FCellStruct} (he : eraseDist e = eraseDist (W e.gridCoord))
    (hp : PathCost E s W e.gridCoord e.dist)
    {i : Nat} (hi : i < (integrationNeighborCoords s.Style e.gridCoord).length)
    (extra : List FCellStruct) (st : IntegrationState)
    (inv : IntegrationInv E s W st.NewCellsMap (extra ++ st.CellsToCheck)) :
    IntegrationInv E s W
        (integrationVisit E s e (integrationNeighborCoords s.Style e.gridCoord) st i).NewCellsMap
        (extra ++
          (integrationVisit E s e (integrationNeighborCoords s.Style e.gridCoord) st i).CellsToCheck) ∧
      (∀ c, ((integrationVisit E s e (integrationNeighborCoords s.Style e.gridCoord) st
          i).NewCellsMap c).dist ≤ (st.NewCellsMap c).dist) ∧
      (integrationAccepts E s W (W e.gridCoord)
          (integrationNeighborCoords s.Style e.gridCoord) i = true →
        ((integrationVisit E s e (integrationNeighborCoords s.Style e.gridCoord) st i).NewCellsMap
          ((integrationNeighborCoords s.Style e.gridCoord).getD i (0, 0))).dist ≤
          e.dist + (W ((integrationNeighborCoords s.Style e.gridCoord).getD i (0, 0))).cost) := by
  have hacc : integrationAccepts E s st.NewCellsMap e
      (integrationNeighborCoords s.Style e.gridCoord) i =
      integrationAccepts E s W (W e.gridCoord) (integrationNeighborCoords s.Style e.gridCoord) i :=
    integrationAccepts_congr E s
      (fun c => ⟨eraseDist_cost (inv.same c), eraseDist_worldLoc (inv.same c)⟩)
      (eraseDist_cost he) (eraseDist_worldLoc he) _ i
  generalize hv : (integrationNeighborCoords s.Style e.gridCoord).getD i (0, 0) = v at *
  have hcost : (st.NewCellsMap v).cost = (W v).cost := eraseDist_cost (inv.same v)
  rcases integrationVisit_cases E s e (integrationNeighborCoords s.Style e.gridCoord) st i with
    ⟨heq, hsat⟩ | ⟨ha, hlt, heqN, heqQ⟩
  · rw [heq]
    refine ⟨inv, fun c => le_refl _, fun h => ?_⟩
    rw [hv] at hsat
    have := hsat (hacc.trans h)
    omega
  · rw [hv] at hlt heqN heqQ
    have hvalid : IsValidCoord s v = true := hv ▸ integrationAccepts_valid ha
    have hedge : IntegrationEdge E s W e.gridCoord v := ⟨i, hi, hv, hacc ▸ ha⟩
    have hpath : PathCost E s W v ((st.NewCellsMap v).cost + e.dist) := by
      have := PathCost.step hp hedge
      rw [hcost, Nat.add_comm]
      exact this
    rw [heqN, heqQ]
    refine ⟨⟨?_, ?_, ?_, ?_, ?_⟩, ?_, ?_⟩
    · intro c
      by_cases hc : c = v
      · subst hc
        rw [setCell_self, eraseDist_withDist]
        exact inv.same c
      · rw [setCell_of_ne _ _ hc]
        exact inv.same c
    · intro c
      by_cases hc : c = v
      · subst hc
        rw [setCell_self, withDist_dist]
        have := inv.le c
        omega
      · rw [setCell_of_ne _ _ hc]
        exact inv.le c
    · intro c
      by_cases hc : c = v
      · subst hc
        rw [setCell_self, withDist_dist]
        intro _
        exact hpath
      · rw [setCell_of_ne _ _ hc]
        exact inv.reach c
    · intro q hq
      rw [← List.append_assoc, List.mem_append, List.mem_singleton] at hq
      rcases hq with hq | hq
      · exact inv.entry q hq
      · subst hq
        have hg : (st.NewCellsMap v).gridCoord = v :=
          (eraseDist_gridCoord (inv.same v)).trans (hW v hvalid)
        rw [withDist_gridCoord, withDist_dist, hg, eraseDist_withDist]
        exact ⟨inv.same v, hpath⟩
    · intro u hu
      by_cases hc : u = v
      · subst hc
        left
        refine ⟨_, by rw [← List.append_assoc]; exact List.mem_append_right _ (List.mem_singleton_self _), ?_, ?_⟩
        · rw [withDist_gridCoord]
          exact (eraseDist_gridCoord (inv.same u)).trans (hW u hvalid)
        · rw [setCell_self]
      · rw [setCell_of_ne _ _ hc] at hu ⊢
        rcases inv.done u hu with ⟨q, hq, hq1, hq2⟩ | hrel
        · left
          refine ⟨q, ?_, hq1, hq2⟩
          rw [← List.append_assoc]
          exact List.mem_append_left _ hq
        · right
          intro w hw
          have := hrel w hw
          by_cases hwv : w = v
          · subst hwv
            rw [setCell_self, withDist_dist]
            omega
          · rw [setCell_of_ne _ _ hwv]
            exact this
    · intro c
      by_cases hc : c = v
      · subst hc
        rw [setCell_self, withDist_dist]
        omega
      · rw [setCell_of_ne _ _ hc]
    · intro _
      rw [setCell_self, withDist_dist]
      omega

/-- The neighbour loop keeps the invariant, never raises a value, and leaves
every edge it looked at relaxed with respect to the popped value. -/
theorem integrationFold_inv {E : Engine} {s : AFlowField} {W : FVector2D → FCellStruct}
    (hW : ∀ c, IsValidCoord s c = true → (W c).gridCoord = c)
    {e : FCellStruct} (he : eraseDist e = eraseDist (W e.gridCoord))
    (hp : PathCost E s W e.gridCoord e.dist) (extra : List FCellStruct) :
    ∀ (idx : List Nat) (st : IntegrationState),
      (∀ i ∈ idx, i < (integrationNeighborCoords s.Style e.gridCoord).length) →
      IntegrationInv E s W st.NewCellsMap (extra ++ st.CellsToCheck) →
      IntegrationInv E s W
          (idx.foldl (integrationVisit E s e (integrationNeighborCoords s.Style e.gridCoord))
            st).NewCellsMap
          (extra ++ (idx.foldl
            (integrationVisit E s e (integrationNeighborCoords s.Style e.gridCoord))
            st).CellsToCheck) ∧
        (∀ c, ((idx.foldl (integrationVisit E s e (integrationNeighborCoords s.Style e.gridCoord))
            st).NewCellsMap c).dist ≤ (st.NewCellsMap c).dist) ∧
        (∀ i ∈ idx, integrationAccepts E s W (W e.gridCoord)
            (integrationNeighborCoords s.Style e.gridCoord) i = true →
          ((idx.foldl (integrationVisit E s e (integrationNeighborCoords s.Style e.gridCoord))
            st).NewCellsMap ((integrationNeighborCoords s.Style e.gridCoord).getD i (0, 0))).dist ≤
            e.dist + (W ((integrationNeighborCoords s.Style e.gridCoord).getD i (0, 0))).cost) := by
  intro idx
  induction idx with
  | nil =>
    intro st _ inv
    exact ⟨inv, fun c => le_refl _, fun i hi => absurd hi (List.not_mem_nil i)⟩
  | cons j js ih =>
    intro st hidx inv
    obtain ⟨inv1, le1, sat1⟩ :=
      integrationVisit_inv hW he hp (hidx j (List.mem_cons_self j js)) extra st inv
    obtain ⟨inv2, le2, sat2⟩ :=
      ih _ (fun i hi => hidx i (List.mem_cons_of_mem j hi)) inv1
    rw [List.foldl_cons]
    refine ⟨inv2, fun c => le_trans (le2 c) (le1 c), fun i hi hacc => ?_⟩
    rcases List.mem_cons.mp hi with rfl | hi
    · exact le_trans (le2 _) (sat1 hacc)
    · exact sat2 i hi hacc

theorem IntegrationInv.of_mem {E : Engine} {s : AFlowField} {W cells : FVector2D → FCellStruct}
    {Q Q' : List FCellStruct} (h : ∀ x, x ∈ Q ↔ x ∈ Q') (inv : IntegrationInv E s W cells Q) :
    IntegrationInv E s W cells Q' where
  same := inv.same
  le := inv.le
  reach := inv.reach
  entry := fun e he => inv.entry e ((h e).mpr he)
  done := fun u hu => by
    rcases inv.done u hu with ⟨q, hq, hq1, hq2⟩ | hrel
    · exact Or.inl ⟨q, (h q).mp hq, hq1, hq2⟩
    · exact Or.inr hrel

/-- One round of the `while` loop keeps the invariant. -/
theorem integrationExpand_inv {E : Engine} {s : AFlowField} {W : FVector2D → FCellStruct}
    (hW : ∀ c, IsValidCoord s c = true → (W c).gridCoord = c)
    {cells : FVector2D → FCellStruct} {Q rest : List FCellStruct} {e : FCellStruct}
    (hpop : popMin Q = some (e, rest)) (inv : IntegrationInv E s W cells Q) :
    IntegrationInv E s W
      (integrationExpand E s e { NewCellsMap := cells, CellsToCheck := rest }).NewCellsMap
      (integrationExpand E s e { NewCellsMap := cells, CellsToCheck := rest }).CellsToCheck := by
  have hperm := popMin_perm hpop
  have hemem : e ∈ Q := hperm.subset (List.mem_cons_self e rest)
  have inv0 : IntegrationInv E s W cells ([e] ++ rest) :=
    inv.of_mem (fun x => (hperm.mem_iff).symm)
  obtain ⟨he, hp⟩ := inv.entry e hemem
  obtain ⟨inv1, _, sat⟩ := integrationFold_inv hW he hp [e]
    (List.range (integrationNeighborCoords s.Style e.gridCoord).length)
    { NewCellsMap := cells, CellsToCheck := rest } (fun i hi => List.mem_range.mp hi) inv0
  unfold integrationExpand
  refine ⟨inv1.same, inv1.le, inv1.reach, fun q hq => inv1.entry q (List.mem_append_right _ hq),
    fun u hu => ?_⟩
  rcases inv1.done u hu with ⟨q, hq, hq1, hq2⟩ | hrel
  · rcases List.mem_append.mp hq with hq | hq
    · right
      rw [List.mem_singleton] at hq
      subst hq
      subst hq1
      intro v ⟨i, hi, hv, hacc⟩
      have := sat i (List.mem_range.mpr hi) hacc
      rw [hv] at this
      rw [← hq2]
      exact this
    · exact Or.inl ⟨q, hq, hq1, hq2⟩
  · exact Or.inr hrel

/-- The `while` loop keeps the invariant, for any number of rounds. -/
theorem integrationLoop_inv {E : Engine} {s : AFlowField} {W : FVector2D → FCellStruct}
    (hW : ∀ c, IsValidCoord s c = true → (W c).gridCoord = c) :
    ∀ (fuel : Nat) (st : IntegrationState),
      IntegrationInv E s W st.NewCellsMap st.CellsToCheck →
      IntegrationInv E s W (integrationLoop E s fuel st).NewCellsMap
        (integrationLoop E s fuel st).CellsToCheck := by
  intro fuel
  induction fuel with
  | zero => intro st inv; exact inv
  | succ n ih =>
    intro st inv
    unfold integrationLoop
    cases hpop : popMin st.CellsToCheck with
    | none => exact inv
    | some p =>
      obtain ⟨e, rest⟩ := p
      exact ih _ (integrationExpand_inv hW hpop inv)

/-! ## The integration loop stops -/

theorem mem_validCoords (s : AFlowField) (c : FVector2D) :
    c ∈ validCoords s ↔ IsValidCoord s c = true := by
  simp only [validCoords, Finset.mem_product, Finset.mem_Ico, IsValidCoord, Bool.and_eq_true,
    decide_eq_true_eq]
  tauto

theorem card_validCoords (s : AFlowField) :
    (validCoords s).card = s.xNum.toNat * s.yNum.toNat := by
  simp [validCoords, Finset.card_product, Int.card_Ico]

theorem distSum_setCell_lt (s : AFlowField) (cells : FVector2D → FCellStruct) {v : FVector2D}
    (hv : IsValidCoord s v = true) {d : Nat} (hd : d < (cells v).dist) :
    distSum s (setCell cells v (withDist (cells v) d)) < distSum s cells := by
  unfold distSum
  apply Finset.sum_lt_sum
  · intro c _
    by_cases hc : c = v
    · subst hc
      rw [setCell_self, withDist_dist]
      exact le_of_lt hd
    · rw [setCell_of_ne _ _ hc]
  · refine ⟨v, (mem_validCoords s v).mpr hv, ?_⟩
    rw [setCell_self, withDist_dist]
    exact hd

theorem integrationVisit_measure (E : Engine) (s : AFlowField) (e : FCellStruct)
    (nbrs : List FVector2D) (st : IntegrationState) (i : Nat) :
    loopMeasure s (integrationVisit E s e nbrs st i) ≤ loopMeasure s st := by
  rcases integrationVisit_cases E s e nbrs st i with ⟨heq, _⟩ | ⟨ha, hlt, heqN, heqQ⟩
  · rw [heq]
  · have := distSum_setCell_lt s st.NewCellsMap (integrationAccepts_valid ha) hlt
    unfold loopMeasure
    rw [heqN, heqQ, List.length_append, List.length_singleton]
    omega

theorem integrationFold_measure (E : Engine) (s : AFlowField) (e : FCellStruct)
    (nbrs : List FVector2D) :
    ∀ (idx : List Nat) (st : IntegrationState),
      loopMeasure s (idx.foldl (integrationVisit E s e nbrs) st) ≤ loopMeasure s st := by
  intro idx
  induction idx with
  | nil => intro st; exact le_refl _
  | cons j js ih =>
    intro st
    rw [List.foldl_cons]
    exact le_trans (ih _) (integrationVisit_measure E s e nbrs st j)

theorem integrationExpand_measure (E : Engine) (s : AFlowField) (e : FCellStruct)
    (st : IntegrationState) :
    loopMeasure s (integrationExpand E s e st) ≤ loopMeasure s st :=
  integrationFold_measure E s e _ _ st

/-- The `while` loop has left through its exit test once the number of rounds
allowed reaches the measure of the state. -/
theorem integrationLoop_empty (E : Engine) (s : AFlowField) :
    ∀ (fuel : Nat) (st : IntegrationState), loopMeasure s st ≤ fuel →
      (integrationLoop E s fuel st).CellsToCheck = [] := by
  intro fuel
  induction fuel with
  | zero =>
    intro st h
    unfold loopMeasure at h
    show st.CellsToCheck = []
    exact List.eq_nil_of_length_eq_zero (by omega)
  | succ n ih =>
    intro st h
    unfold integrationLoop
    cases hpop : popMin st.CellsToCheck with
    | none => exact popMin_eq_none hpop
    | some p =>
      obtain ⟨e, rest⟩ := p
      apply ih
      have hlen : rest.length + 1 = st.CellsToCheck.length := by
        have := (popMin_perm hpop).length_eq
        simpa using this
      have h1 := integrationExpand_measure E s e { st with CellsToCheck := rest }
      have h2 : loopMeasure s { st with CellsToCheck := rest } + 1 = loopMeasure s st := by
        unfold loopMeasure
        show 2 * distSum s st.NewCellsMap + rest.length + 1 = _
        omega
      omega

/-! ## The result of the integration pass -/

theorem seededCells_goal (s : AFlowField) :
    seededCells s s.goalGridCoord =
      { s.InitialCellsMap.val s.goalGridCoord with cost := 0, dist := 0 } := by
  simp [seededCells, integrationInit, workingCells, setCell]

theorem seededCells_of_ne (s : AFlowField) {c : FVector2D} (h : c ≠ s.goalGridCoord) :
    seededCells s c = s.InitialCellsMap.val c := by
  simp [seededCells, integrationInit, workingCells, setCell, h]

theorem integrationInit_eq (s : AFlowField) :
    integrationInit s =
      { NewCellsMap := seededCells s, CellsToCheck := [seededCells s s.goalGridCoord] } := by
  simp [seededCells, integrationInit, workingCells, setCell]

theorem seededCells_gridCoord {s : AFlowField} (h : GridReady s) {c : FVector2D}
    (hc : IsValidCoord s c = true) : (seededCells s c).gridCoord = c := by
  by_cases hg : c = s.goalGridCoord
  · subst hg
    rw [seededCells_goal]
    exact (h.cells _ hc).1
  · rw [seededCells_of_ne s hg]
    exact (h.cells c hc).1

theorem seededCells_dist_goal (s : AFlowField) : (seededCells s s.goalGridCoord).dist = 0 := by
  rw [seededCells_goal]

theorem seededCells_dist {s : AFlowField} (h : GridReady s) {c : FVector2D}
    (hc : IsValidCoord s c = true) (hg : c ≠ s.goalGridCoord) : (seededCells s c).dist = 65535 := by
  rw [seededCells_of_ne s hg]
  exact (h.cells c hc).2

theorem seededCells_dist_le {s : AFlowField} (h : GridReady s) {c : FVector2D}
    (hc : IsValidCoord s c = true) : (seededCells s c).dist ≤ 65535 := by
  by_cases hg : c = s.goalGridCoord
  · subst hg
    rw [seededCells_dist_goal]
    exact Nat.zero_le _
  · exact le_of_eq (seededCells_dist h hc hg)

theorem integrationInit_inv (E : Engine) {s : AFlowField} (h : GridReady s) :
    IntegrationInv E s (seededCells s) (seededCells s) [seededCells s s.goalGridCoord] where
  same := fun _ => rfl
  le := fun _ => le_refl _
  reach := fun _ hc => absurd rfl hc
  entry := fun e he => by
    rw [List.mem_singleton] at he
    subst he
    rw [seededCells_gridCoord h h.goal, seededCells_dist_goal]
    exact ⟨rfl, PathCost.goal⟩
  done := fun u hu => by
    left
    rcases hu with hu | hu
    · subst hu
      exact ⟨_, List.mem_singleton_self _, seededCells_gridCoord h h.goal, rfl⟩
    · exact absurd rfl hu

theorem integrationInit_measure {s : AFlowField} (h : GridReady s) :
    loopMeasure s (integrationInit s) ≤ integrationFuel s := by
  rw [integrationInit_eq]
  unfold loopMeasure integrationFuel distSum
  have h1 : ∑ c ∈ validCoords s, (seededCells s c).dist ≤ (validCoords s).card • 65535 :=
    Finset.sum_le_card_nsmul _ _ _ (fun c hc => seededCells_dist_le h ((mem_validCoords s c).mp hc))
  rw [card_validCoords, smul_eq_mul] at h1
  simp only [List.length_singleton]
  nlinarith

/-- The integration pass leaves its loop through the exit test: the queue is
empty when `CreateIntegrationField` is done. -/
theorem CreateIntegrationField_queue (E : Engine) {s : AFlowField} (h : GridReady s) :
    (CreateIntegrationField E s).CellsToCheck = [] :=
  integrationLoop_empty E s _ _ (integrationInit_measure h)

/-- The invariant holds, with an empty queue, when the integration pass is done. -/
theorem CreateIntegrationField_inv (E : Engine) {s : AFlowField} (h : GridReady s) :
    IntegrationInv E s (seededCells s) (CreateIntegrationField E s).NewCellsMap [] := by
  have hinv := integrationLoop_inv (E := E) (fun c hc => seededCells_gridCoord h hc)
    (integrationFuel s) (integrationInit s)
    (by rw [integrationInit_eq]; exact integrationInit_inv E h)
  rw [← CreateIntegrationField_queue E h]
  exact hinv

theorem PathCost.valid {E : Engine} {s : AFlowField} (h : GridReady s)
    {cells : FVector2D → FCellStruct} {c : FVector2D} {d : Nat} (hp : PathCost E s cells c d) :
    IsValidCoord s c = true := by
  cases hp with
  | goal => exact h.goal
  | step _ hedge =>
    obtain ⟨i, _, hv, hacc⟩ := hedge
    rw [← hv]
    exact integrationAccepts_valid hacc

/-- No in-bounds cell ends above the sentinel. -/
theorem integrationValue_le (E : Engine) {s : AFlowField} (h : GridReady s) {c : FVector2D}
    (hc : IsValidCoord s c = true) : integrationValue E s c ≤ 65535 :=
  le_trans ((CreateIntegrationField_inv E h).le c) (seededCells_dist_le h hc)

theorem integrationValue_goal (E : Engine) {s : AFlowField} (h : GridReady s) :
    integrationValue E s s.goalGridCoord = 0 := by
  have := (CreateIntegrationField_inv E h).le s.goalGridCoord
  rw [seededCells_dist_goal] at this
  exact Nat.le_zero.mp this

/-- Every accepted edge out of a cell with a value below the sentinel is relaxed
in the result. -/
theorem integrationValue_edge (E : Engine) {s : AFlowField} (h : GridReady s) {u v : FVector2D}
    (hvalid : IsValidCoord s u = true) (hu : integrationValue E s u < 65535)
    (hedge : IntegrationEdge E s (seededCells s) u v) :
    integrationValue E s v ≤ integrationValue E s u + (seededCells s v).cost := by
  have inv := CreateIntegrationField_inv E h
  have hP : u = s.goalGridCoord ∨
      ((CreateIntegrationField E s).NewCellsMap u).dist ≠ (seededCells s u).dist := by
    by_cases hg : u = s.goalGridCoord
    · exact Or.inl hg
    · right
      rw [seededCells_dist h hvalid hg]
      exact Nat.ne_of_lt hu
  rcases inv.done u hP with ⟨q, hq, _⟩ | hrel
  · exact absurd hq (List.not_mem_nil q)
  · exact hrel v hedge

/-- The value of a cell after the integration pass is at most the cost of any
path from the goal to it. -/
theorem integrationValue_le_pathCost (E : Engine) {s : AFlowField} (h : GridReady s)
    {c : FVector2D} {d : Nat} (hp : PathCost E s (seededCells s) c d) :
    integrationValue E s c ≤ d := by
  induction hp with
  | goal => exact le_of_eq (integrationValue_goal E h)
  | @step u v d hp hedge ih =>
    have hu : IsValidCoord s u = true := hp.valid h
    have hv : IsValidCoord s v = true := (PathCost.step hp hedge).valid h
    by_cases hlt : integrationValue E s u < 65535
    · have := integrationValue_edge E h hu hlt hedge
      omega
    · have := integrationValue_le E h hv
      omega

/-- A value below the sentinel is the cost of a path from the goal. -/
theorem integrationValue_pathCost (E : Engine) {s : AFlowField} (h : GridReady s)
    {c : FVector2D} (hc : IsValidCoord s c = true) (hlt : integrationValue E s c < 65535) :
    PathCost E s (seededCells s) c (integrationValue E s c) := by
  by_cases hg : c = s.goalGridCoord
  · subst hg
    rw [integrationValue_goal E h]
    exact PathCost.goal
  · apply (CreateIntegrationField_inv E h).reach c
    rw [seededCells_dist h hc hg]
    exact Nat.ne_of_lt hlt

/-- The integration pass changes nothing but integration values. -/
theorem CreateIntegrationField_same (E : Engine) {s : AFlowField} (h : GridReady s)
    (c : FVector2D) :
    eraseDist ((CreateIntegrationField E s).NewCellsMap c) = eraseDist (seededCells s c) :=
  (CreateIntegrationField_inv E h).same c

/-! ## The flow pass -/

/-- The neighbour loop of the flow pass, over the first `n` neighbours: either
no accepted neighbour so far is below the start value, or the best cell is the
first accepted neighbour of least value, and that value is below the start
value. -/
theorem flowFold_spec (E : Engine) (s : AFlowField) (cells : FVector2D → FCellStruct)
    (cur : FCellStruct) (nbrs : List FVector2D) (d0 : Nat) (n : Nat) :
    (((List.range n).foldl (flowVisit E s cells cur nbrs)
          { bestCell := none, bestDist := d0 }).bestCell = none ∧
      ((List.range n).foldl (flowVisit E s cells cur nbrs)
          { bestCell := none, bestDist := d0 }).bestDist = d0 ∧
      ∀ j, j < n → flowAccepts E s cells cur nbrs j = true →
        d0 ≤ (cells (nbrs.getD j (0, 0))).dist) ∨
    (∃ i, i < n ∧ flowAccepts E s cells cur nbrs i = true ∧
      (cells (nbrs.getD i (0, 0))).dist < d0 ∧
      ((List.range n).foldl (flowVisit E s cells cur nbrs)
          { bestCell := none, bestDist := d0 }).bestCell = some (cells (nbrs.getD i (0, 0))) ∧
      ((List.range n).foldl (flowVisit E s cells cur nbrs)
          { bestCell := none, bestDist := d0 }).bestDist = (cells (nbrs.getD i (0, 0))).dist ∧
      (∀ j, j < n → flowAccepts E s cells cur nbrs j = true →
        (cells (nbrs.getD i (0, 0))).dist ≤ (cells (nbrs.getD j (0, 0))).dist) ∧
      (∀ j, j < i → flowAccepts E s cells cur nbrs j = true →
        (cells (nbrs.getD i (0, 0))).dist < (cells (nbrs.getD j (0, 0))).dist)) := by
  induction n with
  | zero =>
    left
    exact ⟨rfl, rfl, fun j hj => absurd hj (Nat.not_lt_zero j)⟩
  | succ n ih =>
    rw [List.range_succ, List.foldl_append, List.foldl_cons, List.foldl_nil]
    generalize (List.range n).foldl (flowVisit E s cells cur nbrs)
      { bestCell := none, bestDist := d0 } = r at ih ⊢
    unfold flowVisit
    by_cases ha : flowAccepts E s cells cur nbrs n = true
    · rw [if_pos ha]
      by_cases hd : (cells (nbrs.getD n (0, 0))).dist < r.bestDist
      · rw [if_pos hd]
        right
        rcases ih with ⟨_, h2, h3⟩ | ⟨i, hi, hai, hlt, _, h5, h6, _⟩
        · refine ⟨n, Nat.lt_succ_self n, ha, by omega, rfl, rfl, fun j hj haj => ?_,
            fun j hj haj => ?_⟩
          · rcases Nat.lt_succ_iff_lt_or_eq.mp hj with hj | rfl
            · have := h3 j hj haj
              omega
            · exact le_refl _
          · have := h3 j hj haj
            omega
        · refine ⟨n, Nat.lt_succ_self n, ha, by omega, rfl, rfl, fun j hj haj => ?_,
            fun j hj haj => ?_⟩
          · rcases Nat.lt_succ_iff_lt_or_eq.mp hj with hj | rfl
            · have := h6 j hj haj
              omega
            · exact le_refl _
          · have := h6 j hj haj
            omega
      · rw [if_neg hd]
        rcases ih with ⟨h1, h2, h3⟩ | ⟨i, hi, hai, hlt, h4, h5, h6, h7⟩
        · left
          refine ⟨h1, h2, fun j hj haj => ?_⟩
          rcases Nat.lt_succ_iff_lt_or_eq.mp hj with hj | rfl
          · exact h3 j hj haj
          · omega
        · right
          refine ⟨i, Nat.lt_succ_of_lt hi, hai, hlt, h4, h5, fun j hj haj => ?_, h7⟩
          rcases Nat.lt_succ_iff_lt_or_eq.mp hj with hj | rfl
          · exact h6 j hj haj
          · omega
    · rw [if_neg ha]
      rcases ih with ⟨h1, h2, h3⟩ | ⟨i, hi, hai, hlt, h4, h5, h6, h7⟩
      · left
        refine ⟨h1, h2, fun j hj haj => ?_⟩
        rcases Nat.lt_succ_iff_lt_or_eq.mp hj with hj | rfl
        · exact h3 j hj haj
        · exact absurd haj ha
      · right
        refine ⟨i, Nat.lt_succ_of_lt hi, hai, hlt, h4, h5, fun j hj haj => ?_, h7⟩
        rcases Nat.lt_succ_iff_lt_or_eq.mp hj with hj | rfl
        · exact h6 j hj haj
        · exact absurd haj ha

theorem eraseDir_cost {a b : FCellStruct} (h : eraseDir a = eraseDir b) : a.cost = b.cost := by
  have h1 := congrArg FCellStruct.cost h
  exact h1

theorem eraseDir_dist {a b : FCellStruct} (h : eraseDir a = eraseDir b) : a.dist = b.dist := by
  have h1 := congrArg FCellStruct.dist h
  exact h1

theorem eraseDir_worldLoc {a b : FCellStruct} (h : eraseDir a = eraseDir b) :
    a.worldLoc = b.worldLoc := by
  have h1 := congrArg FCellStruct.worldLoc h
  exact h1

theorem eraseDir_withDir (c : FCellStruct) (d : FVector) : eraseDir (withDir c d) = eraseDir c :=
  rfl

theorem withDir_congr {a b : FCellStruct} (h : eraseDir a = eraseDir b) (d : FVector) :
    withDir a d = withDir b d := by
  cases a; cases b
  simp only [eraseDir, FCellStruct.mk.injEq] at h
  simp only [withDir, FCellStruct.mk.injEq]
  simp_all

theorem flowAccepts_congr (E : Engine) (s : AFlowField)
    {cells cells' : FVector2D → FCellStruct} {cur cur' : FCellStruct}
    (hc : ∀ c, (cells c).cost = (cells' c).cost ∧ (cells c).worldLoc = (cells' c).worldLoc)
    (hcost : cur.cost = cur'.cost) (hloc : cur.worldLoc = cur'.worldLoc)
    (nbrs : List FVector2D) (i : Nat) :
    flowAccepts E s cells cur nbrs i = flowAccepts E s cells' cur' nbrs i := by
  simp only [flowAccepts, IsValidDiagonal, hc, hcost, hloc]

theorem flowFold_congr (E : Engine) (s : AFlowField) {cells cells' : FVector2D → FCellStruct}
    {cur cur' : FCellStruct} (h : ∀ c, eraseDir (cells c) = eraseDir (cells' c))
    (hcur : eraseDir cur = eraseDir cur') (nbrs : List FVector2D) :
    ∀ (idx : List Nat) (b b' : BestState), b.bestDist = b'.bestDist →
      b.bestCell.map eraseDir = b'.bestCell.map eraseDir →
      (idx.foldl (flowVisit E s cells cur nbrs) b).bestDist =
          (idx.foldl (flowVisit E s cells' cur' nbrs) b').bestDist ∧
        (idx.foldl (flowVisit E s cells cur nbrs) b).bestCell.map eraseDir =
          (idx.foldl (flowVisit E s cells' cur' nbrs) b').bestCell.map eraseDir := by
  intro idx
  induction idx with
  | nil => intro b b' h1 h2; exact ⟨h1, h2⟩
  | cons j js ih =>
    intro b b' h1 h2
    rw [List.foldl_cons, List.foldl_cons]
    have hacc : flowAccepts E s cells cur nbrs j = flowAccepts E s cells' cur' nbrs j :=
      flowAccepts_congr E s (fun c => ⟨eraseDir_cost (h c), eraseDir_worldLoc (h c)⟩)
        (eraseDir_cost hcur) (eraseDir_worldLoc hcur) nbrs j
    have hd : (cells (nbrs.getD j (0, 0))).dist = (cells' (nbrs.getD j (0, 0))).dist :=
      eraseDir_dist (h _)
    have hv : (flowVisit E s cells cur nbrs b j).bestDist =
          (flowVisit E s cells' cur' nbrs b' j).bestDist ∧
        (flowVisit E s cells cur nbrs b j).bestCell.map eraseDir =
          (flowVisit E s cells' cur' nbrs b' j).bestCell.map eraseDir := by
      unfold flowVisit
      rw [hacc]
      by_cases ha : flowAccepts E s cells' cur' nbrs j = true
      · rw [if_pos ha, if_pos ha]
        by_cases hlt : (cells (nbrs.getD j (0, 0))).dist < b.bestDist
        · have hlt' : (cells' (nbrs.getD j (0, 0))).dist < b'.bestDist := by omega
          simp only [if_pos hlt, if_pos hlt']
          exact ⟨hd, congrArg some (h _)⟩
        · have hlt' : ¬(cells' (nbrs.getD j (0, 0))).dist < b'.bestDist := by omega
          simp only [if_neg hlt, if_neg hlt']
          exact ⟨h1, h2⟩
      · rw [if_neg ha, if_neg ha]
        exact ⟨h1, h2⟩
    exact ih _ _ hv.1 hv.2

theorem flowDir_congr (E : Engine) (s : AFlowField) {cells cells' : FVector2D → FCellStruct}
    (h : ∀ c, eraseDir (cells c) = eraseDir (cells' c)) (c : FVector2D) :
    flowDir E s cells c = flowDir E s cells' c := by
  have hb := (flowFold_congr E s h (h c) (flowNeighborCoords c) (List.range 8)
    { bestCell := none, bestDist := (cells c).dist }
    { bestCell := none, bestDist := (cells' c).dist } (eraseDir_dist (h c)) rfl).2
  unfold flowDir flowBest
  simp only []
  generalize (List.range 8).foldl (flowVisit E s cells (cells c) (flowNeighborCoords c))
    { bestCell := none, bestDist := (cells c).dist } = r at hb ⊢
  generalize (List.range 8).foldl (flowVisit E s cells' (cells' c) (flowNeighborCoords c))
    { bestCell := none, bestDist := (cells' c).dist } = r' at hb ⊢
  rcases r with ⟨_ | b, d⟩ <;> rcases r' with ⟨_ | b', d'⟩
  · rfl
  · simp at hb
  · simp at hb
  · simp only [Option.map_some', Option.some.injEq] at hb
    simp only [eraseDir_worldLoc hb, eraseDir_worldLoc (h c)]

/-- The flow pass writes, into every cell whose index it runs over, the
direction derived from the map it started with, and changes nothing else. -/
theorem CreateFlowField_spec (E : Engine) (s : AFlowField) (cells : FVector2D → FCellStruct) :
    ∀ (n : Nat) (c : FVector2D),
      ((∃ j, j < n ∧ indexCoord s j = c) →
        CreateFlowField E s n cells c = withDir (cells c) (flowDir E s cells c)) ∧
      ((¬∃ j, j < n ∧ indexCoord s j = c) → CreateFlowField E s n cells c = cells c) := by
  intro n
  induction n with
  | zero =>
    intro c
    refine ⟨fun ⟨j, hj, _⟩ => absurd hj (Nat.not_lt_zero j), fun _ => rfl⟩
  | succ n ih =>
    have hsame : ∀ c, eraseDir (CreateFlowField E s n cells c) = eraseDir (cells c) := by
      intro c
      by_cases hex : ∃ j, j < n ∧ indexCoord s j = c
      · rw [(ih c).1 hex, eraseDir_withDir]
      · rw [(ih c).2 hex]
    have hstep : ∀ c, CreateFlowField E s (n + 1) cells c =
        setCell (CreateFlowField E s n cells) (indexCoord s n)
          (withDir (CreateFlowField E s n cells (indexCoord s n))
            (flowDir E s (CreateFlowField E s n cells) (indexCoord s n))) c := by
      intro c
      unfold CreateFlowField
      rw [List.range_succ, List.foldl_append, List.foldl_cons, List.foldl_nil]
      rfl
    intro c
    rw [hstep c]
    by_cases hc : c = indexCoord s n
    · subst hc
      rw [setCell_self, flowDir_congr E s hsame]
      exact ⟨fun _ => withDir_congr (hsame _) _,
        fun hno => absurd ⟨n, Nat.lt_succ_self n, rfl⟩ hno⟩
    · rw [setCell_of_ne _ _ hc]
      constructor
      · rintro ⟨j, hj, hjc⟩
        rcases Nat.lt_succ_iff_lt_or_eq.mp hj with hj | rfl
        · exact (ih c).1 ⟨j, hj, hjc⟩
        · exact absurd hjc.symm hc
      · intro hno
        exact (ih c).2 (fun ⟨j, hj, hjc⟩ => hno ⟨j, Nat.lt_succ_of_lt hj, hjc⟩)

theorem indexCoord_covers {s : AFlowField} {c : FVector2D} (hc : IsValidCoord s c = true) :
    ∃ j, j < s.xNum.toNat * s.yNum.toNat ∧ indexCoord s j = c := by
  simp only [IsValidCoord, Bool.and_eq_true, decide_eq_true_eq] at hc
  obtain ⟨⟨⟨h1, h2⟩, h3⟩, h4⟩ := hc
  refine ⟨(c.1 * s.yNum + c.2).toNat, ?_, ?_⟩
  · have hx : ((s.xNum.toNat : Int)) = s.xNum := Int.toNat_of_nonneg (by omega)
    have hy : ((s.yNum.toNat : Int)) = s.yNum := Int.toNat_of_nonneg (by omega)
    have hj : 0 ≤ c.1 * s.yNum + c.2 := by
      have : 0 ≤ c.1 * s.yNum := mul_nonneg h1 (by omega)
      omega
    zify
    rw [Int.toNat_of_nonneg hj, hx, hy]
    nlinarith
  · have hj : 0 ≤ c.1 * s.yNum + c.2 := by
      have : 0 ≤ c.1 * s.yNum := mul_nonneg h1 (by omega)
      omega
    unfold indexCoord
    rw [Int.toNat_of_nonneg hj]
    have hy : s.yNum ≠ 0 := by omega
    have e1 : (c.1 * s.yNum + c.2) / s.yNum = c.1 := by
      rw [Int.add_comm, Int.add_mul_ediv_right _ _ hy, Int.ediv_eq_zero_of_lt h3 h4]
      simp
    have e2 : (c.1 * s.yNum + c.2) % s.yNum = c.2 := by
      rw [Int.add_comm, Int.add_mul_emod_self, Int.emod_eq_of_lt h3 h4]
    rw [e1, e2]

/-! ## Example worlds are well-formed -/

theorem mkField_gridReady (xNum yNum : Nat) (Style : EStyle) (goal : FVector2D)
    (cost : FVector2D → Nat) (hg : IsValidCoord (mkField xNum yNum Style goal cost) goal = true) :
    GridReady (mkField xNum yNum Style goal cost) where
  goal := hg
  cells := fun _ _ => ⟨rfl, rfl⟩
  num := by simp [mkField, TMap.Num, gridKeys]

theorem unitGrid3_ready : GridReady unitGrid3 := mkField_gridReady _ _ _ _ _ (by decide)

theorem cornerGrid3_ready : GridReady cornerGrid3 := mkField_gridReady _ _ _ _ _ (by decide)

theorem corridor_ready : GridReady corridor := mkField_gridReady _ _ _ _ _ (by decide)

/-! ## C1: the values of the integration pass -/

/-- A cell that no path reaches at a cost below 65535 keeps the sentinel. -/
theorem integrationValue_eq_sentinel (E : Engine) {s : AFlowField} (h : GridReady s)
    {c : FVector2D} (hc : IsValidCoord s c = true)
    (hfar : ∀ d, PathCost E s (seededCells s) c d → 65535 ≤ d) :
    integrationValue E s c = 65535 := by
  have hle := integrationValue_le E h hc
  by_contra hne
  have hp := integrationValue_pathCost E h hc (by omega)
  have := hfar _ hp
  omega

/-- A cell that some path reaches at a cost below 65535 holds the least path cost. -/
theorem integrationValue_isMin (E : Engine) {s : AFlowField} (h : GridReady s)
    {c : FVector2D} (hc : IsValidCoord s c = true)
    (hnear : ∃ d, d < 65535 ∧ PathCost E s (seededCells s) c d) :
    IsMinPathCost E s c (integrationValue E s c) := by
  obtain ⟨d, hd, hp⟩ := hnear
  have hle := integrationValue_le_pathCost E h hp
  exact ⟨integrationValue_pathCost E h hc (by omega),
    fun d' hp' => integrationValue_le_pathCost E h hp'⟩

/-- C1 (amended): after the integration pass, every in-bounds cell that can be
reached from the goal through accepted edges at a cost below 65535 holds exactly
the least sum of the costs of the cells entered, over all such paths; every
other in-bounds cell (not reachable, or reachable only at a cost of 65535 or
more) holds the sentinel 65535. The loop has stopped with an empty queue. -/
theorem integration_holds_capped_minimum (E : Engine) {s : AFlowField} (h : GridReady s)
    {c : FVector2D} (hc : IsValidCoord s c = true) :
    (CreateIntegrationField E s).CellsToCheck = [] ∧
    ((∃ d, d < 65535 ∧ PathCost E s (seededCells s) c d) →
      IsMinPathCost E s c (integrationValue E s c)) ∧
    ((∀ d, PathCost E s (seededCells s) c d → 65535 ≤ d) →
      integrationValue E s c = 65535) :=
  ⟨CreateIntegrationField_queue E h, integrationValue_isMin E h hc,
    integrationValue_eq_sentinel E h hc⟩

/-- On the 3×3 scenario the corner (0,0) is reached at cost 1 over the diagonal
and holds that value. -/
theorem integration_holds_capped_minimum_witness :
    GridReady unitGrid3 ∧ IsValidCoord unitGrid3 (0, 0) = true ∧
    (CreateIntegrationField flatEngine unitGrid3).CellsToCheck = [] ∧
    ((∃ d, d < 65535 ∧ PathCost flatEngine unitGrid3 (seededCells unitGrid3) (0, 0) d) →
      IsMinPathCost flatEngine unitGrid3 (0, 0) (integrationValue flatEngine unitGrid3 (0, 0))) ∧
    ((∀ d, PathCost flatEngine unitGrid3 (seededCells unitGrid3) (0, 0) d → 65535 ≤ d) →
      integrationValue flatEngine unitGrid3 (0, 0) = 65535) :=
  ⟨unitGrid3_ready, by decide,
    integration_holds_capped_minimum flatEngine unitGrid3_ready (by decide)⟩

theorem corridor_cost {c : FVector2D} (hc : c ≠ (0, 0)) : (seededCells corridor c).cost = 254 := by
  rw [seededCells_of_ne corridor hc]
  rfl

theorem corridor_edge (k : Nat) (hk : k + 1 < 260) :
    IntegrationEdge flatEngine corridor (seededCells corridor) (0, (k : Int)) (0, (k : Int) + 1) := by
  refine ⟨2, by simp [integrationNeighborCoords, corridor, mkField], by simp [integrationNeighborCoords, corridor, mkField], ?_⟩
  have hcost : (seededCells corridor ((0 : Int) + 0, (k : Int) + 1)).cost = 254 :=
    corridor_cost (by simp; omega)
  have hvalid : IsValidCoord corridor ((0 : Int) + 0, (k : Int) + 1) = true := by
    simp [IsValidCoord, corridor, mkField]
    omega
  simp [integrationAccepts, integrationNeighborCoords, corridor, mkField, flatEngine] at hcost hvalid ⊢
  simp [hcost, hvalid]

theorem corridor_path (k : Nat) (hk : k < 260) :
    PathCost flatEngine corridor (seededCells corridor) (0, (k : Int)) (254 * k) := by
  induction k with
  | zero => exact PathCost.goal
  | succ n ih =>
    have := PathCost.step (ih (by omega)) (corridor_edge n hk)
    rw [corridor_cost (by simp; omega)] at this
    have e : 254 * (n + 1) = 254 * n + 254 := by ring
    rw [e]
    exact_mod_cast this

/-- In the corridor every step costs 254 and advances by one cell at most. -/
theorem corridor_lower {c : FVector2D} {d : Nat}
    (hp : PathCost flatEngine corridor (seededCells corridor) c d) : 254 * c.2 ≤ (d : Int) := by
  induction hp with
  | goal => simp [corridor, mkField]
  | @step u v d hp hedge ih =>
    obtain ⟨i, hi, hv, hacc⟩ := hedge
    have hvalid : IsValidCoord corridor v = true := hv ▸ integrationAccepts_valid hacc
    by_cases hg : v = (0, 0)
    · subst hg
      simp only [mul_zero]
      exact Int.natCast_nonneg _
    · rw [corridor_cost hg]
      have h4 : i < 4 := hi
      have hstep : v.2 ≤ u.2 + 1 := by
        subst hv
        interval_cases i <;> simp [integrationNeighborCoords, corridor, mkField]
      push_cast
      omega

/-- C1, counterexample: in a corridor of 260 cells of cost 254 with the goal at
one end, the far end (0,259) is reachable, the cheapest path costs 65786, and
the cell holds 65535, which is the cost of no path. -/
theorem corridor_far_end_keeps_sentinel :
    Reachable flatEngine corridor (0, 259) ∧
    integrationValue flatEngine corridor (0, 259) = 65535 ∧
    ¬ IsMinPathCost flatEngine corridor (0, 259) (integrationValue flatEngine corridor (0, 259)) := by
  have hfar : ∀ d, PathCost flatEngine corridor (seededCells corridor) (0, 259) d → 65535 ≤ d := by
    intro d hp
    have := corridor_lower hp
    simp only at this
    omega
  have hval := integrationValue_eq_sentinel flatEngine corridor_ready (by decide) hfar
  refine ⟨⟨254 * 259, corridor_path 259 (by omega)⟩, hval, ?_⟩
  rintro ⟨hp, _⟩
  rw [hval] at hp
  have := corridor_lower hp
  simp only at this
  omega

/-! ## C6: the goal holds 0 and values do not decrease away from it -/

theorem PathCost.inv {E : Engine} {s : AFlowField} {cells : FVector2D → FCellStruct}
    {c : FVector2D} {d : Nat} (hp : PathCost E s cells c d) :
    (c = s.goalGridCoord ∧ d = 0) ∨
      ∃ u d', PathCost E s cells u d' ∧ IntegrationEdge E s cells u c ∧
        d = d' + (cells c).cost := by
  cases hp with
  | goal => exact Or.inl ⟨rfl, rfl⟩
  | step hp hedge => exact Or.inr ⟨_, _, hp, hedge, rfl⟩

/-- A cell with a value below the sentinel, other than the goal, has an accepted
edge into it along which the value grows by exactly its cost. -/
theorem integrationValue_pred (E : Engine) {s : AFlowField} (h : GridReady s) {c : FVector2D}
    (hc : IsValidCoord s c = true) (hg : c ≠ s.goalGridCoord)
    (hlt : integrationValue E s c < 65535) :
    ∃ p, IsValidCoord s p = true ∧ IntegrationEdge E s (seededCells s) p c ∧
      integrationValue E s c = integrationValue E s p + (seededCells s c).cost := by
  rcases (integrationValue_pathCost E h hc hlt).inv with ⟨hgoal, _⟩ | ⟨u, d', hp, hedge, hd⟩
  · exact absurd hgoal hg
  · have hu := hp.valid h
    have hle := integrationValue_le_pathCost E h hp
    have hrel := integrationValue_edge E h hu (by omega) hedge
    exact ⟨u, hu, hedge, by omega⟩

/-- C6: after the integration pass the goal cell holds exactly 0, and every other
in-bounds cell `c` with a value other than the sentinel has an in-bounds
neighbour `p` with an accepted edge from `p` to `c` such that
value(c) = value(p) + cost(c), hence value(p) ≤ value(c). -/
theorem integration_goal_zero_and_monotone (E : Engine) {s : AFlowField} (h : GridReady s) :
    integrationValue E s s.goalGridCoord = 0 ∧
    ∀ c, IsValidCoord s c = true → c ≠ s.goalGridCoord → integrationValue E s c ≠ 65535 →
      ∃ p, IsValidCoord s p = true ∧ IntegrationEdge E s (seededCells s) p c ∧
        integrationValue E s c =
          integrationValue E s p + ((CreateIntegrationField E s).NewCellsMap c).cost ∧
        integrationValue E s p ≤ integrationValue E s c := by
  refine ⟨integrationValue_goal E h, fun c hc hg hne => ?_⟩
  have hle := integrationValue_le E h hc
  obtain ⟨p, hp, hedge, heq⟩ := integrationValue_pred E h hc hg (by omega)
  rw [eraseDist_cost (CreateIntegrationField_same E h c)]
  exact ⟨p, hp, hedge, heq, by omega⟩

/-- On the 3×3 scenario the goal holds 0 and every other reached cell has such a
neighbour. -/
theorem integration_goal_zero_and_monotone_witness :
    GridReady unitGrid3 ∧
    integrationValue flatEngine unitGrid3 unitGrid3.goalGridCoord = 0 ∧
    ∀ c, IsValidCoord unitGrid3 c = true → c ≠ unitGrid3.goalGridCoord →
      integrationValue flatEngine unitGrid3 c ≠ 65535 →
      ∃ p, IsValidCoord unitGrid3 p = true ∧
        IntegrationEdge flatEngine unitGrid3 (seededCells unitGrid3) p c ∧
        integrationValue flatEngine unitGrid3 c =
          integrationValue flatEngine unitGrid3 p +
            ((CreateIntegrationField flatEngine unitGrid3).NewCellsMap c).cost ∧
        integrationValue flatEngine unitGrid3 p ≤ integrationValue flatEngine unitGrid3 c :=
  ⟨unitGrid3_ready, integration_goal_zero_and_monotone flatEngine unitGrid3_ready⟩

/-! ## The published map -/

theorem wallGrid_ready : GridReady wallGrid := mkField_gridReady _ _ _ _ _ (by decide)

theorem enclosedGrid_ready : GridReady enclosedGrid := mkField_gridReady _ _ _ _ _ (by decide)

theorem goalOnWallGrid_ready : GridReady goalOnWallGrid := mkField_gridReady _ _ _ _ _ (by decide)

/-- When the refresh is due, the published cell of an in-bounds coordinate is
the cell after the integration pass with the direction of the flow pass. -/
theorem CalculateFlowField_cell (E : Engine) {s : AFlowField} (h : GridReady s)
    (hdue : s.nextTickTimeLeft = s.updateInterval) {c : FVector2D}
    (hc : IsValidCoord s c = true) :
    (CalculateFlowField E s).CurrentCellsMap.val c =
      withDir (integrationField E s c) (flowDir E s (integrationField E s) c) := by
  unfold CalculateFlowField
  rw [if_neg (not_not.mpr hdue)]
  show CreateFlowField E s s.InitialCellsMap.Num (integrationField E s) c = _
  rw [h.num]
  exact (CreateFlowField_spec E s _ _ c).1 (indexCoord_covers hc)

theorem publishedDir_eq (E : Engine) {s : AFlowField} (h : GridReady s)
    (hdue : s.nextTickTimeLeft = s.updateInterval) {c : FVector2D}
    (hc : IsValidCoord s c = true) :
    publishedDir E s c = flowDir E s (integrationField E s) c := by
  unfold publishedDir
  rw [CalculateFlowField_cell E h hdue hc]
  rfl

theorem published_dist (E : Engine) {s : AFlowField} (h : GridReady s)
    (hdue : s.nextTickTimeLeft = s.updateInterval) {c : FVector2D}
    (hc : IsValidCoord s c = true) :
    ((CalculateFlowField E s).CurrentCellsMap.val c).dist = integrationValue E s c := by
  rw [CalculateFlowField_cell E h hdue hc]
  rfl

/-- The choice of the flow pass for one cell: without a candidate there is no
best cell; with one, the best cell is the candidate of least value that comes
first in the enumeration. -/
theorem flowBest_spec (E : Engine) (s : AFlowField) (cells : FVector2D → FCellStruct)
    (c : FVector2D) :
    ((flowBest E s cells c).bestCell = none ∧ ∀ j, ¬FlowCandidate E s cells c j) ∨
    (∃ i, FlowCandidate E s cells c i ∧
      (flowBest E s cells c).bestCell = some (cells ((flowNeighborCoords c).getD i (0, 0))) ∧
      (∀ j, j < 8 → flowAccepts E s cells (cells c) (flowNeighborCoords c) j = true →
        (cells ((flowNeighborCoords c).getD i (0, 0))).dist ≤
          (cells ((flowNeighborCoords c).getD j (0, 0))).dist) ∧
      (∀ j, j < i → flowAccepts E s cells (cells c) (flowNeighborCoords c) j = true →
        (cells ((flowNeighborCoords c).getD i (0, 0))).dist <
          (cells ((flowNeighborCoords c).getD j (0, 0))).dist)) := by
  rcases flowFold_spec E s cells (cells c) (flowNeighborCoords c) (cells c).dist 8 with
    ⟨h1, _, h3⟩ | ⟨i, hi, hai, hlt, h4, _, h6, h7⟩
  · left
    refine ⟨h1, fun j hj => ?_⟩
    have := h3 j hj.1 hj.2.1
    have := hj.2.2
    omega
  · right
    exact ⟨i, ⟨hi, hai, hlt⟩, h4, h6, h7⟩

theorem flowDir_of_none {E : Engine} {s : AFlowField} {cells : FVector2D → FCellStruct}
    {c : FVector2D} (h : (flowBest E s cells c).bestCell = none) :
    flowDir E s cells c = FVector.ZeroVector := by
  unfold flowDir
  rw [h]

theorem flowDir_of_some {E : Engine} {s : AFlowField} {cells : FVector2D → FCellStruct}
    {c : FVector2D} {b : FCellStruct} (h : (flowBest E s cells c).bestCell = some b) :
    flowDir E s cells c = E.GetDirectionUnitVector (cells c).worldLoc b.worldLoc := by
  unfold flowDir
  rw [h]

theorem flowAccepts_valid {E : Engine} {s : AFlowField} {cells : FVector2D → FCellStruct}
    {cur : FCellStruct} {nbrs : List FVector2D} {i : Nat}
    (h : flowAccepts E s cells cur nbrs i = true) :
    IsValidCoord s (nbrs.getD i (0, 0)) = true := by
  unfold flowAccepts at h
  by_contra hv
  simp only [hv, Bool.not_false, if_true] at h
  exact Bool.false_ne_true h

theorem flowAccepts_cost {E : Engine} {s : AFlowField} {cells : FVector2D → FCellStruct}
    {cur : FCellStruct} {nbrs : List FVector2D} {i : Nat}
    (h : flowAccepts E s cells cur nbrs i = true) :
    (cells (nbrs.getD i (0, 0))).cost ≠ 255 := by
  have hv := flowAccepts_valid h
  unfold flowAccepts at h
  intro hcost
  simp only [hv, Bool.not_true, hcost, if_true] at h
  exact Bool.false_ne_true h

/-! ## C5: the choice of the flow pass -/

/-- C5: for every in-bounds cell `c` the flow pass enumerates the neighbours in
the order (0,-1),(1,0),(0,1),(-1,0),(1,-1),(1,1),(-1,1),(-1,-1); among the
accepted neighbours whose integration value is strictly less than that of `c` it
picks one of least value, and among several of least value the first in that
order; the published direction is the unit vector from `c` to it; and the
direction is the zero vector exactly when there is no such neighbour (unit
vectors between the locations of neighbouring cells being non-zero). -/
theorem flow_picks_first_least_candidate (E : Engine) {s : AFlowField} (h : GridReady s)
    (hdue : s.nextTickTimeLeft = s.updateInterval) {c : FVector2D}
    (hc : IsValidCoord s c = true)
    (hunit : ∀ i, i < 8 → IsValidCoord s ((flowNeighborCoords c).getD i (0, 0)) = true →
      E.GetDirectionUnitVector (integrationField E s c).worldLoc
        (integrationField E s ((flowNeighborCoords c).getD i (0, 0))).worldLoc ≠
        FVector.ZeroVector) :
    flowNeighborCoords c = flowOffsets.map (fun o => (c.1 + o.1, c.2 + o.2)) ∧
    ((∃ i, FlowCandidate E s (integrationField E s) c i) →
      ∃ i, FlowCandidate E s (integrationField E s) c i ∧
        (∀ j, FlowCandidate E s (integrationField E s) c j →
          (integrationField E s ((flowNeighborCoords c).getD i (0, 0))).dist ≤
            (integrationField E s ((flowNeighborCoords c).getD j (0, 0))).dist) ∧
        (∀ j, FlowCandidate E s (integrationField E s) c j →
          (integrationField E s ((flowNeighborCoords c).getD j (0, 0))).dist =
            (integrationField E s ((flowNeighborCoords c).getD i (0, 0))).dist → i ≤ j) ∧
        publishedDir E s c =
          E.GetDirectionUnitVector (integrationField E s c).worldLoc
            (integrationField E s ((flowNeighborCoords c).getD i (0, 0))).worldLoc) ∧
    (publishedDir E s c = FVector.ZeroVector ↔
      ¬∃ i, FlowCandidate E s (integrationField E s) c i) := by
  rw [publishedDir_eq E h hdue hc]
  refine ⟨rfl, ?_, ?_⟩
  · rintro ⟨k, hk⟩
    rcases flowBest_spec E s (integrationField E s) c with ⟨_, hno⟩ | ⟨i, hi, hbest, hmin, hfirst⟩
    · exact absurd hk (hno k)
    · refine ⟨i, hi, fun j hj => hmin j hj.1 hj.2.1, fun j hj heq => ?_, flowDir_of_some hbest⟩
      by_contra hlt
      have := hfirst j (by omega) hj.2.1
      omega
  · rcases flowBest_spec E s (integrationField E s) c with ⟨hnone, hno⟩ | ⟨i, hi, hbest, _, _⟩
    · exact ⟨fun _ ⟨k, hk⟩ => hno k hk, fun _ => flowDir_of_none hnone⟩
    · rw [flowDir_of_some hbest]
      constructor
      · intro hz
        exact absurd hz (hunit i hi.1 (flowAccepts_valid hi.2.1))
      · intro hno
        exact absurd ⟨i, hi⟩ hno

/-- On the 3×3 scenario, for the cell (0,1) next to the goal. -/
theorem flow_picks_first_least_candidate_witness :
    GridReady unitGrid3 ∧ unitGrid3.nextTickTimeLeft = unitGrid3.updateInterval ∧
    IsValidCoord unitGrid3 (0, 1) = true ∧
    (publishedDir flatEngine unitGrid3 (0, 1) = FVector.ZeroVector ↔
      ¬∃ i, FlowCandidate flatEngine unitGrid3 (integrationField flatEngine unitGrid3) (0, 1) i) :=
  ⟨unitGrid3_ready, rfl, by decide,
    (flow_picks_first_least_candidate flatEngine unitGrid3_ready rfl (c := (0, 1)) (by decide)
      (by decide)).2.2⟩

/-! ## C2: cells that keep the sentinel -/

/-- C2 (amended): for every in-bounds cell whose integration value is still the
sentinel after the integration pass, the flow pass sets the direction to the
zero vector if none of the neighbours it accepts holds a value below the
sentinel; otherwise it sets the unit direction to the best such neighbour: one
of least value among all of them, and the first in the order of the neighbour
list among those of least value. -/
theorem flow_sentinel_cell (E : Engine) {s : AFlowField} (h : GridReady s)
    (hdue : s.nextTickTimeLeft = s.updateInterval) {c : FVector2D}
    (hc : IsValidCoord s c = true) (hs : integrationValue E s c = 65535) :
    ((∀ i, i < 8 →
        flowAccepts E s (integrationField E s) (integrationField E s c) (flowNeighborCoords c) i =
          true →
        ¬integrationValue E s ((flowNeighborCoords c).getD i (0, 0)) < 65535) →
      publishedDir E s c = FVector.ZeroVector) ∧
    ((∃ i, i < 8 ∧
        flowAccepts E s (integrationField E s) (integrationField E s c) (flowNeighborCoords c) i =
          true ∧
        integrationValue E s ((flowNeighborCoords c).getD i (0, 0)) < 65535) →
      ∃ i, i < 8 ∧
        flowAccepts E s (integrationField E s) (integrationField E s c) (flowNeighborCoords c) i =
          true ∧
        integrationValue E s ((flowNeighborCoords c).getD i (0, 0)) < 65535 ∧
        (∀ j, j < 8 →
          flowAccepts E s (integrationField E s) (integrationField E s c) (flowNeighborCoords c)
            j = true →
          integrationValue E s ((flowNeighborCoords c).getD i (0, 0)) ≤
            integrationValue E s ((flowNeighborCoords c).getD j (0, 0))) ∧
        (∀ j, j < i →
          flowAccepts E s (integrationField E s) (integrationField E s c) (flowNeighborCoords c)
            j = true →
          integrationValue E s ((flowNeighborCoords c).getD i (0, 0)) <
            integrationValue E s ((flowNeighborCoords c).getD j (0, 0))) ∧
        publishedDir E s c =
          E.GetDirectionUnitVector (integrationField E s c).worldLoc
            (integrationField E s ((flowNeighborCoords c).getD i (0, 0))).worldLoc) := by
  have hs' : (integrationField E s c).dist = 65535 := hs
  rw [publishedDir_eq E h hdue hc]
  rcases flowBest_spec E s (integrationField E s) c with
    ⟨hnone, hno⟩ | ⟨i, hi, hbest, hmin, hfirst⟩
  · refine ⟨fun _ => flowDir_of_none hnone, ?_⟩
    rintro ⟨k, hk, hak, hlt⟩
    exact absurd ⟨hk, hak, by rw [hs']; exact hlt⟩ (hno k)
  · have hlt : integrationValue E s ((flowNeighborCoords c).getD i (0, 0)) < 65535 := by
      have := hi.2.2
      rw [hs'] at this
      exact this
    exact ⟨fun hall => absurd hlt (hall i hi.1 hi.2.1),
      fun _ => ⟨i, hi.1, hi.2.1, hlt, hmin, hfirst, flowDir_of_some hbest⟩⟩

/-- On the 3×3 scenario with two walls, for the cut-off corner (0,0), which gets
the zero direction; and on the 1×2 grid with a wall cell next to the goal, for
the wall cell (0,1), which gets the direction to its best neighbour. -/
theorem flow_sentinel_cell_witness :
    (GridReady cornerGrid3 ∧ cornerGrid3.nextTickTimeLeft = cornerGrid3.updateInterval ∧
      IsValidCoord cornerGrid3 (0, 0) = true ∧
      integrationValue flatEngine cornerGrid3 (0, 0) = 65535 ∧
      publishedDir flatEngine cornerGrid3 (0, 0) = FVector.ZeroVector) ∧
    (GridReady wallGrid ∧ wallGrid.nextTickTimeLeft = wallGrid.updateInterval ∧
      IsValidCoord wallGrid (0, 1) = true ∧
      integrationValue flatEngine wallGrid (0, 1) = 65535 ∧
      ∃ i, i < 8 ∧
        flowAccepts flatEngine wallGrid (integrationField flatEngine wallGrid)
          (integrationField flatEngine wallGrid (0, 1)) (flowNeighborCoords (0, 1)) i = true ∧
        integrationValue flatEngine wallGrid ((flowNeighborCoords (0, 1)).getD i (0, 0)) <
          65535 ∧
        (∀ j, j < 8 →
          flowAccepts flatEngine wallGrid (integrationField flatEngine wallGrid)
            (integrationField flatEngine wallGrid (0, 1)) (flowNeighborCoords (0, 1)) j = true →
          integrationValue flatEngine wallGrid ((flowNeighborCoords (0, 1)).getD i (0, 0)) ≤
            integrationValue flatEngine wallGrid ((flowNeighborCoords (0, 1)).getD j (0, 0))) ∧
        (∀ j, j < i →
          flowAccepts flatEngine wallGrid (integrationField flatEngine wallGrid)
            (integrationField flatEngine wallGrid (0, 1)) (flowNeighborCoords (0, 1)) j = true →
          integrationValue flatEngine wallGrid ((flowNeighborCoords (0, 1)).getD i (0, 0)) <
            integrationValue flatEngine wallGrid ((flowNeighborCoords (0, 1)).getD j (0, 0))) ∧
        publishedDir flatEngine wallGrid (0, 1) =
          flatEngine.GetDirectionUnitVector (integrationField flatEngine wallGrid (0, 1)).worldLoc
            (integrationField flatEngine wallGrid
              ((flowNeighborCoords (0, 1)).getD i (0, 0))).worldLoc) :=
  ⟨⟨cornerGrid3_ready, rfl, by decide, by decide,
      (flow_sentinel_cell flatEngine cornerGrid3_ready rfl (c := (0, 0)) (by decide)
        (by decide)).1 (by decide)⟩,
    ⟨wallGrid_ready, rfl, by decide, by decide,
      (flow_sentinel_cell flatEngine wallGrid_ready rfl (c := (0, 1)) (by decide)
        (by decide)).2 ⟨0, by decide, by decide, by decide⟩⟩⟩

/-- C2, counterexample: the wall cell (0,1) next to the goal (0,0) keeps the
sentinel, and the flow pass points it at the goal. -/
theorem wall_cell_gets_direction :
    IsValidCoord wallGrid (0, 1) = true ∧
    integrationValue flatEngine wallGrid (0, 1) = 65535 ∧
    publishedDir flatEngine wallGrid (0, 1) = ⟨0, -1, 0⟩ ∧
    publishedDir flatEngine wallGrid (0, 1) ≠ FVector.ZeroVector := by
  decide

/-! ## C3: diagonal steps and the corner pair -/

theorem IsValidDiagonal_cost {s : AFlowField} {cells : FVector2D → FCellStruct}
    {nbrs : List FVector2D} {a b : Nat} (h : IsValidDiagonal s cells nbrs a b = true) :
    (IsValidCoord s (nbrs.getD a (0, 0)) = true → (cells (nbrs.getD a (0, 0))).cost ≠ 255) ∧
    (IsValidCoord s (nbrs.getD b (0, 0)) = true → (cells (nbrs.getD b (0, 0))).cost ≠ 255) := by
  unfold IsValidDiagonal at h
  constructor <;> intro hv hc <;>
    simp [-List.getD_eq_getElem?_getD, -Prod.mk_zero_zero, hv, hc] at h

theorem integrationAccepts_diag {E : Engine} {s : AFlowField} {cells : FVector2D → FCellStruct}
    {cur : FCellStruct} {nbrs : List FVector2D} {i a b : Nat}
    (h : integrationAccepts E s cells cur nbrs i = true) (hS : s.Style = EStyle.AdjacentFirst)
    (hi : (i = 0 ∧ a = 4 ∧ b = 5) ∨ (i = 1 ∧ a = 5 ∧ b = 6) ∨ (i = 2 ∧ a = 6 ∧ b = 7) ∨
      (i = 3 ∧ a = 7 ∧ b = 4)) :
    IsValidDiagonal s cells nbrs a b = true := by
  have hv := integrationAccepts_valid h
  unfold integrationAccepts at h
  simp only [hv, Bool.not_true, hS, true_and] at h
  by_contra hd
  rcases hi with ⟨rfl, rfl, rfl⟩ | ⟨rfl, rfl, rfl⟩ | ⟨rfl, rfl, rfl⟩ | ⟨rfl, rfl, rfl⟩ <;>
    simp [hd] at h

theorem flowAccepts_diag {E : Engine} {s : AFlowField} {cells : FVector2D → FCellStruct}
    {cur : FCellStruct} {nbrs : List FVector2D} {i a b : Nat}
    (h : flowAccepts E s cells cur nbrs i = true) (hcur : cur.cost ≠ 255)
    (hi : (i = 4 ∧ a = 0 ∧ b = 1) ∨ (i = 5 ∧ a = 1 ∧ b = 2) ∨ (i = 6 ∧ a = 2 ∧ b = 3) ∨
      (i = 7 ∧ a = 3 ∧ b = 0)) :
    IsValidDiagonal s cells nbrs a b = true := by
  have hv := flowAccepts_valid h
  unfold flowAccepts at h
  simp only [hv, Bool.not_true, hcur, true_and] at h
  by_contra hd
  rcases hi with ⟨rfl, rfl, rfl⟩ | ⟨rfl, rfl, rfl⟩ | ⟨rfl, rfl, rfl⟩ | ⟨rfl, rfl, rfl⟩ <;>
    simp [hd, hcur] at h

/-- C3 (amended): a diagonal step from a cell to an in-bounds diagonal neighbour
is never accepted when one of the two cells orthogonally adjacent to both has
cost 255: in the integration pass always, in the flow pass whenever the cell the
step starts from is itself passable (cost other than 255). On the 3×3 scenario
with goal (1,1) and the cells (0,1) and (1,0) at cost 255, the cell (0,0) keeps
the sentinel and gets no direction. -/
theorem diagonal_needs_passable_corners (E : Engine) (s : AFlowField)
    (cells : FVector2D → FCellStruct) (u : FVector2D) (hu : IsValidCoord s u = true) :
    (∀ (cur : FCellStruct) (i : Nat), i < (integrationNeighborCoords s.Style u).length →
      integrationAccepts E s cells cur (integrationNeighborCoords s.Style u) i = true →
      ((integrationNeighborCoords s.Style u).getD i (0, 0)).1 ≠ u.1 →
      ((integrationNeighborCoords s.Style u).getD i (0, 0)).2 ≠ u.2 →
      (cells (((integrationNeighborCoords s.Style u).getD i (0, 0)).1, u.2)).cost ≠ 255 ∧
        (cells (u.1, ((integrationNeighborCoords s.Style u).getD i (0, 0)).2)).cost ≠ 255) ∧
    (∀ (i : Nat), i < 8 → (cells u).cost ≠ 255 →
      flowAccepts E s cells (cells u) (flowNeighborCoords u) i = true →
      ((flowNeighborCoords u).getD i (0, 0)).1 ≠ u.1 →
      ((flowNeighborCoords u).getD i (0, 0)).2 ≠ u.2 →
      (cells (((flowNeighborCoords u).getD i (0, 0)).1, u.2)).cost ≠ 255 ∧
        (cells (u.1, ((flowNeighborCoords u).getD i (0, 0)).2)).cost ≠ 255) ∧
    integrationValue flatEngine cornerGrid3 (0, 0) = 65535 ∧
    publishedDir flatEngine cornerGrid3 (0, 0) = FVector.ZeroVector := by
  obtain ⟨x, y⟩ := u
  have hu' := hu
  simp only [IsValidCoord, Bool.and_eq_true, decide_eq_true_eq] at hu'
  refine ⟨?_, ?_, by decide, by decide⟩
  · intro cur i hi hacc hx hy
    have hv := integrationAccepts_valid hacc
    cases hS : s.Style with
    | DiagonalFirst =>
      rw [hS] at hi hx hy
      have hi4 : i < 4 := hi
      interval_cases i <;> simp [integrationNeighborCoords] at hx hy
    | AdjacentFirst =>
      rw [hS] at hi hx hy hv hacc
      have hi8 : i < 8 := hi
      have hS' : s.Style = EStyle.AdjacentFirst := hS
      interval_cases i
      · have hd := IsValidDiagonal_cost (integrationAccepts_diag hacc hS' (a := 4) (b := 5) (by simp))
        simp only [integrationNeighborCoords, List.getD_cons_zero, List.getD_cons_succ,
          IsValidCoord, Bool.and_eq_true, decide_eq_true_eq] at hd hv ⊢
        simp only [add_zero] at hd
        exact ⟨hd.2 (by omega), hd.1 (by omega)⟩
      · have hd := IsValidDiagonal_cost (integrationAccepts_diag hacc hS' (a := 5) (b := 6) (by simp))
        simp only [integrationNeighborCoords, List.getD_cons_zero, List.getD_cons_succ,
          IsValidCoord, Bool.and_eq_true, decide_eq_true_eq] at hd hv ⊢
        simp only [add_zero] at hd
        exact ⟨hd.1 (by omega), hd.2 (by omega)⟩
      · have hd := IsValidDiagonal_cost (integrationAccepts_diag hacc hS' (a := 6) (b := 7) (by simp))
        simp only [integrationNeighborCoords, List.getD_cons_zero, List.getD_cons_succ,
          IsValidCoord, Bool.and_eq_true, decide_eq_true_eq] at hd hv ⊢
        simp only [add_zero] at hd
        exact ⟨hd.2 (by omega), hd.1 (by omega)⟩
      · have hd := IsValidDiagonal_cost (integrationAccepts_diag hacc hS' (a := 7) (b := 4) (by simp))
        simp only [integrationNeighborCoords, List.getD_cons_zero, List.getD_cons_succ,
          IsValidCoord, Bool.and_eq_true, decide_eq_true_eq] at hd hv ⊢
        simp only [add_zero] at hd
        exact ⟨hd.1 (by omega), hd.2 (by omega)⟩
      all_goals simp [integrationNeighborCoords] at hx hy
  · intro i hi hcur hacc hx hy
    have hv := flowAccepts_valid hacc
    interval_cases i
    any_goals (simp [flowNeighborCoords] at hx hy; done)
    · have hd := IsValidDiagonal_cost (flowAccepts_diag hacc hcur (a := 0) (b := 1) (by simp))
      simp only [flowNeighborCoords, List.getD_cons_zero, List.getD_cons_succ,
        IsValidCoord, Bool.and_eq_true, decide_eq_true_eq] at hd hv ⊢
      simp only [add_zero] at hd
      exact ⟨hd.2 (by omega), hd.1 (by omega)⟩
    · have hd := IsValidDiagonal_cost (flowAccepts_diag hacc hcur (a := 1) (b := 2) (by simp))
      simp only [flowNeighborCoords, List.getD_cons_zero, List.getD_cons_succ,
        IsValidCoord, Bool.and_eq_true, decide_eq_true_eq] at hd hv ⊢
      simp only [add_zero] at hd
      exact ⟨hd.1 (by omega), hd.2 (by omega)⟩
    · have hd := IsValidDiagonal_cost (flowAccepts_diag hacc hcur (a := 2) (b := 3) (by simp))
      simp only [flowNeighborCoords, List.getD_cons_zero, List.getD_cons_succ,
        IsValidCoord, Bool.and_eq_true, decide_eq_true_eq] at hd hv ⊢
      simp only [add_zero] at hd
      exact ⟨hd.2 (by omega), hd.1 (by omega)⟩
    · have hd := IsValidDiagonal_cost (flowAccepts_diag hacc hcur (a := 3) (b := 0) (by simp))
      simp only [flowNeighborCoords, List.getD_cons_zero, List.getD_cons_succ,
        IsValidCoord, Bool.and_eq_true, decide_eq_true_eq] at hd hv ⊢
      simp only [add_zero] at hd
      exact ⟨hd.1 (by omega), hd.2 (by omega)⟩

/-- On the 3×3 scenario with two walls, for the steps out of the goal (1,1). -/
theorem diagonal_needs_passable_corners_witness :
    IsValidCoord cornerGrid3 (1, 1) = true ∧
    ∀ (i : Nat), i < 8 → (integrationField flatEngine cornerGrid3 (1, 1)).cost ≠ 255 →
      flowAccepts flatEngine cornerGrid3 (integrationField flatEngine cornerGrid3)
        (integrationField flatEngine cornerGrid3 (1, 1)) (flowNeighborCoords (1, 1)) i = true →
      ((flowNeighborCoords (1, 1)).getD i (0, 0)).1 ≠ (1 : Int) →
      ((flowNeighborCoords (1, 1)).getD i (0, 0)).2 ≠ (1 : Int) →
      (integrationField flatEngine cornerGrid3
          (((flowNeighborCoords (1, 1)).getD i (0, 0)).1, 1)).cost ≠ 255 ∧
        (integrationField flatEngine cornerGrid3
          (1, ((flowNeighborCoords (1, 1)).getD i (0, 0)).2)).cost ≠ 255 :=
  ⟨by decide,
    (diagonal_needs_passable_corners flatEngine cornerGrid3
      (integrationField flatEngine cornerGrid3) (1, 1) (by decide)).2.1⟩

/-- C3, counterexample: in the flow pass the wall cell (0,0) steps diagonally to
the goal (1,1) although both cells of the corner pair, (1,0) and (0,1), have
cost 255. -/
theorem wall_cell_cuts_corner :
    (flowNeighborCoords (0, 0)).getD 5 (0, 0) = (1, 1) ∧
    (integrationField flatEngine enclosedGrid (1, 0)).cost = 255 ∧
    (integrationField flatEngine enclosedGrid (0, 1)).cost = 255 ∧
    flowAccepts flatEngine enclosedGrid (integrationField flatEngine enclosedGrid)
      (integrationField flatEngine enclosedGrid (0, 0)) (flowNeighborCoords (0, 0)) 5 = true ∧
    (flowBest flatEngine enclosedGrid (integrationField flatEngine enclosedGrid) (0, 0)).bestCell =
      some (integrationField flatEngine enclosedGrid (1, 1)) := by
  decide

/-! ## C4: the best neighbour is passable -/

theorem integrationField_gridCoord (E : Engine) {s : AFlowField} (h : GridReady s)
    {c : FVector2D} (hc : IsValidCoord s c = true) : (integrationField E s c).gridCoord = c :=
  (eraseDist_gridCoord (CreateIntegrationField_same E h c)).trans (seededCells_gridCoord h hc)

theorem integrationField_cost (E : Engine) {s : AFlowField} (h : GridReady s)
    {c : FVector2D} (hg : c ≠ s.goalGridCoord) :
    (integrationField E s c).cost = (s.InitialCellsMap.val c).cost := by
  have := eraseDist_cost (CreateIntegrationField_same E h c)
  rw [seededCells_of_ne s hg] at this
  exact this

theorem integrationField_cost_goal (E : Engine) {s : AFlowField} (h : GridReady s) :
    (integrationField E s s.goalGridCoord).cost = 0 := by
  have := eraseDist_cost (CreateIntegrationField_same E h s.goalGridCoord)
  rw [seededCells_goal] at this
  exact this

/-- C4 (amended): the best neighbour the flow pass selects for a cell is an
in-bounds cell whose cost in the working map is not 255; so no cell other than
the goal whose grid cost is 255 is ever selected. The goal cell, whose cost the
refresh overwrites with 0, is not excluded by its grid cost. -/
theorem flow_best_cell_passable (E : Engine) {s : AFlowField} (h : GridReady s)
    {c : FVector2D} {bestCell : FCellStruct}
    (hb : (flowBest E s (integrationField E s) c).bestCell = some bestCell) :
    IsValidCoord s bestCell.gridCoord = true ∧
    bestCell = integrationField E s bestCell.gridCoord ∧
    bestCell.cost ≠ 255 ∧
    (bestCell.gridCoord ≠ s.goalGridCoord →
      (s.InitialCellsMap.val bestCell.gridCoord).cost ≠ 255) ∧
    (integrationField E s s.goalGridCoord).cost = 0 := by
  rcases flowBest_spec E s (integrationField E s) c with ⟨hnone, _⟩ | ⟨i, hi, hbest, _, _⟩
  · rw [hnone] at hb
    exact absurd hb (Option.noConfusion)
  · rw [hbest] at hb
    have hb' := Option.some.inj hb
    have hv := flowAccepts_valid hi.2.1
    have hcost := flowAccepts_cost hi.2.1
    have hg := integrationField_gridCoord E h hv
    subst hb'
    rw [hg]
    refine ⟨hv, rfl, hcost, fun hne => ?_, integrationField_cost_goal E h⟩
    rw [← integrationField_cost E h hne]
    exact hcost

/-- On the 3×3 scenario the best neighbour of (0,1) is the goal (1,1). -/
theorem flow_best_cell_passable_witness :
    GridReady unitGrid3 ∧
    (flowBest flatEngine unitGrid3 (integrationField flatEngine unitGrid3) (0, 1)).bestCell =
      some (integrationField flatEngine unitGrid3 (1, 1)) ∧
    (integrationField flatEngine unitGrid3 (1, 1)).cost ≠ 255 :=
  ⟨unitGrid3_ready, by decide,
    (@flow_best_cell_passable flatEngine unitGrid3 unitGrid3_ready (0, 1)
      (integrationField flatEngine unitGrid3 (1, 1)) (by decide)).2.2.1⟩

/-- C4, counterexample: the goal sits on a cell the grid sampled with cost 255,
and the flow pass selects that cell as the best neighbour of (0,1). -/
theorem goal_on_wall_is_selected :
    (goalOnWallGrid.InitialCellsMap.val (0, 0)).cost = 255 ∧
    (flowBest flatEngine goalOnWallGrid (integrationField flatEngine goalOnWallGrid)
      (0, 1)).bestCell = some (integrationField flatEngine goalOnWallGrid (0, 0)) ∧
    (integrationField flatEngine goalOnWallGrid (0, 0)).gridCoord = (0, 0) ∧
    publishedDir flatEngine goalOnWallGrid (0, 1) = ⟨0, -1, 0⟩ := by
  decide

/-! ## C7: a refresh with an invalid goal state -/

theorem UpdateGoalLocation_frame (E : Engine) (s : AFlowField) :
    (UpdateGoalLocation E s).InitialCellsMap = s.InitialCellsMap ∧
    (UpdateGoalLocation E s).CurrentCellsMap = s.CurrentCellsMap ∧
    (UpdateGoalLocation E s).xNum = s.xNum ∧ (UpdateGoalLocation E s).yNum = s.yNum ∧
    (UpdateGoalLocation E s).nextTickTimeLeft = s.nextTickTimeLeft ∧
    (UpdateGoalLocation E s).updateInterval = s.updateInterval ∧
    (UpdateGoalLocation E s).bIsGridDirty = s.bIsGridDirty := by
  unfold UpdateGoalLocation
  split
  · exact ⟨rfl, rfl, rfl, rfl, rfl, rfl, rfl⟩
  · split <;> exact ⟨rfl, rfl, rfl, rfl, rfl, rfl, rfl⟩

theorem outsideGoalGrid_ready : GridReady outsideGoalGrid where
  goal := by decide!
  cells := fun c _ => by
    unfold outsideGoalGrid
    rw [(UpdateGoalLocation_frame _ _).1]
    exact ⟨rfl, rfl⟩
  num := by
    unfold outsideGoalGrid
    rw [(UpdateGoalLocation_frame _ _).1, (UpdateGoalLocation_frame _ _).2.2.1,
      (UpdateGoalLocation_frame _ _).2.2.2.1]
    rfl

theorem outsideGoalGrid_due : outsideGoalGrid.nextTickTimeLeft = outsideGoalGrid.updateInterval := by
  unfold outsideGoalGrid
  rw [(UpdateGoalLocation_frame _ _).2.2.2.2.1, (UpdateGoalLocation_frame _ _).2.2.2.2.2.1]
  rfl

theorem integrationExpand_flag (E : Engine) (s : AFlowField) (b : Bool) :
    integrationExpand E { s with bIsValidGoalCoord := b } = integrationExpand E s := rfl

theorem integrationLoop_flag (E : Engine) (s : AFlowField) (b : Bool) :
    ∀ (fuel : Nat) (st : IntegrationState),
      integrationLoop E { s with bIsValidGoalCoord := b } fuel st = integrationLoop E s fuel st := by
  intro fuel
  induction fuel with
  | zero => intro st; rfl
  | succ n ih =>
    intro st
    unfold integrationLoop
    cases popMin st.CellsToCheck with
    | none => rfl
    | some p =>
      simp only []
      rw [ih, integrationExpand_flag]

theorem flowBody_flag (E : Engine) (s : AFlowField) (b : Bool) :
    flowBody E { s with bIsValidGoalCoord := b } = flowBody E s := rfl

/-- The refresh never reads the validity flag of the goal state. -/
theorem CalculateFlowField_flag (E : Engine) (s : AFlowField) (b : Bool) :
    (CalculateFlowField E { s with bIsValidGoalCoord := b }).CurrentCellsMap =
      (CalculateFlowField E s).CurrentCellsMap := by
  unfold CalculateFlowField
  by_cases hdue : s.nextTickTimeLeft ≠ s.updateInterval
  · rw [if_pos hdue, if_pos hdue]
  · rw [if_neg hdue, if_neg hdue]
    simp only [CreateFlowField, CreateIntegrationField, flowBody_flag]
    rw [show integrationFuel { s with bIsValidGoalCoord := b } = integrationFuel s from rfl,
      show integrationInit { s with bIsValidGoalCoord := b } = integrationInit s from rfl,
      integrationLoop_flag]

/-- C7 (amended): when the goal state is invalid (`bIsValidGoalCoord = false`), a
refresh does not consult the flag: it seeds the integration at the clamped goal
coordinate, whose cell then holds the integration value 0, and publishes the
same map as for a valid goal state. -/
theorem invalid_goal_refresh_seeds_clamped_goal (E : Engine) {s : AFlowField}
    (h : GridReady s) (hdue : s.nextTickTimeLeft = s.updateInterval)
    (_hflag : s.bIsValidGoalCoord = false) :
    ((CalculateFlowField E s).CurrentCellsMap.val s.goalGridCoord).dist = 0 ∧
    (CalculateFlowField E s).CurrentCellsMap =
      (CalculateFlowField E { s with bIsValidGoalCoord := true }).CurrentCellsMap := by
  refine ⟨?_, (CalculateFlowField_flag E s true).symm⟩
  rw [published_dist E h hdue h.goal]
  exact integrationValue_goal E h

/-- On the 1×2 grid with the goal location outside. -/
theorem invalid_goal_refresh_seeds_clamped_goal_witness :
    GridReady outsideGoalGrid ∧
    outsideGoalGrid.nextTickTimeLeft = outsideGoalGrid.updateInterval ∧
    outsideGoalGrid.bIsValidGoalCoord = false ∧
    ((CalculateFlowField flatEngine outsideGoalGrid).CurrentCellsMap.val
      outsideGoalGrid.goalGridCoord).dist = 0 :=
  ⟨outsideGoalGrid_ready, outsideGoalGrid_due, by decide!,
    (invalid_goal_refresh_seeds_clamped_goal flatEngine outsideGoalGrid_ready outsideGoalGrid_due
      (by decide!)).1⟩

/-- C7, counterexample: the goal location lies outside the 1×2 grid, the goal
state is invalid, and the refresh seeds the clamped goal cell (0,1) with 0,
gives (0,0) the value 1 and points it at (0,1). -/
theorem invalid_goal_field_is_computed :
    outsideGoalGrid.bIsValidGoalCoord = false ∧
    outsideGoalGrid.goalGridCoord = (0, 1) ∧
    ((CalculateFlowField flatEngine outsideGoalGrid).CurrentCellsMap.val (0, 1)).dist = 0 ∧
    ((CalculateFlowField flatEngine outsideGoalGrid).CurrentCellsMap.val (0, 0)).dist = 1 ∧
    ((CalculateFlowField flatEngine outsideGoalGrid).CurrentCellsMap.val (0, 0)).dir = ⟨0, 1, 0⟩ := by
  decide!

/-! ## C8: the coordinate mapping -/

theorem toInt32_of_mem {z : Int} (h1 : -2147483648 ≤ z) (h2 : z < 2147483648) :
    toInt32 z = z := by
  unfold toInt32
  omega

theorem toInt32_bounds (z : Int) : -2147483648 ≤ toInt32 z ∧ toInt32 z < 2147483648 := by
  unfold toInt32
  omega

theorem RoundToInt_cell (x cellSize : ℚ) (h : 0 < cellSize)
    (h1 : -2147483648 ≤ ⌊x / cellSize⌋) (h2 : ⌊x / cellSize⌋ < 2147483648) :
    RoundToInt ((x - cellSize / 2) / cellSize) = ⌊x / cellSize⌋ := by
  have : (x - cellSize / 2) / cellSize + 1 / 2 = x / cellSize := by
    field_simp
    ring
  unfold RoundToInt
  rw [this]
  exact toInt32_of_mem h1 h2

theorem FVector.add_sub_cancel (a b : FVector) : FVector.add (FVector.sub a b) b = a := by
  cases a
  cases b
  simp [FVector.add, FVector.sub]

theorem FVector.sub_add_cancel (a b : FVector) : FVector.sub (FVector.add a b) b = a := by
  cases a
  cases b
  simp [FVector.add, FVector.sub]

/-- The grid-local position of a world position is the one position that
`localToWorld` sends to it. -/
theorem relativeLocation_unique (E : Engine) (s : AFlowField) (hyaw : YawInvertible E s.actorYaw)
    (Location p : FVector) :
    localToWorld E s p = Location ↔ p = relativeLocation E s Location := by
  unfold localToWorld relativeLocation
  constructor
  · intro h
    rw [← h, FVector.sub_add_cancel, hyaw.1, FVector.add_sub_cancel]
  · intro h
    rw [h, FVector.sub_add_cancel, hyaw.2, FVector.add_sub_cancel]

theorem floor_cell_bounds (x cellSize : ℚ) (h : 0 < cellSize) :
    (⌊x / cellSize⌋ : ℚ) * cellSize ≤ x ∧ x < ((⌊x / cellSize⌋ : ℚ) + 1) * cellSize := by
  constructor
  · exact (le_div_iff₀ h).mp (Int.floor_le _)
  · exact (div_lt_iff₀ h).mp (Int.lt_floor_add_one _)

theorem Clamp_bounds (g n : Int) (hn : 1 ≤ n) : 0 ≤ Clamp g 0 (n - 1) ∧ Clamp g 0 (n - 1) < n := by
  unfold Clamp
  constructor
  · exact le_max_right _ _
  · have : max (min g (n - 1)) 0 ≤ n - 1 := max_le (min_le_right _ _) (by omega)
    omega

theorem Clamp_of_mem (g n : Int) (h0 : 0 ≤ g) (hn : g < n) : Clamp g 0 (n - 1) = g := by
  unfold Clamp
  rw [min_eq_left (by omega), max_eq_left h0]

/-- The world location `EnvQuery` gives a cell is, along X and Y, the world
position of the centre of the cell under `localToWorld`, once the offsets are the
ones the initialisation caches. -/
theorem EnvQuery_worldLoc (E : Engine) (s : AFlowField) (c : FVector2D)
    (hrel : s.relativeLoc = FVector.sub s.actorLoc s.offsetLoc) (hz : s.offsetLoc.Z = 0) :
    (EnvQuery E s c).worldLoc.X =
      (localToWorld E s ⟨c.1 * s.cellSize + s.cellSize / 2, c.2 * s.cellSize + s.cellSize / 2,
        0⟩).X ∧
    (EnvQuery E s c).worldLoc.Y =
      (localToWorld E s ⟨c.1 * s.cellSize + s.cellSize / 2, c.2 * s.cellSize + s.cellSize / 2,
        0⟩).Y := by
  have hsub : FVector.sub
      ⟨c.1 * s.cellSize + s.relativeLoc.X + s.cellSize / 2,
        c.2 * s.cellSize + s.relativeLoc.Y + s.cellSize / 2, s.actorLoc.Z⟩ s.actorLoc =
      FVector.sub ⟨c.1 * s.cellSize + s.cellSize / 2, c.2 * s.cellSize + s.cellSize / 2, 0⟩
        s.offsetLoc := by
    rw [hrel]
    simp only [FVector.sub, hz, FVector.mk.injEq]
    refine ⟨by ring, by ring, by ring⟩
  unfold EnvQuery localToWorld
  simp only [hsub]
  repeat' split
  all_goals exact ⟨rfl, rfl⟩

/-- The initialisation caches the offsets `EnvQuery_worldLoc` asks for. -/
theorem initCommon_offsets (s : AFlowField) :
    (initCommon s).relativeLoc = FVector.sub (initCommon s).actorLoc (initCommon s).offsetLoc ∧
    (initCommon s).offsetLoc.Z = 0 :=
  ⟨rfl, rfl⟩

theorem WorldToGrid_valid (E : Engine) (s : AFlowField) (Location : FVector)
    (hx : 1 ≤ s.xNum) (hy : 1 ≤ s.yNum) :
    IsValidCoord s (WorldToGrid E s Location).2 = true := by
  unfold WorldToGrid
  simp only [IsValidCoord, Bool.and_eq_true, decide_eq_true_eq]
  have h1 := Clamp_bounds
    (RoundToInt (((relativeLocation E s Location).X - s.cellSize / 2) / s.cellSize)) s.xNum hx
  have h2 := Clamp_bounds
    (RoundToInt (((relativeLocation E s Location).Y - s.cellSize / 2) / s.cellSize)) s.yNum hy
  exact ⟨⟨⟨h1.1, h1.2⟩, h2.1⟩, h2.2⟩

theorem GetCellAtLocation_eq (E : Engine) (s : AFlowField) (Location : FVector) :
    GetCellAtLocation E s Location =
      if (WorldToGrid E s Location).2 ∈ s.CurrentCellsMap.keys then
        some ((WorldToGrid E s Location).1, s.CurrentCellsMap.val (WorldToGrid E s Location).2)
      else none := by
  unfold GetCellAtLocation WorldToGrid TMap.FindChecked
  simp only []
  split_ifs <;> rfl

/-- C8 (amended): for every world position, the grid-local position is the one
position whose world position (measured from the corner of the grid, turned by
the yaw, moved to the actor) is the given one, turning by the yaw and back
being inverse to one another. `WorldToGrid` returns an in-bounds coordinate, and
`GetCellAtLocation` computes the same flag and coordinate and returns the
published cell at it, failing when the published map holds no cell there. When
the coordinates of the cell that contains the grid-local position are `int32`
values, the returned coordinate is that of the containing cell, clamped
component-wise to `[0, xNum-1] × [0, yNum-1]`, and the flag is true if and only
if the unclamped coordinate lies in `[0, xNum) × [0, yNum)` (and then it is
returned unchanged). -/
theorem WorldToGrid_clamped_containing_cell (E : Engine) (s : AFlowField) (Location : FVector)
    (hx : 1 ≤ s.xNum) (hy : 1 ≤ s.yNum) (hcell : 0 < s.cellSize)
    (hyaw : YawInvertible E s.actorYaw) :
    (∀ p, localToWorld E s p = Location ↔ p = relativeLocation E s Location) ∧
    (((containingCell s (relativeLocation E s Location)).1 : ℚ) * s.cellSize ≤
        (relativeLocation E s Location).X ∧
      (relativeLocation E s Location).X <
        (((containingCell s (relativeLocation E s Location)).1 : ℚ) + 1) * s.cellSize ∧
      ((containingCell s (relativeLocation E s Location)).2 : ℚ) * s.cellSize ≤
        (relativeLocation E s Location).Y ∧
      (relativeLocation E s Location).Y <
        (((containingCell s (relativeLocation E s Location)).2 : ℚ) + 1) * s.cellSize) ∧
    IsValidCoord s (WorldToGrid E s Location).2 = true ∧
    GetCellAtLocation E s Location =
      (if (WorldToGrid E s Location).2 ∈ s.CurrentCellsMap.keys then
        some ((WorldToGrid E s Location).1, s.CurrentCellsMap.val (WorldToGrid E s Location).2)
      else none) ∧
    (FitsInt32 (containingCell s (relativeLocation E s Location)) →
      (WorldToGrid E s Location).2 =
        (Clamp (containingCell s (relativeLocation E s Location)).1 0 (s.xNum - 1),
          Clamp (containingCell s (relativeLocation E s Location)).2 0 (s.yNum - 1)) ∧
      ((WorldToGrid E s Location).1 = true ↔
        IsValidCoord s (containingCell s (relativeLocation E s Location)) = true) ∧
      ((WorldToGrid E s Location).1 = true →
        (WorldToGrid E s Location).2 = containingCell s (relativeLocation E s Location))) := by
  have hbX := floor_cell_bounds (relativeLocation E s Location).X s.cellSize hcell
  have hbY := floor_cell_bounds (relativeLocation E s Location).Y s.cellSize hcell
  refine ⟨relativeLocation_unique E s hyaw Location, ⟨hbX.1, hbX.2, hbY.1, hbY.2⟩,
    WorldToGrid_valid E s Location hx hy, GetCellAtLocation_eq E s Location, fun hfit => ?_⟩
  have hX := RoundToInt_cell (relativeLocation E s Location).X s.cellSize hcell hfit.1.1 hfit.1.2
  have hY := RoundToInt_cell (relativeLocation E s Location).Y s.cellSize hcell hfit.2.1 hfit.2.2
  have hcoord : (WorldToGrid E s Location).2 =
      (Clamp (containingCell s (relativeLocation E s Location)).1 0 (s.xNum - 1),
        Clamp (containingCell s (relativeLocation E s Location)).2 0 (s.yNum - 1)) := by
    unfold WorldToGrid containingCell
    simp only [hX, hY]
  have hflag : (WorldToGrid E s Location).1 = true ↔
      IsValidCoord s (containingCell s (relativeLocation E s Location)) = true := by
    unfold WorldToGrid containingCell IsValidCoord
    simp only [hX, hY, Bool.and_eq_true, decide_eq_true_eq, ge_iff_le]
    constructor
    · intro h
      split at h
      · tauto
      · exact absurd h Bool.false_ne_true
    · intro h
      rw [if_pos (by tauto)]
  refine ⟨hcoord, hflag, ?_⟩
  intro h
  have hv := hflag.mp h
  simp only [IsValidCoord, Bool.and_eq_true, decide_eq_true_eq] at hv
  rw [hcoord, Clamp_of_mem _ _ hv.1.1.1 hv.1.1.2, Clamp_of_mem _ _ hv.1.2 hv.2]

theorem flatEngine_yawInvertible (yaw : ℚ) : YawInvertible flatEngine yaw :=
  ⟨fun _ => rfl, fun _ => rfl⟩

/-- On the 3×3 scenario after its refresh, for the centre of the cell (2,1). -/
theorem WorldToGrid_clamped_containing_cell_witness :
    (1 : Int) ≤ (CalculateFlowField flatEngine unitGrid3).xNum ∧
    (1 : Int) ≤ (CalculateFlowField flatEngine unitGrid3).yNum ∧
    (0 : ℚ) < (CalculateFlowField flatEngine unitGrid3).cellSize ∧
    YawInvertible flatEngine (CalculateFlowField flatEngine unitGrid3).actorYaw ∧
    FitsInt32 (containingCell (CalculateFlowField flatEngine unitGrid3)
      (relativeLocation flatEngine (CalculateFlowField flatEngine unitGrid3) ⟨2, 1, 0⟩)) ∧
    (WorldToGrid flatEngine (CalculateFlowField flatEngine unitGrid3) ⟨2, 1, 0⟩).2 =
      (Clamp (containingCell (CalculateFlowField flatEngine unitGrid3)
          (relativeLocation flatEngine (CalculateFlowField flatEngine unitGrid3) ⟨2, 1, 0⟩)).1 0
          ((CalculateFlowField flatEngine unitGrid3).xNum - 1),
        Clamp (containingCell (CalculateFlowField flatEngine unitGrid3)
          (relativeLocation flatEngine (CalculateFlowField flatEngine unitGrid3) ⟨2, 1, 0⟩)).2 0
          ((CalculateFlowField flatEngine unitGrid3).yNum - 1)) ∧
    WorldToGrid flatEngine (CalculateFlowField flatEngine unitGrid3) ⟨2, 1, 0⟩ = (true, (2, 1)) ∧
    (GetCellAtLocation flatEngine (CalculateFlowField flatEngine unitGrid3) ⟨2, 1, 0⟩).map
      (fun r => (r.1, r.2.gridCoord, r.2.dist)) = some (true, (2, 1), 1) :=
  ⟨by decide, by decide, by decide!, flatEngine_yawInvertible _, by unfold FitsInt32; decide!,
    ((WorldToGrid_clamped_containing_cell flatEngine (CalculateFlowField flatEngine unitGrid3)
      ⟨2, 1, 0⟩ (by decide) (by decide) (by decide!) (flatEngine_yawInvertible _)).2.2.2.2
        (by unfold FitsInt32; decide!)).1,
    by decide!, by decide!⟩

/-- C8, counterexample: on the 3×3 scenario of unit cells, the position 2^31
along X lies far beyond the last column, yet its coordinate arrives in the
`int32` variable as -2^31 and is clamped to the first column 0, not to the last
column 2; the position 2^32 + 1 along X arrives as 1 and is reported as inside
the grid, in the cell (1,1); and before the first refresh, when the published
map is empty, `GetCellAtLocation` has no cell to return. -/
theorem far_position_wraps_into_grid :
    containingCell unitGrid3 (relativeLocation flatEngine unitGrid3 ⟨2147483648, 1, 0⟩) =
      (2147483648, 1) ∧
    Clamp (2147483648 : Int) 0 (unitGrid3.xNum - 1) = 2 ∧
    WorldToGrid flatEngine unitGrid3 ⟨2147483648, 1, 0⟩ = (false, (0, 1)) ∧
    containingCell unitGrid3 (relativeLocation flatEngine unitGrid3 ⟨4294967297, 1, 0⟩) =
      (4294967297, 1) ∧
    IsValidCoord unitGrid3 (4294967297, 1) = false ∧
    WorldToGrid flatEngine unitGrid3 ⟨4294967297, 1, 0⟩ = (true, (1, 1)) ∧
    GetCellAtLocation flatEngine unitGrid3 ⟨1, 1, 0⟩ = none := by
  decide!

/-! ## C9: the refresh timer with a non-positive interval -/

theorem InitFlowField_ticking (s : AFlowField) :
    InitFlowField EInitMode.Ticking s = initCommon s := rfl

theorem CreateGrid_frame (E : Engine) (s : AFlowField) :
    (CreateGrid E s).nextTickTimeLeft = s.nextTickTimeLeft ∧
    (CreateGrid E s).updateInterval = s.updateInterval := by
  unfold CreateGrid
  split <;> exact ⟨rfl, rfl⟩

theorem CalculateFlowField_frame (E : Engine) (s : AFlowField) :
    (CalculateFlowField E s).nextTickTimeLeft = s.nextTickTimeLeft ∧
    (CalculateFlowField E s).updateInterval = s.updateInterval := by
  unfold CalculateFlowField
  split <;> exact ⟨rfl, rfl⟩

theorem beforeCalculate_frame (E : Engine) (s : AFlowField) :
    (beforeCalculate E s).nextTickTimeLeft = s.nextTickTimeLeft ∧
    (beforeCalculate E s).updateInterval = s.updateInterval := by
  unfold beforeCalculate
  rw [(CreateGrid_frame E _).1, (CreateGrid_frame E _).2,
    (UpdateGoalLocation_frame E _).2.2.2.2.1, (UpdateGoalLocation_frame E _).2.2.2.2.2.1]
  exact ⟨rfl, rfl⟩

theorem TickFlowField_eq (E : Engine) (DeltaSeconds : ℚ) (s : AFlowField) :
    TickFlowField E DeltaSeconds s =
      UpdateTimer DeltaSeconds (CalculateFlowField E (beforeCalculate E s)) := rfl

theorem Clamp_nonpos {x : ℚ} (h : x ≤ 0) : Clamp x 0 FLT_MAX = 0 := by
  unfold Clamp
  exact max_eq_right (le_trans (min_le_left _ _) h)

theorem TickFlowField_timer (E : Engine) (DeltaSeconds : ℚ) {s : AFlowField}
    (hi : s.updateInterval ≤ 0) (ht : s.nextTickTimeLeft = 0) :
    (TickFlowField E DeltaSeconds s).nextTickTimeLeft = 0 ∧
    (TickFlowField E DeltaSeconds s).updateInterval = s.updateInterval := by
  have h1 : (CalculateFlowField E (beforeCalculate E s)).nextTickTimeLeft = 0 := by
    rw [(CalculateFlowField_frame E _).1, (beforeCalculate_frame E s).1, ht]
  have h2 : (CalculateFlowField E (beforeCalculate E s)).updateInterval = s.updateInterval := by
    rw [(CalculateFlowField_frame E _).2, (beforeCalculate_frame E s).2]
  rw [TickFlowField_eq]
  unfold UpdateTimer
  rw [if_pos (le_of_eq h1)]
  simp only [h2]
  exact ⟨Clamp_nonpos hi, trivial⟩

theorem runTicks_timer (E : Engine) (deltas : List ℚ) :
    ∀ (s : AFlowField), s.updateInterval ≤ 0 → s.nextTickTimeLeft = 0 →
      (runTicks E deltas s).nextTickTimeLeft = 0 ∧
      (runTicks E deltas s).updateInterval = s.updateInterval := by
  induction deltas with
  | nil => intro s _ ht; exact ⟨ht, rfl⟩
  | cons d ds ih =>
    intro s hi ht
    obtain ⟨h1, h2⟩ := TickFlowField_timer E d hi ht
    obtain ⟨h3, h4⟩ := ih (TickFlowField E d s) (by rw [h2]; exact hi) h1
    exact ⟨h3, h4.trans h2⟩

theorem InitFlowField_beginPlay_timer (s : AFlowField) :
    (InitFlowField EInitMode.BeginPlay s).nextTickTimeLeft = Clamp s.updateInterval 0 FLT_MAX ∧
    (InitFlowField EInitMode.BeginPlay s).updateInterval = s.updateInterval :=
  ⟨rfl, rfl⟩

/-- C9, the code at a negative interval: after `InitFlowField(BeginPlay)` and any
number of ticks, the state on which the next tick calls `CalculateFlowField`
has `nextTickTimeLeft = 0`, which differs from the negative `updateInterval`,
so that the call returns at its guard and changes nothing. -/
theorem negative_interval_never_refreshes (E : Engine) (s : AFlowField)
    (hneg : s.updateInterval < 0) (deltas : List ℚ) :
    (beforeCalculate E
      (runTicks E deltas (InitFlowField EInitMode.BeginPlay s))).nextTickTimeLeft = 0 ∧
    (beforeCalculate E
      (runTicks E deltas (InitFlowField EInitMode.BeginPlay s))).updateInterval =
        s.updateInterval ∧
    CalculateFlowField E
        (beforeCalculate E (runTicks E deltas (InitFlowField EInitMode.BeginPlay s))) =
      beforeCalculate E (runTicks E deltas (InitFlowField EInitMode.BeginPlay s)) := by
  obtain ⟨h1, h2⟩ := runTicks_timer E deltas (InitFlowField EInitMode.BeginPlay s)
    (le_of_lt hneg) (Clamp_nonpos (le_of_lt hneg))
  have h3 := beforeCalculate_frame E (runTicks E deltas (InitFlowField EInitMode.BeginPlay s))
  have ht : (beforeCalculate E
      (runTicks E deltas (InitFlowField EInitMode.BeginPlay s))).nextTickTimeLeft = 0 :=
    h3.1.trans h1
  have hu : (beforeCalculate E
      (runTicks E deltas (InitFlowField EInitMode.BeginPlay s))).updateInterval =
      s.updateInterval := h3.2.trans h2
  refine ⟨ht, hu, ?_⟩
  unfold CalculateFlowField
  rw [if_pos]
  rw [ht, hu]
  exact fun h => absurd h.symm (ne_of_lt hneg)

/-- With the interval -1, after three ticks. -/
theorem negative_interval_never_refreshes_witness :
    negativeIntervalField.updateInterval < 0 ∧
    (beforeCalculate flatEngine (runTicks flatEngine [1, 1, 1]
      (InitFlowField EInitMode.BeginPlay negativeIntervalField))).nextTickTimeLeft = 0 :=
  ⟨by decide!, (negative_interval_never_refreshes flatEngine negativeIntervalField (by decide!)
    [1, 1, 1]).1⟩

/-- With the interval 0 the guard of `CalculateFlowField` holds on every tick
that follows `InitFlowField(BeginPlay)`. -/
theorem zero_interval_refreshes_every_tick (E : Engine) (s : AFlowField)
    (hzero : s.updateInterval = 0) (deltas : List ℚ) :
    (beforeCalculate E
      (runTicks E deltas (InitFlowField EInitMode.BeginPlay s))).nextTickTimeLeft =
    (beforeCalculate E
      (runTicks E deltas (InitFlowField EInitMode.BeginPlay s))).updateInterval := by
  obtain ⟨h1, h2⟩ := runTicks_timer E deltas (InitFlowField EInitMode.BeginPlay s)
    (le_of_eq hzero) (Clamp_nonpos (le_of_eq hzero))
  have h3 := beforeCalculate_frame E (runTicks E deltas (InitFlowField EInitMode.BeginPlay s))
  rw [h3.1, h3.2, h1, h2]
  exact hzero.symm

/-! ## C10: the structural dirty flag -/

theorem mem_loopRange (n x : Int) : x ∈ loopRange n ↔ 0 ≤ x ∧ x < n := by
  unfold loopRange
  simp only [List.mem_map, List.mem_range]
  constructor
  · rintro ⟨k, hk, rfl⟩
    have : (Int.ofNat k) = (k : Int) := rfl
    omega
  · rintro ⟨h0, hn⟩
    exact ⟨x.toNat, by omega, Int.toNat_of_nonneg h0⟩

theorem nodup_loopRange (n : Int) : (loopRange n).Nodup := by
  unfold loopRange
  exact (List.nodup_range _).map (fun _ _ h => Int.ofNat.inj h)

theorem length_loopRange (n : Int) : (loopRange n).length = n.toNat := by
  simp [loopRange]

theorem TMap.Add_keys_of_not_mem {m : TMap} {k : FVector2D} (v : FCellStruct) (h : k ∉ m.keys) :
    (m.Add k v).keys = m.keys ++ [k] := by
  unfold TMap.Add
  simp only [if_neg h]

theorem TMap.Add_val (m : TMap) (k : FVector2D) (v : FCellStruct) (c : FVector2D) :
    (m.Add k v).val c = if c = k then v else m.val c := rfl

/-- One row of the double loop of `CreateGrid`: the cells `(x, y)` for the `y` of
the row are added, each with the value sampled for it. -/
theorem fillRow_spec (f : FVector2D → FCellStruct) (x : Int) :
    ∀ (ys : List Int) (m : TMap), ys.Nodup → (∀ y ∈ ys, (x, y) ∉ m.keys) →
      (ys.foldl (fun m y => m.Add (x, y) (f (x, y))) m).keys.length =
          m.keys.length + ys.length ∧
        (∀ c, c ∈ (ys.foldl (fun m y => m.Add (x, y) (f (x, y))) m).keys ↔
          c ∈ m.keys ∨ (c.1 = x ∧ c.2 ∈ ys)) ∧
        (∀ c, (c.1 = x ∧ c.2 ∈ ys) →
          (ys.foldl (fun m y => m.Add (x, y) (f (x, y))) m).val c = f c) ∧
        (∀ c, ¬(c.1 = x ∧ c.2 ∈ ys) →
          (ys.foldl (fun m y => m.Add (x, y) (f (x, y))) m).val c = m.val c) := by
  intro ys
  induction ys with
  | nil =>
    intro m _ _
    refine ⟨rfl, fun c => ?_, fun c h => absurd h.2 (List.not_mem_nil _), fun c _ => rfl⟩
    simp
  | cons y ys ih =>
    intro m hnd hfresh
    have hy : (x, y) ∉ m.keys := hfresh y (List.mem_cons_self y ys)
    have hkeys := TMap.Add_keys_of_not_mem (f (x, y)) hy
    have hfresh' : ∀ y' ∈ ys, (x, y') ∉ (m.Add (x, y) (f (x, y))).keys := by
      intro y' hy' hmem
      rw [hkeys, List.mem_append, List.mem_singleton] at hmem
      rcases hmem with hmem | hmem
      · exact hfresh y' (List.mem_cons_of_mem y hy') hmem
      · have : y' = y := congrArg Prod.snd hmem
        subst this
        exact (List.nodup_cons.mp hnd).1 hy'
    obtain ⟨h1, h2, h3, h4⟩ := ih (m.Add (x, y) (f (x, y))) (List.nodup_cons.mp hnd).2 hfresh'
    rw [List.foldl_cons]
    refine ⟨?_, fun c => ?_, fun c hc => ?_, fun c hc => ?_⟩
    · rw [h1, hkeys, List.length_append, List.length_singleton, List.length_cons]
      omega
    · rw [h2 c, hkeys, List.mem_append, List.mem_singleton, List.mem_cons]
      constructor
      · rintro ((h | h) | ⟨h, h'⟩)
        · exact Or.inl h
        · exact Or.inr ⟨congrArg Prod.fst h, Or.inl (congrArg Prod.snd h)⟩
        · exact Or.inr ⟨h, Or.inr h'⟩
      · rintro (h | ⟨h, h' | h'⟩)
        · exact Or.inl (Or.inl h)
        · exact Or.inl (Or.inr (Prod.ext h h'))
        · exact Or.inr ⟨h, h'⟩
    · by_cases hin : c.2 ∈ ys
      · exact h3 c ⟨hc.1, hin⟩
      · rw [h4 c (fun h => hin h.2), TMap.Add_val]
        have hc2 : c.2 = y := by
          rcases List.mem_cons.mp hc.2 with h | h
          · exact h
          · exact absurd h hin
        rw [if_pos (Prod.ext hc.1 hc2)]
        rw [← hc2, ← hc.1]
    · have hne : c ≠ (x, y) := by
        intro h
        exact hc ⟨congrArg Prod.fst h, List.mem_cons.mpr (Or.inl (congrArg Prod.snd h))⟩
      rw [h4 c (fun h => hc ⟨h.1, List.mem_cons_of_mem y h.2⟩), TMap.Add_val, if_neg hne]

/-- The double loop of `CreateGrid` over the rows `xs`. -/
theorem fillRows_spec (f : FVector2D → FCellStruct) (ys : List Int) (hys : ys.Nodup) :
    ∀ (xs : List Int) (m : TMap), xs.Nodup → (∀ x ∈ xs, ∀ y ∈ ys, (x, y) ∉ m.keys) →
      (xs.foldl (fun m x => ys.foldl (fun m y => m.Add (x, y) (f (x, y))) m) m).keys.length =
          m.keys.length + xs.length * ys.length ∧
        (∀ c, c ∈ (xs.foldl (fun m x => ys.foldl (fun m y => m.Add (x, y) (f (x, y))) m) m).keys ↔
          c ∈ m.keys ∨ (c.1 ∈ xs ∧ c.2 ∈ ys)) ∧
        (∀ c, (c.1 ∈ xs ∧ c.2 ∈ ys) →
          (xs.foldl (fun m x => ys.foldl (fun m y => m.Add (x, y) (f (x, y))) m) m).val c = f c) ∧
        (∀ c, ¬(c.1 ∈ xs ∧ c.2 ∈ ys) →
          (xs.foldl (fun m x => ys.foldl (fun m y => m.Add (x, y) (f (x, y))) m) m).val c =
            m.val c) := by
  intro xs
  induction xs with
  | nil =>
    intro m _ _
    refine ⟨by simp, fun c => by simp, fun c h => absurd h.1 (List.not_mem_nil _), fun c _ => rfl⟩
  | cons x xs ih =>
    intro m hnd hfresh
    obtain ⟨r1, r2, r3, r4⟩ := fillRow_spec f x ys m hys
      (fun y hy => hfresh x (List.mem_cons_self x xs) y hy)
    have hfresh' : ∀ x' ∈ xs, ∀ y ∈ ys,
        (x', y) ∉ (ys.foldl (fun m y => m.Add (x, y) (f (x, y))) m).keys := by
      intro x' hx' y hy hmem
      rcases (r2 (x', y)).mp hmem with h | ⟨h, _⟩
      · exact hfresh x' (List.mem_cons_of_mem x hx') y hy h
      · have : x' = x := h
        subst this
        exact (List.nodup_cons.mp hnd).1 hx'
    obtain ⟨h1, h2, h3, h4⟩ := ih _ (List.nodup_cons.mp hnd).2 hfresh'
    rw [List.foldl_cons]
    refine ⟨?_, fun c => ?_, fun c hc => ?_, fun c hc => ?_⟩
    · rw [h1, r1, List.length_cons]
      ring
    · rw [h2 c, r2 c, List.mem_cons]
      constructor
      · rintro ((h | ⟨h, h'⟩) | ⟨h, h'⟩)
        · exact Or.inl h
        · exact Or.inr ⟨Or.inl h, h'⟩
        · exact Or.inr ⟨Or.inr h, h'⟩
      · rintro (h | ⟨h | h, h'⟩)
        · exact Or.inl (Or.inl h)
        · exact Or.inl (Or.inr ⟨h, h'⟩)
        · exact Or.inr ⟨h, h'⟩
    · by_cases hin : c.1 ∈ xs
      · exact h3 c ⟨hin, hc.2⟩
      · rw [h4 c (fun h => hin h.1)]
        have hc1 : c.1 = x := by
          rcases List.mem_cons.mp hc.1 with h | h
          · exact h
          · exact absurd h hin
        exact r3 c ⟨hc1, hc.2⟩
    · rw [h4 c (fun h => hc ⟨List.mem_cons_of_mem x h.1, h.2⟩)]
      exact r4 c (fun h => hc ⟨List.mem_cons.mpr (Or.inl h.1), h.2⟩)

/-- The rebuilt grid: `xNum * yNum` cells, one for every in-bounds coordinate,
each the sample `EnvQuery` takes there. -/
theorem fillGrid_spec (E : Engine) (s : AFlowField) :
    (fillGrid E s TMap.Empty).Num = s.xNum.toNat * s.yNum.toNat ∧
    (∀ c, c ∈ (fillGrid E s TMap.Empty).keys ↔ IsValidCoord s c = true) ∧
    (∀ c, IsValidCoord s c = true → (fillGrid E s TMap.Empty).val c = EnvQuery E s c) := by
  obtain ⟨h1, h2, h3, _⟩ := fillRows_spec (EnvQuery E s) (loopRange s.yNum)
    (nodup_loopRange _) (loopRange s.xNum) TMap.Empty (nodup_loopRange _)
    (fun _ _ _ _ h => absurd h (List.not_mem_nil _))
  have hvalid : ∀ c : FVector2D,
      (c.1 ∈ loopRange s.xNum ∧ c.2 ∈ loopRange s.yNum) ↔ IsValidCoord s c = true := by
    intro c
    rw [mem_loopRange, mem_loopRange]
    simp only [IsValidCoord, Bool.and_eq_true, decide_eq_true_eq]
    tauto
  refine ⟨?_, fun c => ?_, fun c hc => ?_⟩
  · unfold TMap.Num fillGrid
    rw [h1, length_loopRange, length_loopRange]
    simp [TMap.Empty]
  · unfold fillGrid
    rw [h2 c, hvalid c]
    simp [TMap.Empty]
  · unfold fillGrid
    exact h3 c ((hvalid c).mpr hc)

/-- C10 (amended): `InitFlowField` marks the grid structurally dirty in the modes
Construction and BeginPlay, whatever the sizes are; in the mode Ticking it
leaves the flag as it is, whatever has changed. `CreateGrid` on a dirty grid
rebuilds all `xNum * yNum` cells with `EnvQuery`, empties the published map and
clears the flag; on a grid that is not dirty it does nothing. -/
theorem dirty_flag_lifecycle (E : Engine) (s : AFlowField) (InitMode : EInitMode) :
    (InitMode ≠ EInitMode.Ticking → (InitFlowField InitMode s).bIsGridDirty = true) ∧
    (InitFlowField EInitMode.Ticking s).bIsGridDirty = s.bIsGridDirty ∧
    (InitFlowField EInitMode.Ticking s).InitialCellsMap = s.InitialCellsMap ∧
    (s.bIsGridDirty = true →
      (CreateGrid E s).bIsGridDirty = false ∧
      (CreateGrid E s).InitialCellsMap.Num = s.xNum.toNat * s.yNum.toNat ∧
      (∀ c, c ∈ (CreateGrid E s).InitialCellsMap.keys ↔ IsValidCoord s c = true) ∧
      (∀ c, IsValidCoord s c = true → (CreateGrid E s).InitialCellsMap.val c = EnvQuery E s c) ∧
      (CreateGrid E s).CurrentCellsMap.Num = 0) ∧
    (s.bIsGridDirty = false → CreateGrid E s = s) := by
  refine ⟨?_, rfl, rfl, ?_, ?_⟩
  · intro hmode
    cases InitMode with
    | Construction => rfl
    | BeginPlay => rfl
    | Ticking => exact absurd rfl hmode
  · intro hd
    obtain ⟨h1, h2, h3⟩ := fillGrid_spec E s
    unfold CreateGrid
    simp only [hd, Bool.not_true, Bool.false_eq_true, if_false]
    exact ⟨trivial, h1, h2, h3, rfl⟩
  · intro hd
    unfold CreateGrid
    simp only [hd, Bool.not_false, if_true]

/-- At `BeginPlay` on a 2×2 field: the flag is set, and `CreateGrid` builds four
cells and clears it. -/
theorem dirty_flag_lifecycle_witness :
    (InitFlowField EInitMode.BeginPlay
      (mkField 2 2 EStyle.AdjacentFirst (0, 0) (fun _ => 1))).bIsGridDirty = true ∧
    (CreateGrid flatEngine (InitFlowField EInitMode.BeginPlay
      (mkField 2 2 EStyle.AdjacentFirst (0, 0) (fun _ => 1)))).bIsGridDirty = false :=
  ⟨(dirty_flag_lifecycle flatEngine (mkField 2 2 EStyle.AdjacentFirst (0, 0) (fun _ => 1))
      EInitMode.BeginPlay).1 (by decide),
    ((dirty_flag_lifecycle flatEngine
      (InitFlowField EInitMode.BeginPlay (mkField 2 2 EStyle.AdjacentFirst (0, 0) (fun _ => 1)))
      EInitMode.Ticking).2.2.2.1 rfl).1⟩

/-- C10, counterexample: a 2×2 grid of unit cells was built at `BeginPlay`; the
cell size is then halved. `InitFlowField(Ticking)` computes 4×4 cells but leaves
the grid clean, and the following `CreateGrid` keeps the old four cells. -/
theorem resize_while_ticking_keeps_old_grid :
    resizedField.bIsGridDirty = false ∧
    resizedField.xNum = 2 ∧ resizedField.yNum = 2 ∧ resizedField.InitialCellsMap.Num = 4 ∧
    (InitFlowField EInitMode.Ticking resizedField).cellSize = 1 / 2 ∧
    (InitFlowField EInitMode.Ticking resizedField).xNum = 4 ∧
    (InitFlowField EInitMode.Ticking resizedField).yNum = 4 ∧
    (InitFlowField EInitMode.Ticking resizedField).bIsGridDirty = false ∧
    (CreateGrid flatEngine (InitFlowField EInitMode.Ticking resizedField)).InitialCellsMap.Num =
      4 := by
  decide!

/-! ## The grid built by the code is ready for a refresh -/

theorem withInitialCost_frame (s : AFlowField) (c : FCellStruct) :
    (withInitialCost s c).gridCoord = c.gridCoord ∧ (withInitialCost s c).dist = c.dist := by
  unfold withInitialCost
  split <;> exact ⟨rfl, rfl⟩

/-- A sampled cell carries its own coordinate and the initial integration value. -/
theorem EnvQuery_gridCoord_dist (E : Engine) (s : AFlowField) (c : FVector2D) :
    (EnvQuery E s c).gridCoord = c ∧ (EnvQuery E s c).dist = 65535 := by
  unfold EnvQuery
  simp only []
  repeat' split
  all_goals first
    | exact ⟨rfl, rfl⟩
    | exact withInitialCost_frame s _

theorem Clamp_ge_min {X MinValue MaxValue : ℚ} : MinValue ≤ Clamp X MinValue MaxValue :=
  le_max_right _ _

theorem RoundToInt_pos {x : ℚ} (h : 1 ≤ x) (hx : x < 2147483647 + 1 / 2) :
    1 ≤ RoundToInt x := by
  have h1 : (1 : Int) ≤ ⌊x + 1 / 2⌋ := Int.le_floor.mpr (by push_cast; linarith)
  have h2 : ⌊x + 1 / 2⌋ < 2147483648 := Int.floor_lt.mpr (by push_cast; linarith)
  unfold RoundToInt
  rw [toInt32_of_mem (by omega) h2]
  exact h1

/-- After the initialisation the cell size is positive, and there is at least one
cell along each axis when the cell counts fit an `int32`. -/
theorem initCommon_sizes (s : AFlowField) :
    1 / 10 ≤ (initCommon s).cellSize ∧
    (CellCountFits (initCommon s) → 1 ≤ (initCommon s).xNum ∧ 1 ≤ (initCommon s).yNum) := by
  have hc : (1 : ℚ) / 10 ≤ Clamp s.cellSize (1 / 10) FLT_MAX := Clamp_ge_min
  have hpos : (0 : ℚ) < Clamp s.cellSize (1 / 10) FLT_MAX := by linarith
  refine ⟨hc, fun hfit => ⟨?_, ?_⟩⟩
  · show 1 ≤ RoundToInt (Clamp s.flowFieldSize.X (Clamp s.cellSize (1 / 10) FLT_MAX) FLT_MAX /
      Clamp s.cellSize (1 / 10) FLT_MAX)
    exact RoundToInt_pos ((one_le_div hpos).mpr Clamp_ge_min) hfit.1
  · show 1 ≤ RoundToInt (Clamp s.flowFieldSize.Y (Clamp s.cellSize (1 / 10) FLT_MAX) FLT_MAX /
      Clamp s.cellSize (1 / 10) FLT_MAX)
    exact RoundToInt_pos ((one_le_div hpos).mpr Clamp_ge_min) hfit.2

theorem InitFlowField_sizes (InitMode : EInitMode) (s : AFlowField) :
    1 / 10 ≤ (InitFlowField InitMode s).cellSize ∧
    (CellCountFits (InitFlowField InitMode s) →
      1 ≤ (InitFlowField InitMode s).xNum ∧ 1 ≤ (InitFlowField InitMode s).yNum) := by
  unfold InitFlowField
  exact initCommon_sizes _

theorem UpdateGoalLocation_goal (E : Engine) (s : AFlowField)
    (hdue : s.nextTickTimeLeft = s.updateInterval) (hx : 1 ≤ s.xNum) (hy : 1 ≤ s.yNum) :
    IsValidCoord s (UpdateGoalLocation E s).goalGridCoord = true := by
  unfold UpdateGoalLocation
  rw [if_neg (not_not.mpr hdue)]
  split <;> exact WorldToGrid_valid E s _ hx hy

theorem CreateGrid_dirty (E : Engine) (s : AFlowField) (hd : s.bIsGridDirty = true) :
    CreateGrid E s =
      { s with InitialCellsMap := fillGrid E s TMap.Empty, CurrentCellsMap := TMap.Empty,
               bIsGridDirty := false } := by
  unfold CreateGrid
  simp only [hd, Bool.not_true, Bool.false_eq_true, if_false]

/-- The state in which `DrawDebug` and the first tick after `BeginPlay` call
`CalculateFlowField` satisfies `GridReady`: after `InitFlowField` in the mode
Construction or BeginPlay (with an interval the clamp leaves alone, and sizes
whose cell counts fit an `int32`), `UpdateGoalLocation` and `CreateGrid`, the
goal coordinate is in bounds and the grid holds a fresh sample for each of the
`xNum * yNum` coordinates. -/
theorem gridReady_after_build (E : Engine) (s : AFlowField) (InitMode : EInitMode)
    (hmode : InitMode ≠ EInitMode.Ticking) (h0 : 0 ≤ s.updateInterval)
    (h1 : s.updateInterval ≤ FLT_MAX) (hfit : CellCountFits (InitFlowField InitMode s)) :
    GridReady (CreateGrid E (UpdateGoalLocation E (InitFlowField InitMode s))) ∧
    (CreateGrid E (UpdateGoalLocation E (InitFlowField InitMode s))).nextTickTimeLeft =
      (CreateGrid E (UpdateGoalLocation E (InitFlowField InitMode s))).updateInterval := by
  have hsz := (InitFlowField_sizes InitMode s).2 hfit
  have hdue : (InitFlowField InitMode s).nextTickTimeLeft =
      (InitFlowField InitMode s).updateInterval := by
    cases InitMode with
    | Construction =>
      show Clamp s.updateInterval 0 FLT_MAX = s.updateInterval
      unfold Clamp
      rw [min_eq_left h1, max_eq_left h0]
    | BeginPlay =>
      show Clamp s.updateInterval 0 FLT_MAX = s.updateInterval
      unfold Clamp
      rw [min_eq_left h1, max_eq_left h0]
    | Ticking => exact absurd rfl hmode
  have hdirty : (InitFlowField InitMode s).bIsGridDirty = true := by
    cases InitMode with
    | Construction => rfl
    | BeginPlay => rfl
    | Ticking => exact absurd rfl hmode
  have hf := UpdateGoalLocation_frame E (InitFlowField InitMode s)
  have hgoal := UpdateGoalLocation_goal E (InitFlowField InitMode s) hdue hsz.1 hsz.2
  have hd' : (UpdateGoalLocation E (InitFlowField InitMode s)).bIsGridDirty = true :=
    hf.2.2.2.2.2.2.trans hdirty
  have hvalid : ∀ c, IsValidCoord (UpdateGoalLocation E (InitFlowField InitMode s)) c =
      IsValidCoord (InitFlowField InitMode s) c := by
    intro c
    unfold IsValidCoord
    rw [hf.2.2.1, hf.2.2.2.1]
  obtain ⟨f1, _, f3⟩ := fillGrid_spec E (UpdateGoalLocation E (InitFlowField InitMode s))
  rw [CreateGrid_dirty E _ hd']
  refine ⟨⟨?_, ?_, ?_⟩, ?_⟩
  · show IsValidCoord (UpdateGoalLocation E (InitFlowField InitMode s))
      (UpdateGoalLocation E (InitFlowField InitMode s)).goalGridCoord = true
    rw [hvalid]
    exact hgoal
  · intro c hc
    show (((fillGrid E (UpdateGoalLocation E (InitFlowField InitMode s)) TMap.Empty).val c).gridCoord
      = c) ∧ _
    rw [f3 c hc]
    exact EnvQuery_gridCoord_dist E _ c
  · exact f1
  · show (UpdateGoalLocation E (InitFlowField InitMode s)).nextTickTimeLeft =
      (UpdateGoalLocation E (InitFlowField InitMode s)).updateInterval
    rw [hf.2.2.2.2.1, hf.2.2.2.2.2.1]
    exact hdue

/-! ## C12: the sizes after the initialisation -/

theorem initCommon_clamped (s : AFlowField) : SizesClamped s (initCommon s) := by
  refine ⟨(initCommon_sizes s).1, ?_, ?_, ?_, ?_, rfl⟩
  · show Clamp s.cellSize (1 / 10) FLT_MAX ≤
      Clamp s.flowFieldSize.X (Clamp s.cellSize (1 / 10) FLT_MAX) FLT_MAX
    exact Clamp_ge_min
  · show Clamp s.cellSize (1 / 10) FLT_MAX ≤
      Clamp s.flowFieldSize.Y (Clamp s.cellSize (1 / 10) FLT_MAX) FLT_MAX
    exact Clamp_ge_min
  · show (0 : Int) ≤ Clamp s.initialCost 0 255
    exact le_max_right _ _
  · show Clamp s.initialCost 0 255 ≤ (255 : Int)
    exact max_le (min_le_right _ _) (by decide)

/-- C12 (amended): for every input cell size, extent and initial cost (zero and
negative values included) and every init mode, after `InitFlowField` and after
`InitFlowFieldMinimal` the cell size is at least 0.1, the extent is at least one
cell size along X and along Y, the initial cost lies in `[0, 255]`, and the
height of the extent is unchanged; `xNum` and `yNum` are at least 1 whenever
the clamped extent holds fewer than 2^31 cells along each axis (extent divided
by cell size below 2^31 - 1/2), so that the rounded quotients fit the `int32`
they are stored in. -/
theorem init_clamps_sizes (InitMode : EInitMode) (s : AFlowField) :
    (SizesClamped s (InitFlowField InitMode s) ∧
      (CellCountFits (InitFlowField InitMode s) →
        1 ≤ (InitFlowField InitMode s).xNum ∧ 1 ≤ (InitFlowField InitMode s).yNum)) ∧
    (SizesClamped s (InitFlowFieldMinimal InitMode s) ∧
      (CellCountFits (InitFlowFieldMinimal InitMode s) →
        1 ≤ (InitFlowFieldMinimal InitMode s).xNum ∧
          1 ≤ (InitFlowFieldMinimal InitMode s).yNum)) := by
  constructor
  · unfold InitFlowField
    split
    · exact ⟨initCommon_clamped _, (initCommon_sizes _).2⟩
    · exact ⟨initCommon_clamped s, (initCommon_sizes s).2⟩
  · unfold InitFlowFieldMinimal
    split
    · exact ⟨initCommon_clamped _, (initCommon_sizes _).2⟩
    · exact ⟨initCommon_clamped s, (initCommon_sizes s).2⟩

/-- On the 3×3 scenario, initialised at `BeginPlay`: three cells along each axis. -/
theorem init_clamps_sizes_witness :
    CellCountFits (InitFlowField EInitMode.BeginPlay unitGrid3) ∧
    CellCountFits (InitFlowFieldMinimal EInitMode.BeginPlay unitGrid3) ∧
    (1 ≤ (InitFlowField EInitMode.BeginPlay unitGrid3).xNum ∧
      1 ≤ (InitFlowField EInitMode.BeginPlay unitGrid3).yNum) ∧
    (1 ≤ (InitFlowFieldMinimal EInitMode.BeginPlay unitGrid3).xNum ∧
      1 ≤ (InitFlowFieldMinimal EInitMode.BeginPlay unitGrid3).yNum) ∧
    (InitFlowField EInitMode.BeginPlay unitGrid3).xNum = 3 :=
  ⟨by unfold CellCountFits; decide!, by unfold CellCountFits; decide!,
    (init_clamps_sizes EInitMode.BeginPlay unitGrid3).1.2 (by unfold CellCountFits; decide!),
    (init_clamps_sizes EInitMode.BeginPlay unitGrid3).2.2 (by unfold CellCountFits; decide!),
    by decide!⟩

/-- C12, counterexample: with the extent 10^12 along X and the cell size 1, both
initialisations leave the clamped sizes as they are and store the rounded
quotient 10^12 in the `int32` member `xNum`, where it arrives as -727379968. -/
theorem huge_extent_wraps_cell_count :
    (InitFlowField EInitMode.BeginPlay hugeExtentField).cellSize = 1 ∧
    (InitFlowField EInitMode.BeginPlay hugeExtentField).flowFieldSize.X = 1000000000000 ∧
    (InitFlowField EInitMode.BeginPlay hugeExtentField).xNum = -727379968 ∧
    (InitFlowFieldMinimal EInitMode.BeginPlay hugeExtentField).xNum = -727379968 ∧
    ¬(1 ≤ (InitFlowField EInitMode.BeginPlay hugeExtentField).xNum) := by
  decide!

/-! ## C13: a refresh depends on the grid and the goal only -/

theorem integrationExpand_congr (E : Engine) {s s' : AFlowField} (h : SameRefreshInputs s s') :
    integrationExpand E s = integrationExpand E s' := by
  cases s
  cases s'
  obtain ⟨h1, h2, h3, h4, h5, h6⟩ := h
  simp only at h1 h2 h3 h4 h5 h6
  subst h1 h2 h3 h4 h5 h6
  rfl

theorem integrationInit_congr {s s' : AFlowField} (h : SameRefreshInputs s s') :
    integrationInit s = integrationInit s' ∧ integrationFuel s = integrationFuel s' := by
  cases s
  cases s'
  obtain ⟨h1, h2, h3, h4, h5, h6⟩ := h
  simp only at h1 h2 h3 h4 h5 h6
  subst h1 h2 h3 h4 h5 h6
  exact ⟨rfl, rfl⟩

theorem flowBody_congr (E : Engine) {s s' : AFlowField} (h : SameRefreshInputs s s') :
    flowBody E s = flowBody E s' := by
  cases s
  cases s'
  obtain ⟨h1, h2, h3, h4, h5, h6⟩ := h
  simp only at h1 h2 h3 h4 h5 h6
  subst h1 h2 h3 h4 h5 h6
  rfl

theorem integrationLoop_congr (E : Engine) {s s' : AFlowField} (h : SameRefreshInputs s s') :
    ∀ (fuel : Nat) (st : IntegrationState),
      integrationLoop E s fuel st = integrationLoop E s' fuel st := by
  intro fuel
  induction fuel with
  | zero => intro st; rfl
  | succ n ih =>
    intro st
    unfold integrationLoop
    cases popMin st.CellsToCheck with
    | none => rfl
    | some p =>
      simp only []
      rw [ih, integrationExpand_congr E h]

theorem CreateIntegrationField_congr (E : Engine) {s s' : AFlowField}
    (h : SameRefreshInputs s s') :
    CreateIntegrationField E s = CreateIntegrationField E s' := by
  unfold CreateIntegrationField
  rw [(integrationInit_congr h).1, (integrationInit_congr h).2, integrationLoop_congr E h]

/-- C13: if the grid, the goal coordinate, the topology and the maximum walkable
angle are the same in two states in which a refresh is due, `CalculateFlowField`
publishes the same map from both, whatever the published map and the other
members were before; in particular a second run right after a first publishes
the map of the first again. -/
theorem refresh_independent_of_published (E : Engine) {s s' : AFlowField}
    (h : SameRefreshInputs s s') (hdue : s.nextTickTimeLeft = s.updateInterval)
    (hdue' : s'.nextTickTimeLeft = s'.updateInterval) :
    (CalculateFlowField E s).CurrentCellsMap = (CalculateFlowField E s').CurrentCellsMap ∧
    (CalculateFlowField E (CalculateFlowField E s)).CurrentCellsMap =
      (CalculateFlowField E s).CurrentCellsMap := by
  have key : ∀ {a b : AFlowField}, SameRefreshInputs a b →
      a.nextTickTimeLeft = a.updateInterval → b.nextTickTimeLeft = b.updateInterval →
      (CalculateFlowField E a).CurrentCellsMap = (CalculateFlowField E b).CurrentCellsMap := by
    intro a b hab ha hb
    unfold CalculateFlowField
    rw [if_neg (not_not.mpr ha), if_neg (not_not.mpr hb)]
    simp only [CreateFlowField, flowBody_congr E hab, CreateIntegrationField_congr E hab,
      hab.1]
  refine ⟨key h hdue hdue', ?_⟩
  have hself : SameRefreshInputs (CalculateFlowField E s) s := by
    unfold CalculateFlowField
    rw [if_neg (not_not.mpr hdue)]
    exact ⟨rfl, rfl, rfl, rfl, rfl, rfl⟩
  have hdue2 : (CalculateFlowField E s).nextTickTimeLeft =
      (CalculateFlowField E s).updateInterval := by
    rw [(CalculateFlowField_frame E s).1, (CalculateFlowField_frame E s).2]
    exact hdue
  exact key hself hdue2 hdue

/-- On the 3×3 scenario: the first run starts from an empty published map, the
second from the map the first published. -/
theorem refresh_independent_of_published_witness :
    SameRefreshInputs unitGrid3 (CalculateFlowField flatEngine unitGrid3) ∧
    unitGrid3.nextTickTimeLeft = unitGrid3.updateInterval ∧
    (CalculateFlowField flatEngine unitGrid3).nextTickTimeLeft =
      (CalculateFlowField flatEngine unitGrid3).updateInterval ∧
    (CalculateFlowField flatEngine unitGrid3).CurrentCellsMap =
      (CalculateFlowField flatEngine (CalculateFlowField flatEngine unitGrid3)).CurrentCellsMap :=
  ⟨⟨rfl, rfl, rfl, rfl, rfl, rfl⟩, rfl, rfl,
    (refresh_independent_of_published flatEngine
      (show SameRefreshInputs unitGrid3 (CalculateFlowField flatEngine unitGrid3) from
        ⟨rfl, rfl, rfl, rfl, rfl, rfl⟩) rfl rfl).1⟩

/-! ## C11: the writes to the published map during a refresh -/

theorem CreateFlowField_congr (E : Engine) {s s' : AFlowField} (h : SameRefreshInputs s s')
    (n : Nat) (cells : FVector2D → FCellStruct) :
    CreateFlowField E s n cells = CreateFlowField E s' n cells := by
  unfold CreateFlowField
  rw [flowBody_congr E h]

/-- C11 (amended): a run of `CalculateFlowField` that passes its guard assigns to
the published map three times. The first statement replaces it by the grid
(`InitialCellsMap`), the second sets the cost of the goal cell in it to 0, and
the final commit stores the result; the integration and flow passes in between
write the local copy only. From the first statement to the commit the published
map therefore shows the grid, with every in-bounds cell at the sentinel 65535,
not the result of the previous refresh. The run ends in the state
`CalculateFlowField` returns, and a run stopped by the guard assigns nothing. -/
theorem published_map_writes (E : Engine) (s : AFlowField) :
    (s.nextTickTimeLeft ≠ s.updateInterval → CalculateFlowFieldTrace E s = [s]) ∧
    (s.nextTickTimeLeft = s.updateInterval →
      CalculateFlowFieldTrace E s =
        [s, { s with CurrentCellsMap := s.InitialCellsMap },
          { s with CurrentCellsMap := ⟨s.InitialCellsMap.keys, workingCells s⟩ },
          CalculateFlowField E s] ∧
      (GridReady s → ∀ c, IsValidCoord s c = true →
        (s.InitialCellsMap.val c).dist = 65535 ∧ (workingCells s c).dist = 65535)) := by
  constructor
  · intro h
    unfold CalculateFlowFieldTrace
    rw [if_pos h]
  · intro h
    constructor
    · have hs : SameRefreshInputs
          { s with CurrentCellsMap := ⟨s.InitialCellsMap.keys, workingCells s⟩ } s :=
        ⟨rfl, rfl, rfl, rfl, rfl, rfl⟩
      have hloop := integrationLoop_congr E hs (integrationFuel s) (integrationInit s)
      have hflow := CreateFlowField_congr E hs s.InitialCellsMap.Num
        (integrationLoop E s (integrationFuel s) (integrationInit s)).NewCellsMap
      unfold CalculateFlowFieldTrace CalculateFlowField
      rw [if_neg (not_not.mpr h), if_neg (not_not.mpr h)]
      simp only [List.cons.injEq, true_and, and_true]
      refine ⟨rfl, ?_⟩
      show ({ s with CurrentCellsMap := ⟨s.InitialCellsMap.keys,
          CreateFlowField E { s with CurrentCellsMap := ⟨s.InitialCellsMap.keys, workingCells s⟩ }
            s.InitialCellsMap.Num
            (integrationLoop E
              { s with CurrentCellsMap := ⟨s.InitialCellsMap.keys, workingCells s⟩ }
              (integrationFuel s) (integrationInit s)).NewCellsMap⟩ } : AFlowField) = _
      rw [hloop, hflow]
      rfl
    · intro hr c hc
      refine ⟨(hr.cells c hc).2, ?_⟩
      unfold workingCells setCell
      split
      · next heq =>
        subst heq
        exact (hr.cells _ hc).2
      · exact (hr.cells c hc).2

/-- On the 3×3 scenario, before any refresh. -/
theorem published_map_writes_witness :
    unitGrid3.nextTickTimeLeft = unitGrid3.updateInterval ∧
    CalculateFlowFieldTrace flatEngine unitGrid3 =
      [unitGrid3, { unitGrid3 with CurrentCellsMap := unitGrid3.InitialCellsMap },
        { unitGrid3 with
          CurrentCellsMap := ⟨unitGrid3.InitialCellsMap.keys, workingCells unitGrid3⟩ },
        CalculateFlowField flatEngine unitGrid3] :=
  ⟨rfl, ((published_map_writes flatEngine unitGrid3).2 rfl).1⟩

/-- C11, counterexample: a second refresh of the 3×3 scenario. On entry the
published map is the result of the first refresh (cell (0,1) holds 1 and points
at the goal); after the first statement of the run, before any commit, it is the
grid again (cell (0,1) holds 65535 and the zero direction). -/
theorem second_refresh_overwrites_first :
    ((CalculateFlowField flatEngine unitGrid3).CurrentCellsMap.val (0, 1)).dist = 1 ∧
    ((CalculateFlowField flatEngine unitGrid3).CurrentCellsMap.val (0, 1)).dir = ⟨1, 0, 0⟩ ∧
    (((CalculateFlowFieldTrace flatEngine (CalculateFlowField flatEngine unitGrid3)).map
      (fun st => (st.CurrentCellsMap.val (0, 1)).dist)) = [1, 65535, 65535, 1]) ∧
    (((CalculateFlowFieldTrace flatEngine (CalculateFlowField flatEngine unitGrid3)).map
      (fun st => (st.CurrentCellsMap.val (0, 1)).dir)) =
        [⟨1, 0, 0⟩, ⟨0, 0, 0⟩, ⟨0, 0, 0⟩, ⟨1, 0, 0⟩]) := by
  decide

/-! ## C14: popped entries and stale values -/

theorem integrationAccepts_cost {E : Engine} {s : AFlowField} {cells : FVector2D → FCellStruct}
    {cur : FCellStruct} {nbrs : List FVector2D} {i : Nat}
    (h : integrationAccepts E s cells cur nbrs i = true) :
    (cells (nbrs.getD i (0, 0))).cost ≠ 255 := by
  have hv := integrationAccepts_valid h
  unfold integrationAccepts at h
  intro hcost
  simp only [hv, Bool.not_true, hcost, if_true] at h
  exact Bool.false_ne_true h

theorem integrationAccepts_slope {E : Engine} {s : AFlowField} {cells : FVector2D → FCellStruct}
    {cur : FCellStruct} {nbrs : List FVector2D} {i : Nat}
    (h : integrationAccepts E s cells cur nbrs i = true) (hcur : cur.cost ≠ 255) :
    E.slopeExceeds cur.worldLoc (cells (nbrs.getD i (0, 0))).worldLoc s.maxWalkableAngle =
      false := by
  unfold integrationAccepts at h
  simp only [] at h
  split_ifs at h with h1 h2 h3 h4
  cases hs : E.slopeExceeds cur.worldLoc (cells (nbrs.getD i (0, 0))).worldLoc s.maxWalkableAngle
  · rfl
  · exact absurd ⟨hs, hcur⟩ h4

theorem IsValidDiagonal_intro {s : AFlowField} {cells : FVector2D → FCellStruct}
    {nbrs : List FVector2D} {a b : Nat}
    (ha : IsValidCoord s (nbrs.getD a (0, 0)) = true → (cells (nbrs.getD a (0, 0))).cost ≠ 255)
    (hb : IsValidCoord s (nbrs.getD b (0, 0)) = true → (cells (nbrs.getD b (0, 0))).cost ≠ 255) :
    IsValidDiagonal s cells nbrs a b = true := by
  unfold IsValidDiagonal
  by_cases hA : IsValidCoord s (nbrs.getD a (0, 0)) = true
  · by_cases hB : IsValidCoord s (nbrs.getD b (0, 0)) = true
    · simp only [hA, hB, if_true, if_neg (ha hA), if_neg (hb hB)]
    · simp only [hA, hB, if_true, if_neg (ha hA)]
      rfl
  · by_cases hB : IsValidCoord s (nbrs.getD b (0, 0)) = true
    · simp only [hA, hB, if_true, if_neg (hb hB)]
      rfl
    · simp only [hA, hB]
      rfl

/-- What an accepted edge of the integration pass means for the two cells: the
entered cell is an in-bounds, passable neighbour, the corner pair of a diagonal
step is passable, and the slope test does not fire for a passable start. -/
theorem IntegrationEdge.sem {E : Engine} {s : AFlowField} {cells : FVector2D → FCellStruct}
    {p c : FVector2D} (h : IntegrationEdge E s cells p c) :
    IsValidCoord s c = true ∧ (cells c).cost ≠ 255 ∧
    (c.1 - p.1 ≤ 1 ∧ p.1 - c.1 ≤ 1 ∧ c.2 - p.2 ≤ 1 ∧ p.2 - c.2 ≤ 1 ∧ c ≠ p) ∧
    (c.1 ≠ p.1 → c.2 ≠ p.2 →
      (IsValidCoord s (c.1, p.2) = true → (cells (c.1, p.2)).cost ≠ 255) ∧
      (IsValidCoord s (p.1, c.2) = true → (cells (p.1, c.2)).cost ≠ 255)) ∧
    ((cells p).cost ≠ 255 →
      E.slopeExceeds (cells p).worldLoc (cells c).worldLoc s.maxWalkableAngle = false) := by
  obtain ⟨i, hi, hv, hacc⟩ := h
  have hvalid : IsValidCoord s c = true := hv ▸ integrationAccepts_valid hacc
  have hcost : (cells c).cost ≠ 255 := hv ▸ integrationAccepts_cost hacc
  have hslope : (cells p).cost ≠ 255 →
      E.slopeExceeds (cells p).worldLoc (cells c).worldLoc s.maxWalkableAngle = false :=
    fun hp => hv ▸ integrationAccepts_slope hacc hp
  refine ⟨hvalid, hcost, ?_, ?_, hslope⟩
  · obtain ⟨x, y⟩ := p
    cases hS : s.Style with
    | DiagonalFirst =>
      rw [hS] at hi hv
      have hi4 : i < 4 := hi
      interval_cases i <;> simp [integrationNeighborCoords] at hv <;> subst hv <;> simp
    | AdjacentFirst =>
      rw [hS] at hi hv
      have hi8 : i < 8 := hi
      interval_cases i <;> simp [integrationNeighborCoords] at hv <;> subst hv <;> simp
  · obtain ⟨x, y⟩ := p
    intro hx hy
    cases hS : s.Style with
    | DiagonalFirst =>
      rw [hS] at hi hv
      have hi4 : i < 4 := hi
      interval_cases i <;> simp [integrationNeighborCoords] at hv <;> subst hv <;> simp at hx hy
    | AdjacentFirst =>
      have hS' : s.Style = EStyle.AdjacentFirst := hS
      rw [hS] at hi hv hacc
      have hi8 : i < 8 := hi
      interval_cases i
      · have hd := IsValidDiagonal_cost (integrationAccepts_diag hacc hS' (a := 4) (b := 5) (by simp))
        simp only [integrationNeighborCoords, List.getD_cons_zero, List.getD_cons_succ,
          add_zero] at hd hv
        subst hv
        exact ⟨hd.2, hd.1⟩
      · have hd := IsValidDiagonal_cost (integrationAccepts_diag hacc hS' (a := 5) (b := 6) (by simp))
        simp only [integrationNeighborCoords, List.getD_cons_zero, List.getD_cons_succ,
          add_zero] at hd hv
        subst hv
        exact ⟨hd.1, hd.2⟩
      · have hd := IsValidDiagonal_cost (integrationAccepts_diag hacc hS' (a := 6) (b := 7) (by simp))
        simp only [integrationNeighborCoords, List.getD_cons_zero, List.getD_cons_succ,
          add_zero] at hd hv
        subst hv
        exact ⟨hd.2, hd.1⟩
      · have hd := IsValidDiagonal_cost (integrationAccepts_diag hacc hS' (a := 7) (b := 4) (by simp))
        simp only [integrationNeighborCoords, List.getD_cons_zero, List.getD_cons_succ,
          add_zero] at hd hv
        subst hv
        exact ⟨hd.1, hd.2⟩
      all_goals (simp [integrationNeighborCoords] at hv; subst hv; simp at hx hy)

/-- Every cell next to `u`, along an axis or a diagonal, is in the neighbour list
of the flow pass. -/
theorem flowNeighbor_index (u v : FVector2D) (h1 : v.1 - u.1 ≤ 1) (h2 : u.1 - v.1 ≤ 1)
    (h3 : v.2 - u.2 ≤ 1) (h4 : u.2 - v.2 ≤ 1) (hne : v ≠ u) :
    ∃ j, j < 8 ∧ (flowNeighborCoords u).getD j (0, 0) = v := by
  obtain ⟨x, y⟩ := u
  obtain ⟨a, b⟩ := v
  simp only at h1 h2 h3 h4
  have ha : a = x + -1 ∨ a = x + 0 ∨ a = x + 1 := by omega
  have hb : b = y + -1 ∨ b = y + 0 ∨ b = y + 1 := by omega
  rcases ha with rfl | rfl | rfl <;> rcases hb with rfl | rfl | rfl
  · exact ⟨7, by decide, rfl⟩
  · exact ⟨3, by decide, rfl⟩
  · exact ⟨6, by decide, rfl⟩
  · exact ⟨0, by decide, rfl⟩
  · exact absurd (by simp) hne
  · exact ⟨2, by decide, rfl⟩
  · exact ⟨4, by decide, rfl⟩
  · exact ⟨1, by decide, rfl⟩
  · exact ⟨5, by decide, rfl⟩

/-- The guards of the flow pass accept an in-bounds, passable neighbour when the
corner pair of a diagonal step is passable and the slope test does not fire. -/
theorem flowAccepts_of {E : Engine} {s : AFlowField} {cells : FVector2D → FCellStruct}
    {u : FVector2D} {j : Nat} (hj : j < 8)
    (hvalid : IsValidCoord s ((flowNeighborCoords u).getD j (0, 0)) = true)
    (hcost : (cells ((flowNeighborCoords u).getD j (0, 0))).cost ≠ 255)
    (hcorner : ((flowNeighborCoords u).getD j (0, 0)).1 ≠ u.1 →
      ((flowNeighborCoords u).getD j (0, 0)).2 ≠ u.2 →
      (IsValidCoord s (((flowNeighborCoords u).getD j (0, 0)).1, u.2) = true →
        (cells (((flowNeighborCoords u).getD j (0, 0)).1, u.2)).cost ≠ 255) ∧
      (IsValidCoord s (u.1, ((flowNeighborCoords u).getD j (0, 0)).2) = true →
        (cells (u.1, ((flowNeighborCoords u).getD j (0, 0)).2)).cost ≠ 255))
    (hslope : (cells u).cost ≠ 255 →
      E.slopeExceeds (cells u).worldLoc (cells ((flowNeighborCoords u).getD j (0, 0))).worldLoc
        s.maxWalkableAngle = false) :
    flowAccepts E s cells (cells u) (flowNeighborCoords u) j = true := by
  obtain ⟨x, y⟩ := u
  have hdiag : ¬((cells (x, y)).cost ≠ 255 ∧
      ((j = 4 ∧ (!IsValidDiagonal s cells (flowNeighborCoords (x, y)) 0 1) = true) ∨
       (j = 5 ∧ (!IsValidDiagonal s cells (flowNeighborCoords (x, y)) 1 2) = true) ∨
       (j = 6 ∧ (!IsValidDiagonal s cells (flowNeighborCoords (x, y)) 2 3) = true) ∨
       (j = 7 ∧ (!IsValidDiagonal s cells (flowNeighborCoords (x, y)) 3 0) = true))) := by
    rintro ⟨_, hor⟩
    rcases hor with ⟨rfl, hd⟩ | ⟨rfl, hd⟩ | ⟨rfl, hd⟩ | ⟨rfl, hd⟩
    · have hc := hcorner (by simp [flowNeighborCoords]) (by simp [flowNeighborCoords])
      simp only [flowNeighborCoords, List.getD_cons_zero, List.getD_cons_succ] at hc
      have := @IsValidDiagonal_intro s cells (flowNeighborCoords (x, y)) 0 1
        (by simp only [flowNeighborCoords, List.getD_cons_zero, List.getD_cons_succ, add_zero]
            exact hc.2)
        (by simp only [flowNeighborCoords, List.getD_cons_zero, List.getD_cons_succ, add_zero]
            exact hc.1)
      rw [this] at hd
      exact Bool.false_ne_true hd
    · have hc := hcorner (by simp [flowNeighborCoords]) (by simp [flowNeighborCoords])
      simp only [flowNeighborCoords, List.getD_cons_zero, List.getD_cons_succ] at hc
      have := @IsValidDiagonal_intro s cells (flowNeighborCoords (x, y)) 1 2
        (by simp only [flowNeighborCoords, List.getD_cons_zero, List.getD_cons_succ, add_zero]
            exact hc.1)
        (by simp only [flowNeighborCoords, List.getD_cons_zero, List.getD_cons_succ, add_zero]
            exact hc.2)
      rw [this] at hd
      exact Bool.false_ne_true hd
    · have hc := hcorner (by simp [flowNeighborCoords]) (by simp [flowNeighborCoords])
      simp only [flowNeighborCoords, List.getD_cons_zero, List.getD_cons_succ] at hc
      have := @IsValidDiagonal_intro s cells (flowNeighborCoords (x, y)) 2 3
        (by simp only [flowNeighborCoords, List.getD_cons_zero, List.getD_cons_succ, add_zero]
            exact hc.2)
        (by simp only [flowNeighborCoords, List.getD_cons_zero, List.getD_cons_succ, add_zero]
            exact hc.1)
      rw [this] at hd
      exact Bool.false_ne_true hd
    · have hc := hcorner (by simp [flowNeighborCoords]) (by simp [flowNeighborCoords])
      simp only [flowNeighborCoords, List.getD_cons_zero, List.getD_cons_succ] at hc
      have := @IsValidDiagonal_intro s cells (flowNeighborCoords (x, y)) 3 0
        (by simp only [flowNeighborCoords, List.getD_cons_zero, List.getD_cons_succ, add_zero]
            exact hc.1)
        (by simp only [flowNeighborCoords, List.getD_cons_zero, List.getD_cons_succ, add_zero]
            exact hc.2)
      rw [this] at hd
      exact Bool.false_ne_true hd
  have hsl : ¬(E.slopeExceeds (cells (x, y)).worldLoc
      (cells ((flowNeighborCoords (x, y)).getD j (0, 0))).worldLoc s.maxWalkableAngle = true ∧
      (cells (x, y)).cost ≠ 255) := by
    rintro ⟨hs, hcur⟩
    rw [hslope hcur] at hs
    exact Bool.false_ne_true hs
  unfold flowAccepts
  simp only []
  rw [if_neg (by rw [hvalid]; decide), if_neg hcost, if_neg hdiag, if_neg hsl]

theorem integrationField_same (E : Engine) {s : AFlowField} (h : GridReady s) (c : FVector2D) :
    (integrationField E s c).cost = (seededCells s c).cost ∧
    (integrationField E s c).worldLoc = (seededCells s c).worldLoc :=
  ⟨eraseDist_cost (CreateIntegrationField_same E h c),
    eraseDist_worldLoc (CreateIntegrationField_same E h c)⟩

/-- A cell with a value below the sentinel is passable in the working map. -/
theorem integrationField_passable (E : Engine) {s : AFlowField} (h : GridReady s)
    {c : FVector2D} (hc : IsValidCoord s c = true) (hlt : integrationValue E s c < 65535) :
    (seededCells s c).cost ≠ 255 := by
  by_cases hg : c = s.goalGridCoord
  · subst hg
    rw [seededCells_goal]
    show (0 : Nat) ≠ 255
    omega
  · obtain ⟨p, _, hedge, _⟩ := integrationValue_pred E h hc hg hlt
    exact hedge.sem.2.1

/-- The edge a cell was relaxed along is accepted by the flow pass in the other
direction, when the slope test is symmetric. -/
theorem flowAccepts_of_edge (E : Engine) {s : AFlowField} (h : GridReady s)
    (hsym : SlopeSymmetric E) {p c : FVector2D} (hp : IsValidCoord s p = true)
    (hpc : (seededCells s p).cost ≠ 255)
    (hedge : IntegrationEdge E s (seededCells s) p c) :
    ∃ j, j < 8 ∧ (flowNeighborCoords c).getD j (0, 0) = p ∧
      flowAccepts E s (integrationField E s) (integrationField E s c) (flowNeighborCoords c) j =
        true := by
  obtain ⟨_, _, ⟨h1, h2, h3, h4, hne⟩, hcorner, hslope⟩ := hedge.sem
  obtain ⟨j, hj, hjp⟩ := flowNeighbor_index c p h2 h1 h4 h3 (Ne.symm hne)
  refine ⟨j, hj, hjp, flowAccepts_of hj ?_ ?_ ?_ ?_⟩
  · rw [hjp]
    exact hp
  · rw [hjp, (integrationField_same E h p).1]
    exact hpc
  · rw [hjp]
    intro hx hy
    obtain ⟨c1, c2⟩ := hcorner (Ne.symm hx) (Ne.symm hy)
    rw [(integrationField_same E h _).1, (integrationField_same E h _).1]
    exact ⟨c2, c1⟩
  · intro _
    rw [hjp, (integrationField_same E h c).2, (integrationField_same E h p).2, hsym]
    exact hslope hpc

theorem bestNeighbor_of_best {E : Engine} {s : AFlowField} (h : GridReady s) {c : FVector2D}
    {i : Nat}
    (hv : IsValidCoord s ((flowNeighborCoords c).getD i (0, 0)) = true)
    (hbest : (flowBest E s (integrationField E s) c).bestCell =
      some (integrationField E s ((flowNeighborCoords c).getD i (0, 0)))) :
    bestNeighbor E s c = some ((flowNeighborCoords c).getD i (0, 0)) := by
  unfold bestNeighbor
  rw [hbest, Option.map_some', integrationField_gridCoord E h hv]

/-- A cell other than the goal with a value below the sentinel has a best
neighbour, in bounds and of strictly smaller value; the cell it was relaxed from
is among the candidates. -/
theorem bestNeighbor_exists (E : Engine) {s : AFlowField} (h : GridReady s)
    (hsym : SlopeSymmetric E) (hpos : PassableCostsPositive s) {c : FVector2D}
    (hc : IsValidCoord s c = true) (hg : c ≠ s.goalGridCoord)
    (hlt : integrationValue E s c < 65535) :
    (∃ p j, IntegrationEdge E s (seededCells s) p c ∧
      integrationValue E s c = integrationValue E s p + (seededCells s c).cost ∧
      FlowCandidate E s (integrationField E s) c j ∧ (flowNeighborCoords c).getD j (0, 0) = p) ∧
    ∃ b, bestNeighbor E s c = some b ∧ IsValidCoord s b = true ∧
      integrationValue E s b < integrationValue E s c ∧
      flowDir E s (integrationField E s) c =
        E.GetDirectionUnitVector (integrationField E s c).worldLoc
          (integrationField E s b).worldLoc := by
  obtain ⟨p, hp, hedge, heq⟩ := integrationValue_pred E h hc hg hlt
  have hcc : (seededCells s c).cost ≠ 255 := hedge.sem.2.1
  have hc1 : 1 ≤ (seededCells s c).cost := by
    rw [seededCells_of_ne s hg] at hcc ⊢
    exact (hpos c hc hg hcc).1
  have hplt : integrationValue E s p < integrationValue E s c := by omega
  have hpc : (seededCells s p).cost ≠ 255 := integrationField_passable E h hp (by omega)
  obtain ⟨j, hj, hjp, hacc⟩ := flowAccepts_of_edge E h hsym hp hpc hedge
  have hcand : FlowCandidate E s (integrationField E s) c j :=
    ⟨hj, hacc, by rw [hjp]; exact hplt⟩
  refine ⟨⟨p, j, hedge, heq, hcand, hjp⟩, ?_⟩
  rcases flowBest_spec E s (integrationField E s) c with ⟨_, hno⟩ | ⟨i, hi, hbest, _, _⟩
  · exact absurd hcand (hno j)
  · have hv := flowAccepts_valid hi.2.1
    exact ⟨_, bestNeighbor_of_best h hv hbest, hv, hi.2.2, flowDir_of_some hbest⟩

theorem followFlow_succ (E : Engine) (s : AFlowField) :
    ∀ (n : Nat) (c : FVector2D),
      followFlow E s (n + 1) c = followFlow E s n (flowStep E s c) := by
  intro n
  induction n with
  | zero => intro c; rfl
  | succ k ih =>
    intro c
    show flowStep E s (followFlow E s (k + 1) c) = flowStep E s (followFlow E s k (flowStep E s c))
    rw [ih]

/-- Following the flow field from a cell with a value below the sentinel reaches
the goal, the value falling at every step. -/
theorem followFlow_reaches_goal (E : Engine) {s : AFlowField} (h : GridReady s)
    (hsym : SlopeSymmetric E) (hpos : PassableCostsPositive s) :
    ∀ (m : Nat) (c : FVector2D), IsValidCoord s c = true → integrationValue E s c < 65535 →
      integrationValue E s c ≤ m →
      ∃ n, n ≤ integrationValue E s c ∧ followFlow E s n c = s.goalGridCoord ∧
        ∀ k, k < n → integrationValue E s (followFlow E s (k + 1) c) <
          integrationValue E s (followFlow E s k c) := by
  intro m
  induction m with
  | zero =>
    intro c hc hlt hm
    by_cases hg : c = s.goalGridCoord
    · exact ⟨0, Nat.zero_le _, hg, fun k hk => absurd hk (Nat.not_lt_zero k)⟩
    · obtain ⟨_, b, _, _, hb, _⟩ := bestNeighbor_exists E h hsym hpos hc hg hlt
      omega
  | succ m ih =>
    intro c hc hlt hm
    by_cases hg : c = s.goalGridCoord
    · exact ⟨0, Nat.zero_le _, hg, fun k hk => absurd hk (Nat.not_lt_zero k)⟩
    · obtain ⟨_, b, hbest, hbv, hb, _⟩ := bestNeighbor_exists E h hsym hpos hc hg hlt
      have hstep : flowStep E s c = b := by
        unfold flowStep
        rw [hbest]
        rfl
      obtain ⟨n, hn, hgoal, hdec⟩ := ih b hbv (by omega) (by omega)
      refine ⟨n + 1, by omega, ?_, fun k hk => ?_⟩
      · rw [followFlow_succ, hstep]
        exact hgoal
      · cases k with
        | zero =>
          show integrationValue E s (flowStep E s c) < integrationValue E s c
          rw [hstep]
          exact hb
        | succ k =>
          rw [followFlow_succ, followFlow_succ E s k c, hstep]
          exact hdec k (by omega)

theorem flatEngine_slopeSymmetric : SlopeSymmetric flatEngine := fun _ _ _ => rfl

theorem unitGrid3_costs : PassableCostsPositive unitGrid3 :=
  fun _ _ _ _ => ⟨le_refl 1, show (1 : Nat) ≤ 254 by omega⟩

/-- C15: on a grid whose passable cells other than the goal have a cost between 1
and 254, with a slope test that does not depend on the order of the two cells, a
cell other than the goal whose integration value is not the sentinel has the
cell it was relaxed from among the candidates of the flow pass, with a strictly
smaller value; the flow pass selects a best neighbour for it, in bounds and of
strictly smaller value, and writes the unit direction to it; and stepping from
best neighbour to best neighbour reaches the goal after finitely many steps, the
value falling strictly at every step. -/
theorem flow_descends_to_goal (E : Engine) {s : AFlowField} (h : GridReady s)
    (hsym : SlopeSymmetric E) (hpos : PassableCostsPositive s) {c : FVector2D}
    (hc : IsValidCoord s c = true) (hg : c ≠ s.goalGridCoord)
    (hne : integrationValue E s c ≠ 65535) :
    (∃ p j, IntegrationEdge E s (seededCells s) p c ∧
      integrationValue E s c = integrationValue E s p + (seededCells s c).cost ∧
      integrationValue E s p < integrationValue E s c ∧
      FlowCandidate E s (integrationField E s) c j ∧
      (flowNeighborCoords c).getD j (0, 0) = p) ∧
    (∃ b, bestNeighbor E s c = some b ∧ IsValidCoord s b = true ∧
      integrationValue E s b < integrationValue E s c ∧
      flowDir E s (integrationField E s) c =
        E.GetDirectionUnitVector (integrationField E s c).worldLoc
          (integrationField E s b).worldLoc) ∧
    ∃ n, followFlow E s n c = s.goalGridCoord ∧
      ∀ k, k < n → integrationValue E s (followFlow E s (k + 1) c) <
        integrationValue E s (followFlow E s k c) := by
  have hlt : integrationValue E s c < 65535 :=
    lt_of_le_of_ne (integrationValue_le E h hc) hne
  obtain ⟨⟨p, j, hedge, heq, hcand, hjp⟩, hbest⟩ := bestNeighbor_exists E h hsym hpos hc hg hlt
  obtain ⟨n, _, hgoal, hdec⟩ :=
    followFlow_reaches_goal E h hsym hpos (integrationValue E s c) c hc hlt (le_refl _)
  refine ⟨⟨p, j, hedge, heq, ?_, hcand, hjp⟩, hbest, n, hgoal, hdec⟩
  have := hcand.2.2
  rw [hjp] at this
  exact this

/-- On the 3×3 scenario the corner cell (0,0) is led to the goal (1,1). -/
theorem flow_descends_to_goal_witness :
    GridReady unitGrid3 ∧ SlopeSymmetric flatEngine ∧ PassableCostsPositive unitGrid3 ∧
    IsValidCoord unitGrid3 (0, 0) = true ∧ (0, 0) ≠ unitGrid3.goalGridCoord ∧
    integrationValue flatEngine unitGrid3 (0, 0) ≠ 65535 ∧
    (∃ p j, IntegrationEdge flatEngine unitGrid3 (seededCells unitGrid3) p (0, 0) ∧
      integrationValue flatEngine unitGrid3 (0, 0) =
        integrationValue flatEngine unitGrid3 p + (seededCells unitGrid3 (0, 0)).cost ∧
      integrationValue flatEngine unitGrid3 p < integrationValue flatEngine unitGrid3 (0, 0) ∧
      FlowCandidate flatEngine unitGrid3 (integrationField flatEngine unitGrid3) (0, 0) j ∧
      (flowNeighborCoords (0, 0)).getD j (0, 0) = p) ∧
    (∃ b, bestNeighbor flatEngine unitGrid3 (0, 0) = some b ∧
      IsValidCoord unitGrid3 b = true ∧
      integrationValue flatEngine unitGrid3 b < integrationValue flatEngine unitGrid3 (0, 0) ∧
      flowDir flatEngine unitGrid3 (integrationField flatEngine unitGrid3) (0, 0) =
        flatEngine.GetDirectionUnitVector
          (integrationField flatEngine unitGrid3 (0, 0)).worldLoc
          (integrationField flatEngine unitGrid3 b).worldLoc) ∧
    ∃ n, followFlow flatEngine unitGrid3 n (0, 0) = unitGrid3.goalGridCoord ∧
      ∀ k, k < n → integrationValue flatEngine unitGrid3
          (followFlow flatEngine unitGrid3 (k + 1) (0, 0)) <
        integrationValue flatEngine unitGrid3 (followFlow flatEngine unitGrid3 k (0, 0)) :=
  ⟨unitGrid3_ready, flatEngine_slopeSymmetric, unitGrid3_costs, by decide, by decide, by decide,
    flow_descends_to_goal flatEngine unitGrid3_ready flatEngine_slopeSymmetric unitGrid3_costs
      (by decide) (by decide) (by decide)⟩

end FlowField
